import Mathlib

/-!
# Verification of the scrub-in scheduling core

Shallow embedding of the schedule-generation and conflict-detection engine of
the scrub-in repository, together with proofs of the specified properties.

The repository contains two near-duplicate implementations of the engine:

* `src/client/src/lib/enhanced-scheduling-algorithm.ts` — the variant imported
  by the application (namespace `Enhanced` below);
* the copy embedded in `src/client/src/lib/format-date.ts` — a sibling variant
  whose generator additionally resets/increments rest counters for unassigned
  staff, whose conflict detector checks availability, and whose alternative
  staff suggester filters unavailable staff (namespace `FormatDate` below).

Modelling conventions:

* calendar dates are day numbers (`Int`); the TS code manipulates ISO `yyyy-mm-dd`
  strings, which are in bijection with day numbers (`getPreviousDay` is `· - 1`,
  the `getDay()` weekday accessor is `(d + 4) % 7` since Unix day 0, 1970-01-01,
  is a Thursday);
* `Record<number, T>` objects are total functions `Int → T` initialized with the
  corresponding default; presence checks performed by the source are modelled by
  the explicit membership tests the source relies on;
* JS truthiness on ids (`x || 0`, `x || null`, `if (x)`) is modelled explicitly
  (`0` and `null`/`undefined` are falsy);
* `Array.prototype.sort` (stable per ES2019) is modelled by a stable insertion
  sort on the same comparator.
-/

/-- A staff member (`StaffWithUser` in `@shared/schema`): the engine reads only
the id, the user's display names and the specialization tag. -/
structure Staff where
  id : Int
  firstName : String
  lastName : String
  specialization : Option String
deriving Repr, DecidableEq

/-- A shift type from the catalog; the engine matches shift types by `name`. -/
structure ShiftType where
  id : Int
  name : String
deriving Repr, DecidableEq

/-- A duty type from the catalog; matched by `name`
("Pre-Duty" / "Duty" / "Post-Duty"). -/
structure DutyType where
  id : Int
  name : String
deriving Repr, DecidableEq

/-- An availability record: any record with `isAvailable = false` for
`(staffId, date)` is a hard exclusion for that date. -/
structure Availability where
  staffId : Int
  date : Int
  isAvailable : Bool
deriving Repr, DecidableEq

/-- An existing schedule entry (`Schedule` in `@shared/schema`): has a
persisted id; `shiftTypeId` is nullable. -/
structure Schedule where
  id : Int
  staffId : Int
  date : Int
  shiftTypeId : Option Int
  dutyTypeId : Int
  unit : String
deriving Repr, DecidableEq

/-- A generated schedule entry (`InsertSchedule`): no persisted id;
`shiftTypeId` is `none` when the source stores `null`/`undefined`. -/
structure InsertSchedule where
  staffId : Int
  date : Int
  shiftTypeId : Option Int
  dutyTypeId : Int
  unit : String
deriving Repr, DecidableEq

/-- `ConflictType` enum of the source. -/
inductive ConflictType where
  | consecutive_shifts
  | exceeds_weekly_hours
  | rest_period_violation
  | unavailable_staff
  | existing_assignment
  | specialization_mismatch
deriving Repr, DecidableEq

/-- Conflict severity. -/
inductive Severity where
  | warning
  | error
deriving Repr, DecidableEq

/-- A `ScheduleConflict` record (`type` is named `ctype`, `type` being reserved
in Lean). -/
structure ScheduleConflict where
  ctype : ConflictType
  staffId : Int
  date : Int
  message : String
  severity : Severity
  staffName : Option String
deriving Repr, DecidableEq

/-- Per-staff running workload counters (`StaffLoad`). -/
structure StaffLoad where
  consecutiveShifts : Nat
  totalShifts : Nat
  nightShifts : Nat
  lastShiftDate : Option Int
  lastShiftType : Option Int
  restDays : Nat
  specialization : Option String
deriving Repr, DecidableEq

/-- Per-staff duty/shift distribution counters (`staffDutyPatterns` entries). -/
structure DutyPattern where
  preDuty : Nat
  duty : Nat
  postDuty : Nat
  dayShift : Nat
  eveningShift : Nat
  nightShift : Nat
deriving Repr, DecidableEq

/-- The input record of `generateSchedule` (`ScheduleInput`). -/
structure ScheduleInput where
  staff : List Staff
  shiftTypes : List ShiftType
  dutyTypes : List DutyType
  availabilities : List Availability
  startDate : Int
  endDate : Int
  unit : String
  existingSchedules : List Schedule
deriving Repr

/-- Maximum allowed consecutive shifts (source constant). -/
def MAX_CONSECUTIVE_SHIFTS : Nat := 5

/-- Maximum shifts per week (source constant). -/
def MAX_SHIFTS_PER_WEEK : Nat := 5

/-- JS truthiness of a nullable number: `null`/`undefined` and `0` are falsy. -/
def truthyOpt : Option Int → Bool
  | some x => x != 0
  | none => false

/-- Models `x || null` on a nullable/optional number `x`. -/
def orNull : Option Int → Option Int
  | some x => if x = 0 then none else some x
  | none => none

/-- Models `find(...)?.id || 0` on a catalog lookup. -/
def idOrZero : Option Int → Int
  | some x => x
  | none => 0

/-- Point update of a total function modelling a `Record<number, T>`. -/
def updateFn {α : Type} (f : Int → α) (i : Int) (v : α) : Int → α :=
  fun j => if j = i then v else f j

/-- `getPreviousDay`: one calendar day earlier. -/
def getPreviousDay (d : Int) : Int := d - 1

/-- `getWeekKey`: the Sunday starting the week of `d`
(`date.getDate() - date.getDay()`; Unix day 0 is a Thursday, weekday 4). -/
def getWeekKey (d : Int) : Int := d - (d + 4).emod 7

/-- The list of dates `start, start+1, ..., ` of length `n`. -/
def dateRangeAux (s : Int) : Nat → List Int
  | 0 => []
  | n + 1 => s :: dateRangeAux (s + 1) n

/-- All dates from `startDate` to `endDate` inclusive (empty when
`startDate > endDate`), as pushed by the source's date loop. -/
def dateRange (s e : Int) : List Int :=
  if s ≤ e then dateRangeAux s ((e - s).toNat + 1) else []

/-- Stable insertion of `x` (an element originally preceding everything in the
list) under a JS comparator: `x` passes exactly the elements strictly smaller
than it, so ties keep their original order. -/
def insertCmp {α : Type} (cmp : α → α → Int) (x : α) : List α → List α
  | [] => [x]
  | y :: ys => if cmp y x < 0 then y :: insertCmp cmp x ys else x :: y :: ys

/-- Stable sort under a JS comparator (models `Array.prototype.sort`, stable
per ES2019, for the consistent comparators used by the engine). -/
def sortByCmp {α : Type} (cmp : α → α → Int) : List α → List α
  | [] => []
  | x :: xs => insertCmp cmp x (sortByCmp cmp xs)

/-- The common shape of the source's category while loops
(`while (assigned < count && index < pool.length)`): walk the ranked pool,
run the per-candidate step, count and mark assignees. Each of the six
category loops below is an instance with its own step body. -/
def assignLoop {σ : Type} (step : Staff → σ → σ × Bool) (target : Nat) :
    List Staff → Nat → σ → (Int → Bool) → σ × (Int → Bool)
  | [], _, st, flag => (st, flag)
  | m :: rest, assigned, st, flag =>
    if assigned < target then
      if (step m st).2 then
        assignLoop step target rest (assigned + 1) (step m st).1 (updateFn flag m.id true)
      else
        assignLoop step target rest assigned (step m st).1 flag
    else (st, flag)

/-- Mutable state of one generation run: emitted schedules and conflicts (in
push order), the `staffLoads` and `staffDutyPatterns` records, and the
`weeklySchedules` nested record (week key → staff id → count). -/
structure GenState where
  schedules : List InsertSchedule
  conflicts : List ScheduleConflict
  loads : Int → StaffLoad
  patterns : Int → DutyPattern
  weekly : Int → Int → Nat

/-- Per-date `assignedShifts` record, keyed by staff id (the date component of
the source's string key is fixed within one date iteration). -/
def Flags : Type := Int → Bool

/-- Initial `StaffLoad` for staff member `s`. -/
def initLoad (s : Staff) : StaffLoad :=
  { consecutiveShifts := 0, totalShifts := 0, nightShifts := 0,
    lastShiftDate := none, lastShiftType := none, restDays := 0,
    specialization := s.specialization }

/-- Default `StaffLoad` read for ids never initialized. -/
def defaultLoad : StaffLoad :=
  { consecutiveShifts := 0, totalShifts := 0, nightShifts := 0,
    lastShiftDate := none, lastShiftType := none, restDays := 0,
    specialization := none }

/-- Initial (all-zero) `DutyPattern`. -/
def zeroPattern : DutyPattern :=
  { preDuty := 0, duty := 0, postDuty := 0,
    dayShift := 0, eveningShift := 0, nightShift := 0 }

/-- The ids the generator resolves from the catalogs before the date loop,
plus the fixed per-run inputs the date loop reads. -/
structure RunCtx where
  staff : List Staff
  availabilities : List Availability
  existingSchedules : List Schedule
  unit : String
  dates : List Int
  preDutyId : Int
  dutyId : Int
  postDutyId : Int
  dayShiftId : Option Int
  eveningShiftId : Option Int
  nightShiftId : Option Int

/-- The entry the day loop of either variant pushes for candidate `m` on date `d`. -/
def dayEntry (ctx : RunCtx) (d : Int) (m : Staff) : InsertSchedule :=
  { staffId := m.id, date := d, shiftTypeId := ctx.dayShiftId,
    dutyTypeId := ctx.dutyId, unit := ctx.unit }

/-- The entry the evening loop of either variant pushes. -/
def eveningEntry (ctx : RunCtx) (d : Int) (m : Staff) : InsertSchedule :=
  { staffId := m.id, date := d, shiftTypeId := ctx.eveningShiftId,
    dutyTypeId := ctx.dutyId, unit := ctx.unit }

/-- The entry the night loop of either variant pushes. -/
def nightEntry (ctx : RunCtx) (d : Int) (m : Staff) : InsertSchedule :=
  { staffId := m.id, date := d, shiftTypeId := ctx.nightShiftId,
    dutyTypeId := ctx.dutyId, unit := ctx.unit }

/-- The day-shift-tagged entry the enhanced variant's pre-duty phase pushes. -/
def preEntry (ctx : RunCtx) (d : Int) (m : Staff) : InsertSchedule :=
  { staffId := m.id, date := d, shiftTypeId := ctx.dayShiftId,
    dutyTypeId := ctx.preDutyId, unit := ctx.unit }

/-- The day-shift-tagged entry the enhanced variant's post-duty phase pushes. -/
def postEntry (ctx : RunCtx) (d : Int) (m : Staff) : InsertSchedule :=
  { staffId := m.id, date := d, shiftTypeId := ctx.dayShiftId,
    dutyTypeId := ctx.postDutyId, unit := ctx.unit }

/-- Display name of a staff member (`user.firstName + " " + user.lastName`). -/
def staffName (m : Staff) : String := m.firstName ++ " " ++ m.lastName

/-- Staff ids with an `isAvailable=false` availability record for `d`. -/
def unavailableStaffIds (avs : List Availability) (d : Int) : List Int :=
  (avs.filter (fun a => a.date == d && !a.isAvailable)).map (fun a => a.staffId)

/-- The multi-key fairness comparator both generator variants sort the
assignable pool with (identical in the two source files). -/
def staffComparator (loads : Int → StaffLoad) (patterns : Int → DutyPattern)
    (weeklyAt : Int → Nat) (unavailIds : List Int) (unit : String)
    (a b : Staff) : Int :=
  let aLoad := loads a.id
  let bLoad := loads b.id
  let aPattern := patterns a.id
  let bPattern := patterns b.id
  let isAUnavailable := unavailIds.contains a.id
  let isBUnavailable := unavailIds.contains b.id
  if isAUnavailable != isBUnavailable then
    (if isAUnavailable then 1 else -1)
  else if aLoad.totalShifts ≠ bLoad.totalShifts then
    (aLoad.totalShifts : Int) - (bLoad.totalShifts : Int)
  else if weeklyAt a.id ≠ weeklyAt b.id then
    (weeklyAt a.id : Int) - (weeklyAt b.id : Int)
  else
    let aDutyTotal := aPattern.duty + aPattern.preDuty + aPattern.postDuty
    let bDutyTotal := bPattern.duty + bPattern.preDuty + bPattern.postDuty
    if aDutyTotal ≠ bDutyTotal then
      (aDutyTotal : Int) - (bDutyTotal : Int)
    else
      let aShiftTotal := aPattern.dayShift + aPattern.eveningShift + aPattern.nightShift
      let bShiftTotal := bPattern.dayShift + bPattern.eveningShift + bPattern.nightShift
      if aShiftTotal ≠ bShiftTotal then
        (aShiftTotal : Int) - (bShiftTotal : Int)
      else if aPattern.dayShift ≠ bPattern.dayShift then
        (aPattern.dayShift : Int) - (bPattern.dayShift : Int)
      else if aPattern.eveningShift ≠ bPattern.eveningShift then
        (aPattern.eveningShift : Int) - (bPattern.eveningShift : Int)
      else if aPattern.nightShift ≠ bPattern.nightShift then
        (aPattern.nightShift : Int) - (bPattern.nightShift : Int)
      else if aLoad.restDays ≠ bLoad.restDays then
        (bLoad.restDays : Int) - (aLoad.restDays : Int)
      else if unit ≠ "" ∧ (aLoad.specialization == some unit) ≠ (bLoad.specialization == some unit) then
        (if aLoad.specialization == some unit then -1 else 1)
      else
        a.id - b.id

/-- Seeding step: how one existing schedule entry updates the workload
tracking before the date loop (identical in the two source files; ids are the
per-variant resolved catalog ids). -/
def seedSchedule (ctx : RunCtx) (st : GenState) (sch : Schedule) : GenState :=
  if ¬ ctx.staff.any (fun s => s.id == sch.staffId) then st
  else
    let load := st.loads sch.staffId
    let pat := st.patterns sch.staffId
    let load1 :=
      if truthyOpt sch.shiftTypeId then
        { load with totalShifts := load.totalShifts + 1,
                    lastShiftDate := some sch.date,
                    lastShiftType := sch.shiftTypeId,
                    nightShifts :=
                      if sch.shiftTypeId == ctx.nightShiftId then load.nightShifts + 1
                      else load.nightShifts }
      else load
    let pat1 :=
      if truthyOpt sch.shiftTypeId then
        if sch.shiftTypeId == ctx.nightShiftId then
          { pat with nightShift := pat.nightShift + 1 }
        else if sch.shiftTypeId == ctx.dayShiftId then
          { pat with dayShift := pat.dayShift + 1 }
        else if sch.shiftTypeId == ctx.eveningShiftId then
          { pat with eveningShift := pat.eveningShift + 1 }
        else pat
      else pat
    let pat2 :=
      if sch.dutyTypeId == ctx.dutyId then { pat1 with duty := pat1.duty + 1 }
      else if sch.dutyTypeId == ctx.preDutyId then { pat1 with preDuty := pat1.preDuty + 1 }
      else if sch.dutyTypeId == ctx.postDutyId then { pat1 with postDuty := pat1.postDuty + 1 }
      else pat1
    { st with
      loads := updateFn st.loads sch.staffId load1,
      patterns := updateFn st.patterns sch.staffId pat2,
      weekly :=
        fun wk sid =>
          if wk = getWeekKey sch.date ∧ sid = sch.staffId then
            st.weekly (getWeekKey sch.date) sch.staffId + 1
          else st.weekly wk sid }

/-- The state at the start of the date loop: per-staff tracking initialized,
then seeded from the existing schedules. -/
def initState (ctx : RunCtx) : GenState :=
  let loads0 := ctx.staff.foldl (fun f s => updateFn f s.id (initLoad s)) (fun _ => defaultLoad)
  let patterns0 := ctx.staff.foldl (fun f s => updateFn f s.id zeroPattern) (fun _ => zeroPattern)
  ctx.existingSchedules.foldl (seedSchedule ctx)
    { schedules := [], conflicts := [], loads := loads0, patterns := patterns0,
      weekly := fun _ _ => 0 }

/-- The sorted assignable pool for date `d`: unavailable staff removed, then
ranked by the fairness comparator (identical in the two source files). -/
def availablePool (ctx : RunCtx) (st : GenState) (d : Int) : List Staff :=
  let unavailIds := unavailableStaffIds ctx.availabilities d
  sortByCmp
    (staffComparator st.loads st.patterns (st.weekly (getWeekKey d)) unavailIds ctx.unit)
    (ctx.staff.filter (fun s => !unavailIds.contains s.id))

namespace Enhanced

/-- Resolved "Pre-Duty" id (`find(...)?.id || 0`). -/
def preDutyIdOf (input : ScheduleInput) : Int :=
  idOrZero ((input.dutyTypes.find? (fun dt => dt.name == "Pre-Duty")).map (fun dt => dt.id))

/-- Resolved "Duty" id. -/
def dutyIdOf (input : ScheduleInput) : Int :=
  idOrZero ((input.dutyTypes.find? (fun dt => dt.name == "Duty")).map (fun dt => dt.id))

/-- Resolved "Post-Duty" id. -/
def postDutyIdOf (input : ScheduleInput) : Int :=
  idOrZero ((input.dutyTypes.find? (fun dt => dt.name == "Post-Duty")).map (fun dt => dt.id))

/-- Resolved "Day Shift" id (may be absent). -/
def dayShiftIdOf (input : ScheduleInput) : Option Int :=
  (input.shiftTypes.find? (fun st => st.name == "Day Shift")).map (fun st => st.id)

/-- Resolved evening id: "Evening Shift" or "Mid Shift" (enhanced variant). -/
def eveningShiftIdOf (input : ScheduleInput) : Option Int :=
  (input.shiftTypes.find? (fun st => st.name == "Evening Shift" || st.name == "Mid Shift")).map
    (fun st => st.id)

/-- Resolved "Night Shift" id (may be absent). -/
def nightShiftIdOf (input : ScheduleInput) : Option Int :=
  (input.shiftTypes.find? (fun st => st.name == "Night Shift")).map (fun st => st.id)

/-- The per-run context the enhanced generator derives from its input. -/
def mkRunCtx (input : ScheduleInput) : RunCtx :=
  { staff := input.staff, availabilities := input.availabilities,
    existingSchedules := input.existingSchedules, unit := input.unit,
    dates := dateRange input.startDate input.endDate,
    preDutyId := preDutyIdOf input, dutyId := dutyIdOf input,
    postDutyId := postDutyIdOf input, dayShiftId := dayShiftIdOf input,
    eveningShiftId := eveningShiftIdOf input, nightShiftId := nightShiftIdOf input }

/-- One candidate of the day-shift while loop: conflict checks, the
severity-gated assignment, and the tracking updates. Returns the new state and
whether the candidate was assigned (counts toward the target). -/
def dayStep (ctx : RunCtx) (d : Int) (m : Staff) (st : GenState) : GenState × Bool :=
  let weekKey := getWeekKey d
  let load := st.loads m.id
  let weeklyShiftCount := st.weekly weekKey m.id
  let conf1 :=
    if ctx.existingSchedules.any (fun s => s.staffId == m.id && s.date == d) then
      [{ ctype := ConflictType.existing_assignment, staffId := m.id, date := d,
         message := "Staff already has an assignment on " ++ toString d,
         severity := Severity.error, staffName := some (staffName m) }]
    else []
  let conf2 :=
    if MAX_CONSECUTIVE_SHIFTS ≤ load.consecutiveShifts then
      [{ ctype := ConflictType.consecutive_shifts, staffId := m.id, date := d,
         message := "Exceeds maximum consecutive shifts (5)",
         severity := Severity.warning, staffName := some (staffName m) }]
    else []
  let conf3 :=
    if MAX_SHIFTS_PER_WEEK ≤ weeklyShiftCount then
      [{ ctype := ConflictType.exceeds_weekly_hours, staffId := m.id, date := d,
         message := "Exceeds maximum weekly shifts (5)",
         severity := Severity.warning, staffName := some (staffName m) }]
    else []
  let conflicts1 := st.conflicts ++ conf1 ++ conf2 ++ conf3
  let hasConflict := !conf1.isEmpty || !conf2.isEmpty || !conf3.isEmpty
  let gate := !hasConflict ||
    (match conflicts1.find? (fun c => c.staffId == m.id && c.date == d) with
      | some c => c.severity == Severity.warning
      | none => false)
  if gate then
    ({ schedules := st.schedules ++
         [{ staffId := m.id, date := d, shiftTypeId := ctx.dayShiftId,
            dutyTypeId := ctx.dutyId, unit := ctx.unit }],
       conflicts := conflicts1,
       loads := updateFn st.loads m.id
         { load with consecutiveShifts := load.consecutiveShifts + 1,
                     totalShifts := load.totalShifts + 1,
                     lastShiftDate := some d,
                     lastShiftType := orNull ctx.dayShiftId,
                     restDays := 0 },
       patterns := updateFn st.patterns m.id
         { st.patterns m.id with duty := (st.patterns m.id).duty + 1,
                                 dayShift := (st.patterns m.id).dayShift + 1 },
       weekly := fun wk sid =>
         if wk = weekKey ∧ sid = m.id then st.weekly weekKey m.id + 1
         else st.weekly wk sid }, true)
  else
    ({ st with conflicts := conflicts1 }, false)

/-- The day-shift while loop over the ranked pool. -/
def dayLoop (ctx : RunCtx) (d : Int) (target : Nat) :
    List Staff → Nat → GenState → Flags → GenState × Flags :=
  assignLoop (dayStep ctx d) target

/-- The evening-specific re-ranking comparator (fewer evening shifts first,
then fewer total shifts). -/
def eveningComparator (loads : Int → StaffLoad) (patterns : Int → DutyPattern)
    (a b : Staff) : Int :=
  if (patterns a.id).eveningShift ≠ (patterns b.id).eveningShift then
    ((patterns a.id).eveningShift : Int) - ((patterns b.id).eveningShift : Int)
  else
    ((loads a.id).totalShifts : Int) - ((loads b.id).totalShifts : Int)

/-- One candidate of the evening-shift while loop (no existing-assignment
check, unlike the day loop). -/
def eveningStep (ctx : RunCtx) (d : Int) (m : Staff) (st : GenState) : GenState × Bool :=
  let weekKey := getWeekKey d
  let load := st.loads m.id
  let weeklyShiftCount := st.weekly weekKey m.id
  let conf2 :=
    if MAX_CONSECUTIVE_SHIFTS ≤ load.consecutiveShifts then
      [{ ctype := ConflictType.consecutive_shifts, staffId := m.id, date := d,
         message := "Exceeds maximum consecutive shifts (5)",
         severity := Severity.warning, staffName := some (staffName m) }]
    else []
  let conf3 :=
    if MAX_SHIFTS_PER_WEEK ≤ weeklyShiftCount then
      [{ ctype := ConflictType.exceeds_weekly_hours, staffId := m.id, date := d,
         message := "Exceeds maximum weekly shifts (5)",
         severity := Severity.warning, staffName := some (staffName m) }]
    else []
  let conflicts1 := st.conflicts ++ conf2 ++ conf3
  let hasConflict := !conf2.isEmpty || !conf3.isEmpty
  let gate := !hasConflict ||
    (match conflicts1.find? (fun c => c.staffId == m.id && c.date == d) with
      | some c => c.severity == Severity.warning
      | none => false)
  if gate then
    ({ schedules := st.schedules ++
         [{ staffId := m.id, date := d, shiftTypeId := ctx.eveningShiftId,
            dutyTypeId := ctx.dutyId, unit := ctx.unit }],
       conflicts := conflicts1,
       loads := updateFn st.loads m.id
         { load with consecutiveShifts := load.consecutiveShifts + 1,
                     totalShifts := load.totalShifts + 1,
                     lastShiftDate := some d,
                     lastShiftType := orNull ctx.eveningShiftId,
                     restDays := 0 },
       patterns := updateFn st.patterns m.id
         { st.patterns m.id with duty := (st.patterns m.id).duty + 1,
                                 eveningShift := (st.patterns m.id).eveningShift + 1 },
       weekly := fun wk sid =>
         if wk = weekKey ∧ sid = m.id then st.weekly weekKey m.id + 1
         else st.weekly wk sid }, true)
  else
    ({ st with conflicts := conflicts1 }, false)

/-- The evening-shift while loop. -/
def eveningLoop (ctx : RunCtx) (d : Int) (target : Nat) :
    List Staff → Nat → GenState → Flags → GenState × Flags :=
  assignLoop (eveningStep ctx d) target

/-- Night-shift suitability comparator of the enhanced variant (fewer
`nightShift` pattern entries, then fewer tracked night shifts, then fewer
total shifts). -/
def nightComparator (loads : Int → StaffLoad) (patterns : Int → DutyPattern)
    (a b : Staff) : Int :=
  if (patterns a.id).nightShift ≠ (patterns b.id).nightShift then
    ((patterns a.id).nightShift : Int) - ((patterns b.id).nightShift : Int)
  else if (loads a.id).nightShifts ≠ (loads b.id).nightShifts then
    ((loads a.id).nightShifts : Int) - ((loads b.id).nightShifts : Int)
  else
    ((loads a.id).totalShifts : Int) - ((loads b.id).totalShifts : Int)

/-- Whether the night-loop hard constraint fires for the candidate: the last
assigned shift was the (truthy) day shift, on the immediately preceding
calendar day. -/
def nightSkip (ctx : RunCtx) (d : Int) (load : StaffLoad) : Bool :=
  truthyOpt load.lastShiftType && truthyOpt ctx.dayShiftId &&
    load.lastShiftType == ctx.dayShiftId && load.lastShiftDate == some (getPreviousDay d)

/-- One candidate of the night-shift while loop: warning checks, then the
day-to-night hard constraint (skip with `continue`, conflict push commented
out in this variant), then the severity-gated assignment. -/
def nightStep (ctx : RunCtx) (d : Int) (m : Staff) (st : GenState) : GenState × Bool :=
  let weekKey := getWeekKey d
  let load := st.loads m.id
  let weeklyShiftCount := st.weekly weekKey m.id
  let conf2 :=
    if MAX_CONSECUTIVE_SHIFTS ≤ load.consecutiveShifts then
      [{ ctype := ConflictType.consecutive_shifts, staffId := m.id, date := d,
         message := "Exceeds maximum consecutive shifts (5)",
         severity := Severity.warning, staffName := some (staffName m) }]
    else []
  let conf3 :=
    if MAX_SHIFTS_PER_WEEK ≤ weeklyShiftCount then
      [{ ctype := ConflictType.exceeds_weekly_hours, staffId := m.id, date := d,
         message := "Exceeds maximum weekly shifts (5)",
         severity := Severity.warning, staffName := some (staffName m) }]
    else []
  let conflicts1 := st.conflicts ++ conf2 ++ conf3
  let hasConflict := !conf2.isEmpty || !conf3.isEmpty
  if nightSkip ctx d load then
    ({ st with conflicts := conflicts1 }, false)
  else
    let gate := !hasConflict ||
      (match conflicts1.find? (fun c => c.staffId == m.id && c.date == d) with
        | some c => c.severity == Severity.warning
        | none => false)
    if gate then
      ({ schedules := st.schedules ++
           [{ staffId := m.id, date := d, shiftTypeId := ctx.nightShiftId,
              dutyTypeId := ctx.dutyId, unit := ctx.unit }],
         conflicts := conflicts1,
         loads := updateFn st.loads m.id
           { load with consecutiveShifts := load.consecutiveShifts + 1,
                       totalShifts := load.totalShifts + 1,
                       nightShifts := load.nightShifts + 1,
                       lastShiftDate := some d,
                       lastShiftType := orNull ctx.nightShiftId,
                       restDays := 0 },
         patterns := updateFn st.patterns m.id
           { st.patterns m.id with duty := (st.patterns m.id).duty + 1,
                                   nightShift := (st.patterns m.id).nightShift + 1 },
         weekly := fun wk sid =>
           if wk = weekKey ∧ sid = m.id then st.weekly weekKey m.id + 1
           else st.weekly wk sid }, true)
    else
      ({ st with conflicts := conflicts1 }, false)

/-- The night-shift while loop. -/
def nightLoop (ctx : RunCtx) (d : Int) (target : Nat) :
    List Staff → Nat → GenState → Flags → GenState × Flags :=
  assignLoop (nightStep ctx d) target

/-- Pre-duty comparator (fewer pre-duty assignments, then fewer total shifts). -/
def preDutyComparator (loads : Int → StaffLoad) (patterns : Int → DutyPattern)
    (a b : Staff) : Int :=
  if (patterns a.id).preDuty ≠ (patterns b.id).preDuty then
    ((patterns a.id).preDuty : Int) - ((patterns b.id).preDuty : Int)
  else
    ((loads a.id).totalShifts : Int) - ((loads b.id).totalShifts : Int)

/-- Post-duty comparator (fewer post-duty assignments, then fewer total
shifts). -/
def postDutyComparator (loads : Int → StaffLoad) (patterns : Int → DutyPattern)
    (a b : Staff) : Int :=
  if (patterns a.id).postDuty ≠ (patterns b.id).postDuty then
    ((patterns a.id).postDuty : Int) - ((patterns b.id).postDuty : Int)
  else
    ((loads a.id).totalShifts : Int) - ((loads b.id).totalShifts : Int)

/-- Body of the enhanced pre-duty `for` loop for the single candidate
(`preDutyCount = min(length, 1)`): weekly-cap check, then a day-shift-tagged
pre-duty entry. Does not mark `assignedShifts` (faithful to the source). -/
def preDutyAssign (ctx : RunCtx) (d : Int) (m : Staff) (st : GenState) : GenState :=
  let weekKey := getWeekKey d
  let load := st.loads m.id
  let weeklyShiftCount := st.weekly weekKey m.id
  if MAX_SHIFTS_PER_WEEK ≤ weeklyShiftCount then
    { st with conflicts := st.conflicts ++
        [{ ctype := ConflictType.exceeds_weekly_hours, staffId := m.id, date := d,
           message := "Exceeds maximum weekly shifts (5)",
           severity := Severity.warning, staffName := some (staffName m) }] }
  else
    { schedules := st.schedules ++
        [{ staffId := m.id, date := d, shiftTypeId := ctx.dayShiftId,
           dutyTypeId := ctx.preDutyId, unit := ctx.unit }],
      conflicts := st.conflicts,
      loads := updateFn st.loads m.id
        { load with consecutiveShifts := load.consecutiveShifts + 1,
                    totalShifts := load.totalShifts + 1,
                    lastShiftDate := some d,
                    lastShiftType := orNull ctx.dayShiftId,
                    restDays := 0 },
      patterns := updateFn st.patterns m.id
        { st.patterns m.id with preDuty := (st.patterns m.id).preDuty + 1,
                                dayShift := (st.patterns m.id).dayShift + 1 },
      weekly := fun wk sid =>
        if wk = weekKey ∧ sid = m.id then st.weekly weekKey m.id + 1
        else st.weekly wk sid }

/-- Body of the enhanced post-duty `for` loop for the single candidate. -/
def postDutyAssign (ctx : RunCtx) (d : Int) (m : Staff) (st : GenState) : GenState :=
  let weekKey := getWeekKey d
  let load := st.loads m.id
  let weeklyShiftCount := st.weekly weekKey m.id
  if MAX_SHIFTS_PER_WEEK ≤ weeklyShiftCount then
    { st with conflicts := st.conflicts ++
        [{ ctype := ConflictType.exceeds_weekly_hours, staffId := m.id, date := d,
           message := "Exceeds maximum weekly shifts (5)",
           severity := Severity.warning, staffName := some (staffName m) }] }
  else
    { schedules := st.schedules ++
        [{ staffId := m.id, date := d, shiftTypeId := ctx.dayShiftId,
           dutyTypeId := ctx.postDutyId, unit := ctx.unit }],
      conflicts := st.conflicts,
      loads := updateFn st.loads m.id
        { load with consecutiveShifts := load.consecutiveShifts + 1,
                    totalShifts := load.totalShifts + 1,
                    lastShiftDate := some d,
                    lastShiftType := orNull ctx.dayShiftId,
                    restDays := 0 },
      patterns := updateFn st.patterns m.id
        { st.patterns m.id with postDuty := (st.patterns m.id).postDuty + 1,
                                dayShift := (st.patterns m.id).dayShift + 1 },
      weekly := fun wk sid =>
        if wk = weekKey ∧ sid = m.id then st.weekly weekKey m.id + 1
        else st.weekly wk sid }

/-- Day-shift phase: target `max 1 ⌈pool/3⌉` (`(n+2)/3` is `⌈n/3⌉` in ℕ). -/
def dayPhase (ctx : RunCtx) (d : Int) (pool : List Staff) (st : GenState)
    (flag : Flags) : GenState × Flags :=
  dayLoop ctx d (max 1 ((pool.length + 2) / 3)) pool 0 st flag

/-- Evening-shift phase over the re-ranked remaining pool: target
`max 1 ⌈remaining/2⌉`. -/
def eveningPhase (ctx : RunCtx) (d : Int) (rem : List Staff) (st : GenState)
    (flag : Flags) : GenState × Flags :=
  eveningLoop ctx d (max 1 ((rem.length + 1) / 2))
    (sortByCmp (eveningComparator st.loads st.patterns) rem) 0 st flag

/-- Night-shift phase over the re-ranked remaining pool: target
`max 1 ⌈remaining/3⌉`. -/
def nightPhase (ctx : RunCtx) (d : Int) (rem : List Staff) (st : GenState)
    (flag : Flags) : GenState × Flags :=
  nightLoop ctx d (max 1 ((rem.length + 2) / 3))
    (sortByCmp (nightComparator st.loads st.patterns) rem) 0 st flag

/-- Pre-duty phase, gated on `d+1` being in the range: at most one assignee,
drawn from the pre-duty-ranked unconsumed staff. -/
def preDutyPhase (ctx : RunCtx) (d : Int) (pool : List Staff) (st : GenState)
    (flag : Flags) : GenState :=
  if ctx.dates.contains (d + 1) then
    match sortByCmp (preDutyComparator st.loads st.patterns)
        (pool.filter (fun s => !flag s.id)) with
    | [] => st
    | m :: _ => preDutyAssign ctx d m st
  else st

/-- Post-duty phase, gated on `d-1` being in the range. -/
def postDutyPhase (ctx : RunCtx) (d : Int) (pool : List Staff) (st : GenState)
    (flag : Flags) : GenState :=
  if ctx.dates.contains (d - 1) then
    match sortByCmp (postDutyComparator st.loads st.patterns)
        (pool.filter (fun s => !flag s.id)) with
    | [] => st
    | m :: _ => postDutyAssign ctx d m st
  else st

/-- State and `assignedShifts` map after the day-shift phase of date `d`. -/
def stage1 (ctx : RunCtx) (st : GenState) (d : Int) : GenState × Flags :=
  dayPhase ctx d (availablePool ctx st d) st (fun _ => false)

/-- `remainingAfterDay`: the pool elements not yet consumed. -/
def remAfterDay (ctx : RunCtx) (st : GenState) (d : Int) : List Staff :=
  (availablePool ctx st d).filter (fun s => !(stage1 ctx st d).2 s.id)

/-- State and flags after the evening-shift phase. -/
def stage2 (ctx : RunCtx) (st : GenState) (d : Int) : GenState × Flags :=
  eveningPhase ctx d (remAfterDay ctx st d) (stage1 ctx st d).1 (stage1 ctx st d).2

/-- `remainingAfterEvening`. -/
def remAfterEvening (ctx : RunCtx) (st : GenState) (d : Int) : List Staff :=
  (availablePool ctx st d).filter (fun s => !(stage2 ctx st d).2 s.id)

/-- State and flags after the night-shift phase. -/
def stage3 (ctx : RunCtx) (st : GenState) (d : Int) : GenState × Flags :=
  nightPhase ctx d (remAfterEvening ctx st d) (stage2 ctx st d).1 (stage2 ctx st d).2

/-- State after the pre-duty phase (which does not update the flags). -/
def stage4 (ctx : RunCtx) (st : GenState) (d : Int) : GenState :=
  preDutyPhase ctx d (availablePool ctx st d) (stage3 ctx st d).1 (stage3 ctx st d).2

/-- Processing of one date: exclusion, ranking, and the five assignment
phases, in the source's order. -/
def processDate (ctx : RunCtx) (st : GenState) (d : Int) : GenState :=
  postDutyPhase ctx d (availablePool ctx st d) (stage4 ctx st d) (stage3 ctx st d).2

/-- The enhanced `generateSchedule`: seed the tracking state from existing
schedules, then process every date in the range. -/
def generateSchedule (input : ScheduleInput) : GenState :=
  let ctx := mkRunCtx input
  ctx.dates.foldl (processDate ctx) (initState ctx)

end Enhanced

namespace FormatDate

/-- Resolved "Pre-Duty" id (`find(...)?.id || 0`). -/
def preDutyIdOf (input : ScheduleInput) : Int :=
  idOrZero ((input.dutyTypes.find? (fun dt => dt.name == "Pre-Duty")).map (fun dt => dt.id))

/-- Resolved "Duty" id. -/
def dutyIdOf (input : ScheduleInput) : Int :=
  idOrZero ((input.dutyTypes.find? (fun dt => dt.name == "Duty")).map (fun dt => dt.id))

/-- Resolved "Post-Duty" id. -/
def postDutyIdOf (input : ScheduleInput) : Int :=
  idOrZero ((input.dutyTypes.find? (fun dt => dt.name == "Post-Duty")).map (fun dt => dt.id))

/-- Resolved "Day Shift" id (may be absent). -/
def dayShiftIdOf (input : ScheduleInput) : Option Int :=
  (input.shiftTypes.find? (fun st => st.name == "Day Shift")).map (fun st => st.id)

/-- Resolved "Evening Shift" id (this variant has no "Mid Shift" fallback). -/
def eveningShiftIdOf (input : ScheduleInput) : Option Int :=
  (input.shiftTypes.find? (fun st => st.name == "Evening Shift")).map (fun st => st.id)

/-- Resolved "Night Shift" id (may be absent). -/
def nightShiftIdOf (input : ScheduleInput) : Option Int :=
  (input.shiftTypes.find? (fun st => st.name == "Night Shift")).map (fun st => st.id)

/-- The per-run context the format-date generator derives from its input. -/
def mkRunCtx (input : ScheduleInput) : RunCtx :=
  { staff := input.staff, availabilities := input.availabilities,
    existingSchedules := input.existingSchedules, unit := input.unit,
    dates := dateRange input.startDate input.endDate,
    preDutyId := preDutyIdOf input, dutyId := dutyIdOf input,
    postDutyId := postDutyIdOf input, dayShiftId := dayShiftIdOf input,
    eveningShiftId := eveningShiftIdOf input, nightShiftId := nightShiftIdOf input }

/-- One candidate of this variant's day-shift loop (like the enhanced one, but
only the `duty` pattern counter is updated on assignment). -/
def dayStep (ctx : RunCtx) (d : Int) (m : Staff) (st : GenState) : GenState × Bool :=
  let weekKey := getWeekKey d
  let load := st.loads m.id
  let weeklyShiftCount := st.weekly weekKey m.id
  let conf1 :=
    if ctx.existingSchedules.any (fun s => s.staffId == m.id && s.date == d) then
      [{ ctype := ConflictType.existing_assignment, staffId := m.id, date := d,
         message := "Staff already has an assignment on " ++ toString d,
         severity := Severity.error, staffName := some (staffName m) }]
    else []
  let conf2 :=
    if MAX_CONSECUTIVE_SHIFTS ≤ load.consecutiveShifts then
      [{ ctype := ConflictType.consecutive_shifts, staffId := m.id, date := d,
         message := "Exceeds maximum consecutive shifts (5)",
         severity := Severity.warning, staffName := some (staffName m) }]
    else []
  let conf3 :=
    if MAX_SHIFTS_PER_WEEK ≤ weeklyShiftCount then
      [{ ctype := ConflictType.exceeds_weekly_hours, staffId := m.id, date := d,
         message := "Exceeds maximum weekly shifts (5)",
         severity := Severity.warning, staffName := some (staffName m) }]
    else []
  let conflicts1 := st.conflicts ++ conf1 ++ conf2 ++ conf3
  let hasConflict := !conf1.isEmpty || !conf2.isEmpty || !conf3.isEmpty
  let gate := !hasConflict ||
    (match conflicts1.find? (fun c => c.staffId == m.id && c.date == d) with
      | some c => c.severity == Severity.warning
      | none => false)
  if gate then
    ({ schedules := st.schedules ++
         [{ staffId := m.id, date := d, shiftTypeId := ctx.dayShiftId,
            dutyTypeId := ctx.dutyId, unit := ctx.unit }],
       conflicts := conflicts1,
       loads := updateFn st.loads m.id
         { load with consecutiveShifts := load.consecutiveShifts + 1,
                     totalShifts := load.totalShifts + 1,
                     lastShiftDate := some d,
                     lastShiftType := orNull ctx.dayShiftId,
                     restDays := 0 },
       patterns := updateFn st.patterns m.id
         { st.patterns m.id with duty := (st.patterns m.id).duty + 1 },
       weekly := fun wk sid =>
         if wk = weekKey ∧ sid = m.id then st.weekly weekKey m.id + 1
         else st.weekly wk sid }, true)
  else
    ({ st with conflicts := conflicts1 }, false)

/-- This variant's day-shift while loop. -/
def dayLoop (ctx : RunCtx) (d : Int) (target : Nat) :
    List Staff → Nat → GenState → Flags → GenState × Flags :=
  assignLoop (dayStep ctx d) target

/-- One candidate of this variant's evening-shift loop. -/
def eveningStep (ctx : RunCtx) (d : Int) (m : Staff) (st : GenState) : GenState × Bool :=
  let weekKey := getWeekKey d
  let load := st.loads m.id
  let weeklyShiftCount := st.weekly weekKey m.id
  let conf2 :=
    if MAX_CONSECUTIVE_SHIFTS ≤ load.consecutiveShifts then
      [{ ctype := ConflictType.consecutive_shifts, staffId := m.id, date := d,
         message := "Exceeds maximum consecutive shifts (5)",
         severity := Severity.warning, staffName := some (staffName m) }]
    else []
  let conf3 :=
    if MAX_SHIFTS_PER_WEEK ≤ weeklyShiftCount then
      [{ ctype := ConflictType.exceeds_weekly_hours, staffId := m.id, date := d,
         message := "Exceeds maximum weekly shifts (5)",
         severity := Severity.warning, staffName := some (staffName m) }]
    else []
  let conflicts1 := st.conflicts ++ conf2 ++ conf3
  let hasConflict := !conf2.isEmpty || !conf3.isEmpty
  let gate := !hasConflict ||
    (match conflicts1.find? (fun c => c.staffId == m.id && c.date == d) with
      | some c => c.severity == Severity.warning
      | none => false)
  if gate then
    ({ schedules := st.schedules ++
         [{ staffId := m.id, date := d, shiftTypeId := ctx.eveningShiftId,
            dutyTypeId := ctx.dutyId, unit := ctx.unit }],
       conflicts := conflicts1,
       loads := updateFn st.loads m.id
         { load with consecutiveShifts := load.consecutiveShifts + 1,
                     totalShifts := load.totalShifts + 1,
                     lastShiftDate := some d,
                     lastShiftType := orNull ctx.eveningShiftId,
                     restDays := 0 },
       patterns := updateFn st.patterns m.id
         { st.patterns m.id with duty := (st.patterns m.id).duty + 1 },
       weekly := fun wk sid =>
         if wk = weekKey ∧ sid = m.id then st.weekly weekKey m.id + 1
         else st.weekly wk sid }, true)
  else
    ({ st with conflicts := conflicts1 }, false)

/-- This variant's evening-shift while loop (the remaining pool is not
re-ranked in this variant). -/
def eveningLoop (ctx : RunCtx) (d : Int) (target : Nat) :
    List Staff → Nat → GenState → Flags → GenState × Flags :=
  assignLoop (eveningStep ctx d) target

/-- This variant's night-shift comparator (fewer tracked night shifts, then
fewer total shifts). -/
def nightComparator (loads : Int → StaffLoad) (a b : Staff) : Int :=
  if (loads a.id).nightShifts ≠ (loads b.id).nightShifts then
    ((loads a.id).nightShifts : Int) - ((loads b.id).nightShifts : Int)
  else
    ((loads a.id).totalShifts : Int) - ((loads b.id).totalShifts : Int)

/-- One candidate of this variant's night-shift loop; the day-to-night hard
constraint pushes a `rest_period_violation` error before skipping. -/
def nightStep (ctx : RunCtx) (d : Int) (m : Staff) (st : GenState) : GenState × Bool :=
  let weekKey := getWeekKey d
  let load := st.loads m.id
  let weeklyShiftCount := st.weekly weekKey m.id
  let conf2 :=
    if MAX_CONSECUTIVE_SHIFTS ≤ load.consecutiveShifts then
      [{ ctype := ConflictType.consecutive_shifts, staffId := m.id, date := d,
         message := "Exceeds maximum consecutive shifts (5)",
         severity := Severity.warning, staffName := some (staffName m) }]
    else []
  let conf3 :=
    if MAX_SHIFTS_PER_WEEK ≤ weeklyShiftCount then
      [{ ctype := ConflictType.exceeds_weekly_hours, staffId := m.id, date := d,
         message := "Exceeds maximum weekly shifts (5)",
         severity := Severity.warning, staffName := some (staffName m) }]
    else []
  let conflicts1 := st.conflicts ++ conf2 ++ conf3
  let hasConflict := !conf2.isEmpty || !conf3.isEmpty
  if Enhanced.nightSkip ctx d load then
    ({ st with conflicts := conflicts1 ++
        [{ ctype := ConflictType.rest_period_violation, staffId := m.id, date := d,
           message := "Insufficient rest period between day and night shift",
           severity := Severity.error, staffName := some (staffName m) }] }, false)
  else
    let gate := !hasConflict ||
      (match conflicts1.find? (fun c => c.staffId == m.id && c.date == d) with
        | some c => c.severity == Severity.warning
        | none => false)
    if gate then
      ({ schedules := st.schedules ++
           [{ staffId := m.id, date := d, shiftTypeId := ctx.nightShiftId,
              dutyTypeId := ctx.dutyId, unit := ctx.unit }],
         conflicts := conflicts1,
         loads := updateFn st.loads m.id
           { load with consecutiveShifts := load.consecutiveShifts + 1,
                       totalShifts := load.totalShifts + 1,
                       nightShifts := load.nightShifts + 1,
                       lastShiftDate := some d,
                       lastShiftType := orNull ctx.nightShiftId,
                       restDays := 0 },
         patterns := updateFn st.patterns m.id
           { st.patterns m.id with duty := (st.patterns m.id).duty + 1 },
         weekly := fun wk sid =>
           if wk = weekKey ∧ sid = m.id then st.weekly weekKey m.id + 1
           else st.weekly wk sid }, true)
    else
      ({ st with conflicts := conflicts1 }, false)

/-- This variant's night-shift while loop. -/
def nightLoop (ctx : RunCtx) (d : Int) (target : Nat) :
    List Staff → Nat → GenState → Flags → GenState × Flags :=
  assignLoop (nightStep ctx d) target

/-- One pre-duty assignment of this variant: a rest day for shift counting
(streak reset, rest-day increment), a `null`-shift entry tied to the pre-duty
type, and the `assignedShifts` mark. -/
def prePush (ctx : RunCtx) (d : Int) (acc : GenState × Flags) (s : Staff) :
    GenState × Flags :=
  let st := acc.1
  let load := st.loads s.id
  ({ schedules := st.schedules ++
       [{ staffId := s.id, date := d, shiftTypeId := none,
          dutyTypeId := ctx.preDutyId, unit := ctx.unit }],
     conflicts := st.conflicts,
     loads := updateFn st.loads s.id
       { load with consecutiveShifts := 0, restDays := load.restDays + 1 },
     patterns := updateFn st.patterns s.id
       { st.patterns s.id with preDuty := (st.patterns s.id).preDuty + 1 },
     weekly := st.weekly }, updateFn acc.2 s.id true)

/-- One post-duty assignment of this variant. -/
def postPush (ctx : RunCtx) (d : Int) (acc : GenState × Flags) (s : Staff) :
    GenState × Flags :=
  let st := acc.1
  let load := st.loads s.id
  ({ schedules := st.schedules ++
       [{ staffId := s.id, date := d, shiftTypeId := none,
          dutyTypeId := ctx.postDutyId, unit := ctx.unit }],
     conflicts := st.conflicts,
     loads := updateFn st.loads s.id
       { load with consecutiveShifts := 0, restDays := load.restDays + 1 },
     patterns := updateFn st.patterns s.id
       { st.patterns s.id with postDuty := (st.patterns s.id).postDuty + 1 },
     weekly := st.weekly }, updateFn acc.2 s.id true)

/-- This variant's step 7: assign pre-duty to the first half of the
pre-duty-ranked unconsumed staff and post-duty to the rest. -/
def prePostPhase (ctx : RunCtx) (d : Int) (pool : List Staff) (st : GenState)
    (flag : Flags) : GenState × Flags :=
  let unassigned := pool.filter (fun s => !flag s.id)
  let sortedU := sortByCmp
    (fun a b => ((st.patterns a.id).preDuty : Int) - ((st.patterns b.id).preDuty : Int))
    unassigned
  let r1 := (sortedU.take (sortedU.length / 2)).foldl (prePush ctx d) (st, flag)
  let remPost := sortedU.filter (fun s => !r1.2 s.id)
  remPost.foldl (postPush ctx d) r1

/-- State and flags after this variant's day-shift phase of date `d`. -/
def stage1 (ctx : RunCtx) (st : GenState) (d : Int) : GenState × Flags :=
  dayLoop ctx d (max 1 (((availablePool ctx st d).length + 2) / 3))
    (availablePool ctx st d) 0 st (fun _ => false)

/-- `remainingAfterDay` of this variant. -/
def remAfterDay (ctx : RunCtx) (st : GenState) (d : Int) : List Staff :=
  (availablePool ctx st d).filter (fun s => !(stage1 ctx st d).2 s.id)

/-- State and flags after this variant's evening-shift phase (no re-ranking). -/
def stage2 (ctx : RunCtx) (st : GenState) (d : Int) : GenState × Flags :=
  eveningLoop ctx d (max 1 (((remAfterDay ctx st d).length + 1) / 2))
    (remAfterDay ctx st d) 0 (stage1 ctx st d).1 (stage1 ctx st d).2

/-- `remainingAfterEvening` of this variant. -/
def remAfterEvening (ctx : RunCtx) (st : GenState) (d : Int) : List Staff :=
  (availablePool ctx st d).filter (fun s => !(stage2 ctx st d).2 s.id)

/-- State and flags after this variant's night-shift phase. -/
def stage3 (ctx : RunCtx) (st : GenState) (d : Int) : GenState × Flags :=
  nightLoop ctx d (max 1 (((remAfterEvening ctx st d).length + 2) / 3))
    (sortByCmp (nightComparator (stage2 ctx st d).1.loads) (remAfterEvening ctx st d)) 0
    (stage2 ctx st d).1 (stage2 ctx st d).2

/-- Steps 1-7 of one date of this variant (everything before the final
unassigned-staff update), returning the state and the `assignedShifts` map. -/
def datePhases (ctx : RunCtx) (st : GenState) (d : Int) : GenState × Flags :=
  prePostPhase ctx d (availablePool ctx st d) (stage3 ctx st d).1 (stage3 ctx st d).2

/-- The final per-date update of this variant: every staff member with no
`assignedShifts` mark has their streak reset and rest-day counter
incremented. -/
def finalRest (staff : List Staff) (flag : Flags) (st : GenState) : GenState :=
  let loads1 := staff.foldl
    (fun f s =>
      if !flag s.id then
        updateFn f s.id
          { f s.id with consecutiveShifts := 0, restDays := (f s.id).restDays + 1 }
      else f)
    st.loads
  { st with loads := loads1 }

/-- Processing of one date in this variant. -/
def processDate (ctx : RunCtx) (st : GenState) (d : Int) : GenState :=
  let r := datePhases ctx st d
  finalRest ctx.staff r.2 r.1

/-- This variant's `generateSchedule`. -/
def generateSchedule (input : ScheduleInput) : GenState :=
  let ctx := mkRunCtx input
  ctx.dates.foldl (processDate ctx) (initState ctx)

/-- `hasShiftConflict`: whether the staff member already has an entry on the
date. -/
def hasShiftConflict (staffId : Int) (date : Int)
    (existingSchedules : List InsertSchedule) : Bool :=
  existingSchedules.any (fun s => s.staffId == staffId && s.date == date)

/-- Catalog lookup guarded by JS truthiness of the id
(`x ? shiftTypes.find(s => s.id === x) : null`). -/
def lookupShift (sts : List ShiftType) : Option Int → Option ShiftType
  | some x => if x = 0 then none else sts.find? (fun t => t.id == x)
  | none => none

/-- Backward walk of the consecutive-shift count: number of contiguous earlier
days with a non-null-shift entry for the staff member. The source's `while`
loop terminates because each iteration needs an entry on a strictly earlier
date; `fuel = scheds.length` bounds the walk without cutting it short. -/
def countBack (sid : Int) (scheds : List InsertSchedule) : Nat → Int → Nat
  | 0, _ => 0
  | fuel + 1, checkDate =>
    if scheds.any (fun s => s.staffId == sid && s.date == checkDate && s.shiftTypeId != none)
    then 1 + countBack sid scheds fuel (checkDate - 1)
    else 0

/-- Forward walk of the consecutive-shift count. -/
def countForward (sid : Int) (scheds : List InsertSchedule) : Nat → Int → Nat
  | 0, _ => 0
  | fuel + 1, checkDate =>
    if scheds.any (fun s => s.staffId == sid && s.date == checkDate && s.shiftTypeId != none)
    then 1 + countForward sid scheds fuel (checkDate + 1)
    else 0

/-- This variant's `detectScheduleConflicts` (the conflict detector the spec's
§4.2 contract describes). `Option Int` models both `null` and `undefined`
shift-type ids, so the source's `!== null` tests are modelled as `!= none`;
the duplicate check's reference inequality `s !== schedule` is modelled as
structural inequality. -/
def detectScheduleConflicts (schedule : InsertSchedule)
    (allSchedules : List InsertSchedule) (staff : List Staff)
    (availabilities : List Availability) (shiftTypes : List ShiftType) :
    List ScheduleConflict :=
  match staff.find? (fun s => s.id == schedule.staffId) with
  | none => []
  | some staffMember =>
    let sName := staffName staffMember
    let c1 :=
      if availabilities.any
          (fun a => a.staffId == schedule.staffId && a.date == schedule.date && !a.isAvailable)
      then
        [{ ctype := ConflictType.unavailable_staff, staffId := schedule.staffId,
           date := schedule.date, message := "Staff marked as unavailable on this date",
           severity := Severity.error, staffName := some sName }]
      else []
    let c2 :=
      if allSchedules.any
          (fun s => s.staffId == schedule.staffId && s.date == schedule.date && s != schedule)
      then
        [{ ctype := ConflictType.existing_assignment, staffId := schedule.staffId,
           date := schedule.date, message := "Staff already assigned on this date",
           severity := Severity.error, staffName := some sName }]
      else []
    let previousDayStr := schedule.date - 1
    let nextDayStr := schedule.date + 1
    let prevSchedule := allSchedules.find?
      (fun s => s.staffId == schedule.staffId && s.date == previousDayStr)
    let currentShift := lookupShift shiftTypes schedule.shiftTypeId
    let prevShift :=
      match prevSchedule with
      | some ps => lookupShift shiftTypes ps.shiftTypeId
      | none => none
    let c3 :=
      if (currentShift.map (fun t => t.name)) == some "Night Shift" &&
         (prevShift.map (fun t => t.name)) == some "Day Shift" then
        [{ ctype := ConflictType.rest_period_violation, staffId := schedule.staffId,
           date := schedule.date,
           message := "Insufficient rest period between day and night shift",
           severity := Severity.error, staffName := some sName }]
      else []
    let c4 :=
      if (currentShift.map (fun t => t.name)) == some "Day Shift" &&
         (prevShift.map (fun t => t.name)) == some "Night Shift" then
        [{ ctype := ConflictType.rest_period_violation, staffId := schedule.staffId,
           date := schedule.date,
           message := "Insufficient rest period between night and day shift",
           severity := Severity.error, staffName := some sName }]
      else []
    let c5 :=
      if schedule.unit != "" &&
         (match staffMember.specialization with
          | some sp => sp != "" && schedule.unit != sp
          | none => false) then
        [{ ctype := ConflictType.specialization_mismatch, staffId := schedule.staffId,
           date := schedule.date,
           message := "Staff specialization does not match unit",
           severity := Severity.warning, staffName := some sName }]
      else []
    let consecutiveShifts := 1 +
      countBack schedule.staffId allSchedules allSchedules.length previousDayStr +
      countForward schedule.staffId allSchedules allSchedules.length nextDayStr
    let c6 :=
      if MAX_CONSECUTIVE_SHIFTS < consecutiveShifts then
        [{ ctype := ConflictType.consecutive_shifts, staffId := schedule.staffId,
           date := schedule.date,
           message := toString consecutiveShifts ++ " consecutive shifts exceeds maximum (5)",
           severity := Severity.warning, staffName := some sName }]
      else []
    c1 ++ c2 ++ c3 ++ c4 ++ c5 ++ c6

/-- The ranking comparator of the alternative-staff suggester: specialization
match first when a (truthy) unit is given, then ascending assigned-shift
count. -/
def suggestComparator (schedules : List InsertSchedule) (unit : Option String)
    (a b : Staff) : Int :=
  let specBranch : Option Int :=
    match unit with
    | some u =>
      if u ≠ "" then
        let aMatch := a.specialization == some u
        let bMatch := b.specialization == some u
        if aMatch && !bMatch then some (-1)
        else if !aMatch && bMatch then some 1
        else none
      else none
    | none => none
  match specBranch with
  | some v => v
  | none =>
    ((schedules.filter (fun s => s.staffId == a.id && s.shiftTypeId != none)).length : Int) -
      ((schedules.filter (fun s => s.staffId == b.id && s.shiftTypeId != none)).length : Int)

/-- The candidate filter of the suggester: not unavailable that date, no
existing entry that date, and the immediate-neighbour streak estimate within
the maximum. -/
def suggestFilter (date : Int) (schedules : List InsertSchedule)
    (unavailIds : List Int) (s : Staff) : Bool :=
  if unavailIds.contains s.id then false
  else if hasShiftConflict s.id date schedules then false
  else
    let consecutiveShifts := 1 +
      (if schedules.any
          (fun sch => sch.staffId == s.id && sch.date == date - 1 && sch.shiftTypeId != none)
       then 1 else 0) +
      (if schedules.any
          (fun sch => sch.staffId == s.id && sch.date == date + 1 && sch.shiftTypeId != none)
       then 1 else 0)
    !(MAX_CONSECUTIVE_SHIFTS < consecutiveShifts)

/-- This variant's `suggestAlternativeStaff` (the `shiftTypeId` parameter is
unused in the source as well). -/
def suggestAlternativeStaff (staffId : Int) (date : Int) (_shiftTypeId : Option Int)
    (staff : List Staff) (schedules : List InsertSchedule)
    (availabilities : List Availability) (unit : Option String) : List Staff :=
  let otherStaff := staff.filter (fun s => s.id != staffId)
  let unavailableIds := unavailableStaffIds availabilities date
  sortByCmp (suggestComparator schedules unit)
    (otherStaff.filter (suggestFilter date schedules unavailableIds))

end FormatDate

/-! ## Concrete example inputs (used to evaluate the definitions) -/

/-- A six-member roster with no specializations. -/
def exStaff6 : List Staff :=
  [{ id := 1, firstName := "A", lastName := "L", specialization := none },
   { id := 2, firstName := "B", lastName := "L", specialization := none },
   { id := 3, firstName := "C", lastName := "L", specialization := none },
   { id := 4, firstName := "D", lastName := "L", specialization := none },
   { id := 5, firstName := "E", lastName := "L", specialization := none },
   { id := 6, firstName := "F", lastName := "L", specialization := none }]

/-- The standard three-entry shift catalog. -/
def exShiftTypes : List ShiftType :=
  [{ id := 1, name := "Day Shift" }, { id := 2, name := "Evening Shift" },
   { id := 3, name := "Night Shift" }]

/-- The standard three-entry duty catalog. -/
def exDutyTypes : List DutyType :=
  [{ id := 1, name := "Pre-Duty" }, { id := 2, name := "Duty" },
   { id := 3, name := "Post-Duty" }]

/-- Six staff, three consecutive dates, everyone available. -/
def exInput6 : ScheduleInput :=
  { staff := exStaff6, shiftTypes := exShiftTypes, dutyTypes := exDutyTypes,
    availabilities := [], startDate := 0, endDate := 2, unit := "",
    existingSchedules := [] }

/-- Two staff, one date, staff 2 unavailable on it. -/
def exInput2 : ScheduleInput :=
  { staff := exStaff6.take 2, shiftTypes := exShiftTypes, dutyTypes := exDutyTypes,
    availabilities := [{ staffId := 2, date := 0, isAvailable := false }],
    startDate := 0, endDate := 0, unit := "", existingSchedules := [] }

/-- One staff member, one date, unavailable on it. -/
def exInput1 : ScheduleInput :=
  { staff := exStaff6.take 1, shiftTypes := exShiftTypes, dutyTypes := exDutyTypes,
    availabilities := [{ staffId := 1, date := 0, isAvailable := false }],
    startDate := 0, endDate := 0, unit := "", existingSchedules := [] }

/-- A run context whose existing schedules already assign staff 1 on date 0. -/
def exCtx4 : RunCtx :=
  { staff := exStaff6, availabilities := [],
    existingSchedules := [{ id := 99, staffId := 1, date := 0, shiftTypeId := some 1,
                            dutyTypeId := 2, unit := "" }],
    unit := "", dates := [0],
    preDutyId := 1, dutyId := 2, postDutyId := 3,
    dayShiftId := some 1, eveningShiftId := some 2, nightShiftId := some 3 }

/-- A fresh generation state (no schedules, zero counters). -/
def exState0 : GenState :=
  { schedules := [], conflicts := [], loads := fun _ => defaultLoad,
    patterns := fun _ => zeroPattern, weekly := fun _ _ => 0 }

/-- A state whose staff 1 already has a five-day consecutive streak. -/
def exState5 : GenState :=
  { schedules := [], conflicts := [],
    loads := fun i => if i = 1 then { defaultLoad with consecutiveShifts := 5 } else defaultLoad,
    patterns := fun _ => zeroPattern, weekly := fun _ _ => 0 }

/-- A candidate entry for the detector examples. -/
def exCandidate : InsertSchedule :=
  { staffId := 1, date := 0, shiftTypeId := some 1, dutyTypeId := 2, unit := "" }

/-! ## Basic lemmas about the modelling helpers -/

theorem updateFn_self {α : Type} (f : Int → α) (i : Int) (v : α) :
    updateFn f i v i = v := by
  simp [updateFn]

theorem updateFn_ne {α : Type} (f : Int → α) (i j : Int) (v : α) (h : j ≠ i) :
    updateFn f i v j = f j := by
  simp [updateFn, h]

theorem insertCmp_perm {α : Type} (cmp : α → α → Int) (x : α) (l : List α) :
    (insertCmp cmp x l).Perm (x :: l) := by
  induction l with
  | nil => exact List.Perm.refl _
  | cons y ys ih =>
    simp only [insertCmp]
    split
    · exact (ih.cons y).trans (List.Perm.swap x y ys)
    · exact List.Perm.refl _

theorem sortByCmp_perm {α : Type} (cmp : α → α → Int) (l : List α) :
    (sortByCmp cmp l).Perm l := by
  induction l with
  | nil => exact List.Perm.refl _
  | cons x xs ih =>
    simpa only [sortByCmp] using (insertCmp_perm cmp x (sortByCmp cmp xs)).trans (ih.cons x)

theorem sortByCmp_mem {α : Type} (cmp : α → α → Int) (l : List α) (a : α) :
    a ∈ sortByCmp cmp l ↔ a ∈ l :=
  (sortByCmp_perm cmp l).mem_iff

theorem sortByCmp_length {α : Type} (cmp : α → α → Int) (l : List α) :
    (sortByCmp cmp l).length = l.length :=
  (sortByCmp_perm cmp l).length_eq

theorem sortByCmp_map_perm {α β : Type} (cmp : α → α → Int) (f : α → β) (l : List α) :
    ((sortByCmp cmp l).map f).Perm (l.map f) :=
  (sortByCmp_perm cmp l).map f

theorem sortByCmp_map_nodup {α β : Type} (cmp : α → α → Int) (f : α → β) (l : List α)
    (h : (l.map f).Nodup) : ((sortByCmp cmp l).map f).Nodup :=
  ((sortByCmp_map_perm cmp f l).nodup_iff).mpr h

/-! ## The generic category-loop lemmas -/

/-- Structural description of one category while loop: the appended entries
`A` come from distinct pool positions in order (so their staff ids form a
sublist of the pool's ids), at most `target - assigned` of them are appended,
the flags after the loop are the flags before plus the appended assignees, the
loads of untouched staff are preserved, and each assignee's load records the
loop's date and shift type. -/
theorem assignLoop_spec
    (step : Staff → GenState → GenState × Bool) (target : Nat)
    (entryOf : Staff → InsertSchedule) (dd : Int) (tt : Option Int)
    (hsched : ∀ m st, (step m st).1.schedules =
      st.schedules ++ (if (step m st).2 then [entryOf m] else []))
    (hid : ∀ m, (entryOf m).staffId = m.id)
    (hln : ∀ m st j, j ≠ m.id → (step m st).1.loads j = st.loads j)
    (hlf : ∀ m st, (step m st).2 = false → (step m st).1.loads = st.loads)
    (hlt : ∀ m st, (step m st).2 = true →
      ((step m st).1.loads m.id).lastShiftDate = some dd ∧
      ((step m st).1.loads m.id).lastShiftType = tt) :
    ∀ (pool : List Staff) (assigned : Nat) (st : GenState) (flag : Int → Bool),
      ∃ A : List InsertSchedule,
        (assignLoop step target pool assigned st flag).1.schedules = st.schedules ++ A
        ∧ (A.map (fun e => e.staffId)).Sublist (pool.map (fun s => s.id))
        ∧ (∀ e ∈ A, ∃ m ∈ pool, e = entryOf m)
        ∧ A.length + assigned ≤ max assigned target
        ∧ (∀ j, (assignLoop step target pool assigned st flag).2 j
            = (flag j || A.any (fun e => e.staffId == j)))
        ∧ (∀ j, (∀ e ∈ A, e.staffId ≠ j) →
            (assignLoop step target pool assigned st flag).1.loads j = st.loads j)
        ∧ (∀ j, (∃ e ∈ A, e.staffId = j) →
            ((assignLoop step target pool assigned st flag).1.loads j).lastShiftDate = some dd
            ∧ ((assignLoop step target pool assigned st flag).1.loads j).lastShiftType = tt) := by
  intro pool
  induction pool with
  | nil =>
    intro assigned st flag
    refine ⟨[], by simp [assignLoop], by simp, by simp, by simp, ?_, ?_, ?_⟩
    · intro j; simp [assignLoop]
    · intro j _; simp [assignLoop]
    · intro j h; simp at h
  | cons m rest ih =>
    intro assigned st flag
    by_cases hat : assigned < target
    · by_cases hs : (step m st).2
      · obtain ⟨A', h1, h2, h3, h4, h5, h6, h7⟩ :=
          ih (assigned + 1) (step m st).1 (updateFn flag m.id true)
        have hres : assignLoop step target (m :: rest) assigned st flag
            = assignLoop step target rest (assigned + 1) (step m st).1 (updateFn flag m.id true) := by
          simp [assignLoop, hat, hs]
        refine ⟨entryOf m :: A', ?_, ?_, ?_, ?_, ?_, ?_, ?_⟩
        · rw [hres, h1, hsched m st, hs]
          simp
        · have : ((entryOf m :: A').map (fun e => e.staffId))
              = m.id :: A'.map (fun e => e.staffId) := by simp [hid]
          rw [this]
          simpa using List.Sublist.cons₂ m.id h2
        · intro e he
          rcases List.mem_cons.mp he with h | h
          · exact ⟨m, List.mem_cons_self m rest, h⟩
          · obtain ⟨m', hm', he'⟩ := h3 e h
            exact ⟨m', List.mem_cons_of_mem m hm', he'⟩
        · have hmax1 : max (assigned + 1) target = target := by omega
          have hmax2 : max assigned target = target := by omega
          rw [hmax1] at h4
          rw [hmax2]
          simpa [Nat.add_comm, Nat.add_assoc, Nat.add_left_comm] using h4
        · intro j
          rw [hres, h5 j]
          by_cases hj : j = m.id
          · subst hj; simp [updateFn_self, hid]
          · rw [updateFn_ne _ _ _ _ hj]
            have : ((entryOf m :: A').any (fun e => e.staffId == j))
                = A'.any (fun e => e.staffId == j) := by
              have : ((entryOf m).staffId == j) = false := by
                rw [hid]; exact beq_false_of_ne (fun h => hj h.symm)
              simp [this]
            rw [this]
        · intro j hj
          have hm : m.id ≠ j := by
            have := hj (entryOf m) (List.mem_cons_self _ _)
            rwa [hid] at this
          rw [hres, h6 j (fun e he => hj e (List.mem_cons_of_mem _ he)),
            hln m st j (fun h => hm h.symm)]
        · intro j hj
          by_cases hA' : ∃ e ∈ A', e.staffId = j
          · exact (hres ▸ h7 j hA')
          · push_neg at hA'
            obtain ⟨e, he, hej⟩ := hj
            rcases List.mem_cons.mp he with h | h
            · have hjm : j = m.id := by rw [← hej, h, hid]
              have := h6 j hA'
              rw [hres, this, hjm]
              exact hlt m st hs
            · exact absurd hej (hA' e h)
      · obtain ⟨A', h1, h2, h3, h4, h5, h6, h7⟩ := ih assigned (step m st).1 flag
        have hres : assignLoop step target (m :: rest) assigned st flag
            = assignLoop step target rest assigned (step m st).1 flag := by
          simp [assignLoop, hat, hs]
        have hb : (step m st).2 = false := by simpa using hs
        have hsch : (step m st).1.schedules = st.schedules := by
          rw [hsched m st, hb]; simp
        have hld : (step m st).1.loads = st.loads := hlf m st hb
        refine ⟨A', ?_, ?_, ?_, h4, ?_, ?_, ?_⟩
        · rw [hres, h1, hsch]
        · simp only [List.map_cons]
          exact h2.trans (List.sublist_cons_self _ _)
        · intro e he
          obtain ⟨m', hm', he'⟩ := h3 e he
          exact ⟨m', List.mem_cons_of_mem m hm', he'⟩
        · intro j; rw [hres, h5 j]
        · intro j hj; rw [hres, h6 j hj, hld]
        · intro j hj; exact hres ▸ h7 j hj
    · refine ⟨[], by simp [assignLoop, hat], by simp, by simp, by simp [hat, Nat.le_max_left], ?_, ?_, ?_⟩
      · intro j; simp [assignLoop, hat]
      · intro j _; simp [assignLoop, hat]
      · intro j h; simp at h

/-- If the step refuses every candidate whose load satisfies `Q` (and `Q`
holds for staff `s` at loop entry), the loop appends no entry for `s` and
leaves `s`'s load unchanged. -/
theorem assignLoop_skip
    (step : Staff → GenState → GenState × Bool) (target : Nat)
    (entryOf : Staff → InsertSchedule) (s : Int) (Q : StaffLoad → Prop)
    (hskip : ∀ m st, m.id = s → Q (st.loads s) → (step m st).2 = false)
    (hsched : ∀ m st, (step m st).1.schedules =
      st.schedules ++ (if (step m st).2 then [entryOf m] else []))
    (hid : ∀ m, (entryOf m).staffId = m.id)
    (hln : ∀ m st j, j ≠ m.id → (step m st).1.loads j = st.loads j)
    (hlf : ∀ m st, (step m st).2 = false → (step m st).1.loads = st.loads) :
    ∀ (pool : List Staff) (assigned : Nat) (st : GenState) (flag : Int → Bool),
      Q (st.loads s) →
      ∃ A : List InsertSchedule,
        (assignLoop step target pool assigned st flag).1.schedules = st.schedules ++ A
        ∧ (∀ e ∈ A, e.staffId ≠ s)
        ∧ (assignLoop step target pool assigned st flag).1.loads s = st.loads s := by
  intro pool
  induction pool with
  | nil =>
    intro assigned st flag _
    exact ⟨[], by simp [assignLoop], by simp, by simp [assignLoop]⟩
  | cons m rest ih =>
    intro assigned st flag hQ
    by_cases hat : assigned < target
    · by_cases hs : (step m st).2
      · have hm : m.id ≠ s := by
          intro h
          rw [hskip m st h hQ] at hs
          exact Bool.false_ne_true (by simpa using hs)
        have hld : (step m st).1.loads s = st.loads s := hln m st s (fun h => hm h.symm)
        obtain ⟨A', h1, h2, h3⟩ :=
          ih (assigned + 1) (step m st).1 (updateFn flag m.id true) (hld ▸ hQ)
        have hres : assignLoop step target (m :: rest) assigned st flag
            = assignLoop step target rest (assigned + 1) (step m st).1 (updateFn flag m.id true) := by
          simp [assignLoop, hat, hs]
        refine ⟨entryOf m :: A', ?_, ?_, ?_⟩
        · rw [hres, h1, hsched m st, hs]; simp
        · intro e he
          rcases List.mem_cons.mp he with h | h
          · rw [h, hid]; exact hm
          · exact h2 e h
        · rw [hres, h3, hld]
      · have hb : (step m st).2 = false := by simpa using hs
        have hld : (step m st).1.loads = st.loads := hlf m st hb
        obtain ⟨A', h1, h2, h3⟩ := ih assigned (step m st).1 flag (by rw [hld]; exact hQ)
        have hres : assignLoop step target (m :: rest) assigned st flag
            = assignLoop step target rest assigned (step m st).1 flag := by
          simp [assignLoop, hat, hs]
        have hsch : (step m st).1.schedules = st.schedules := by
          rw [hsched m st, hb]; simp
        exact ⟨A', by rw [hres, h1, hsch], h2, by rw [hres, h3, hld]⟩
    · exact ⟨[], by simp [assignLoop, hat], by simp, by simp [assignLoop, hat]⟩

/-- Unfolding equation of the loop for an unassigned head candidate: the
index advances, the target counter does not. -/
theorem assignLoop_cons_not_assigned
    (step : Staff → GenState → GenState × Bool) (target : Nat)
    (m : Staff) (rest : List Staff) (assigned : Nat) (st : GenState) (flag : Int → Bool)
    (hat : assigned < target) (hs : (step m st).2 = false) :
    assignLoop step target (m :: rest) assigned st flag
      = assignLoop step target rest assigned (step m st).1 flag := by
  simp [assignLoop, hat, hs]


/-! ## Per-candidate step facts for the six category loops -/

/-- Omnibus case analysis of `Enhanced.dayStep`: either the candidate is assigned (entry
pushed, load stamped with the date and shift type) or the state is unchanged
except for the pushed conflicts. -/
theorem Enhanced.dayStep_cases (ctx : RunCtx) (d : Int) (m : Staff) (st : GenState) :
    ((Enhanced.dayStep ctx d m st).2 = true
      ∧ (Enhanced.dayStep ctx d m st).1.schedules = st.schedules ++ [dayEntry ctx d m]
      ∧ (∀ j, j ≠ m.id → (Enhanced.dayStep ctx d m st).1.loads j = st.loads j)
      ∧ ((Enhanced.dayStep ctx d m st).1.loads m.id).lastShiftDate = some d
      ∧ ((Enhanced.dayStep ctx d m st).1.loads m.id).lastShiftType = orNull ctx.dayShiftId)
    ∨ ((Enhanced.dayStep ctx d m st).2 = false
      ∧ (Enhanced.dayStep ctx d m st).1.schedules = st.schedules
      ∧ (Enhanced.dayStep ctx d m st).1.loads = st.loads) := by
  simp only [Enhanced.dayStep]
  repeat' split
  all_goals
    first
    | exact Or.inr ⟨rfl, rfl, rfl⟩
    | exact Or.inl ⟨rfl, rfl, fun j hj => by simp [updateFn, hj],
        by simp [updateFn], by simp [updateFn]⟩

theorem Enhanced.dayStep_sched (ctx : RunCtx) (d : Int) (m : Staff) (st : GenState) :
    (Enhanced.dayStep ctx d m st).1.schedules
      = st.schedules ++ (if (Enhanced.dayStep ctx d m st).2 then [dayEntry ctx d m] else []) := by
  rcases Enhanced.dayStep_cases ctx d m st with ⟨h1, h2, _⟩ | ⟨h1, h2, _⟩ <;> simp [h1, h2]

theorem Enhanced.dayStep_loads_ne (ctx : RunCtx) (d : Int) (m : Staff) (st : GenState)
    (j : Int) (hj : j ≠ m.id) : (Enhanced.dayStep ctx d m st).1.loads j = st.loads j := by
  rcases Enhanced.dayStep_cases ctx d m st with ⟨_, _, h3, _⟩ | ⟨_, _, h3⟩
  · exact h3 j hj
  · rw [h3]

theorem Enhanced.dayStep_loads_false (ctx : RunCtx) (d : Int) (m : Staff) (st : GenState)
    (h : (Enhanced.dayStep ctx d m st).2 = false) : (Enhanced.dayStep ctx d m st).1.loads = st.loads := by
  rcases Enhanced.dayStep_cases ctx d m st with ⟨h1, _⟩ | ⟨_, _, h3⟩
  · rw [h1] at h; exact absurd h (by simp)
  · exact h3

theorem Enhanced.dayStep_loads_true (ctx : RunCtx) (d : Int) (m : Staff) (st : GenState)
    (h : (Enhanced.dayStep ctx d m st).2 = true) :
    ((Enhanced.dayStep ctx d m st).1.loads m.id).lastShiftDate = some d
    ∧ ((Enhanced.dayStep ctx d m st).1.loads m.id).lastShiftType = orNull ctx.dayShiftId := by
  rcases Enhanced.dayStep_cases ctx d m st with ⟨_, _, _, h4, h5⟩ | ⟨h1, _⟩
  · exact ⟨h4, h5⟩
  · rw [h1] at h; exact absurd h (by simp)

/-- Omnibus case analysis of `Enhanced.eveningStep`: either the candidate is assigned (entry
pushed, load stamped with the date and shift type) or the state is unchanged
except for the pushed conflicts. -/
theorem Enhanced.eveningStep_cases (ctx : RunCtx) (d : Int) (m : Staff) (st : GenState) :
    ((Enhanced.eveningStep ctx d m st).2 = true
      ∧ (Enhanced.eveningStep ctx d m st).1.schedules = st.schedules ++ [eveningEntry ctx d m]
      ∧ (∀ j, j ≠ m.id → (Enhanced.eveningStep ctx d m st).1.loads j = st.loads j)
      ∧ ((Enhanced.eveningStep ctx d m st).1.loads m.id).lastShiftDate = some d
      ∧ ((Enhanced.eveningStep ctx d m st).1.loads m.id).lastShiftType = orNull ctx.eveningShiftId)
    ∨ ((Enhanced.eveningStep ctx d m st).2 = false
      ∧ (Enhanced.eveningStep ctx d m st).1.schedules = st.schedules
      ∧ (Enhanced.eveningStep ctx d m st).1.loads = st.loads) := by
  simp only [Enhanced.eveningStep]
  repeat' split
  all_goals
    first
    | exact Or.inr ⟨rfl, rfl, rfl⟩
    | exact Or.inl ⟨rfl, rfl, fun j hj => by simp [updateFn, hj],
        by simp [updateFn], by simp [updateFn]⟩

theorem Enhanced.eveningStep_sched (ctx : RunCtx) (d : Int) (m : Staff) (st : GenState) :
    (Enhanced.eveningStep ctx d m st).1.schedules
      = st.schedules ++ (if (Enhanced.eveningStep ctx d m st).2 then [eveningEntry ctx d m] else []) := by
  rcases Enhanced.eveningStep_cases ctx d m st with ⟨h1, h2, _⟩ | ⟨h1, h2, _⟩ <;> simp [h1, h2]

theorem Enhanced.eveningStep_loads_ne (ctx : RunCtx) (d : Int) (m : Staff) (st : GenState)
    (j : Int) (hj : j ≠ m.id) : (Enhanced.eveningStep ctx d m st).1.loads j = st.loads j := by
  rcases Enhanced.eveningStep_cases ctx d m st with ⟨_, _, h3, _⟩ | ⟨_, _, h3⟩
  · exact h3 j hj
  · rw [h3]

theorem Enhanced.eveningStep_loads_false (ctx : RunCtx) (d : Int) (m : Staff) (st : GenState)
    (h : (Enhanced.eveningStep ctx d m st).2 = false) : (Enhanced.eveningStep ctx d m st).1.loads = st.loads := by
  rcases Enhanced.eveningStep_cases ctx d m st with ⟨h1, _⟩ | ⟨_, _, h3⟩
  · rw [h1] at h; exact absurd h (by simp)
  · exact h3

theorem Enhanced.eveningStep_loads_true (ctx : RunCtx) (d : Int) (m : Staff) (st : GenState)
    (h : (Enhanced.eveningStep ctx d m st).2 = true) :
    ((Enhanced.eveningStep ctx d m st).1.loads m.id).lastShiftDate = some d
    ∧ ((Enhanced.eveningStep ctx d m st).1.loads m.id).lastShiftType = orNull ctx.eveningShiftId := by
  rcases Enhanced.eveningStep_cases ctx d m st with ⟨_, _, _, h4, h5⟩ | ⟨h1, _⟩
  · exact ⟨h4, h5⟩
  · rw [h1] at h; exact absurd h (by simp)

/-- Omnibus case analysis of `Enhanced.nightStep`: either the candidate is assigned (entry
pushed, load stamped with the date and shift type) or the state is unchanged
except for the pushed conflicts. -/
theorem Enhanced.nightStep_cases (ctx : RunCtx) (d : Int) (m : Staff) (st : GenState) :
    ((Enhanced.nightStep ctx d m st).2 = true
      ∧ (Enhanced.nightStep ctx d m st).1.schedules = st.schedules ++ [nightEntry ctx d m]
      ∧ (∀ j, j ≠ m.id → (Enhanced.nightStep ctx d m st).1.loads j = st.loads j)
      ∧ ((Enhanced.nightStep ctx d m st).1.loads m.id).lastShiftDate = some d
      ∧ ((Enhanced.nightStep ctx d m st).1.loads m.id).lastShiftType = orNull ctx.nightShiftId)
    ∨ ((Enhanced.nightStep ctx d m st).2 = false
      ∧ (Enhanced.nightStep ctx d m st).1.schedules = st.schedules
      ∧ (Enhanced.nightStep ctx d m st).1.loads = st.loads) := by
  simp only [Enhanced.nightStep]
  repeat' split
  all_goals
    first
    | exact Or.inr ⟨rfl, rfl, rfl⟩
    | exact Or.inl ⟨rfl, rfl, fun j hj => by simp [updateFn, hj],
        by simp [updateFn], by simp [updateFn]⟩

/-- The hard day-to-night constraint: a candidate in skip state is never
assigned by `Enhanced.nightStep`. -/
theorem Enhanced.nightStep_skip (ctx : RunCtx) (d : Int) (m : Staff) (st : GenState)
    (h : Enhanced.nightSkip ctx d (st.loads m.id) = true) :
    (Enhanced.nightStep ctx d m st).2 = false := by
  simp only [Enhanced.nightStep]
  rw [if_pos h]

theorem Enhanced.nightStep_sched (ctx : RunCtx) (d : Int) (m : Staff) (st : GenState) :
    (Enhanced.nightStep ctx d m st).1.schedules
      = st.schedules ++ (if (Enhanced.nightStep ctx d m st).2 then [nightEntry ctx d m] else []) := by
  rcases Enhanced.nightStep_cases ctx d m st with ⟨h1, h2, _⟩ | ⟨h1, h2, _⟩ <;> simp [h1, h2]

theorem Enhanced.nightStep_loads_ne (ctx : RunCtx) (d : Int) (m : Staff) (st : GenState)
    (j : Int) (hj : j ≠ m.id) : (Enhanced.nightStep ctx d m st).1.loads j = st.loads j := by
  rcases Enhanced.nightStep_cases ctx d m st with ⟨_, _, h3, _⟩ | ⟨_, _, h3⟩
  · exact h3 j hj
  · rw [h3]

theorem Enhanced.nightStep_loads_false (ctx : RunCtx) (d : Int) (m : Staff) (st : GenState)
    (h : (Enhanced.nightStep ctx d m st).2 = false) : (Enhanced.nightStep ctx d m st).1.loads = st.loads := by
  rcases Enhanced.nightStep_cases ctx d m st with ⟨h1, _⟩ | ⟨_, _, h3⟩
  · rw [h1] at h; exact absurd h (by simp)
  · exact h3

theorem Enhanced.nightStep_loads_true (ctx : RunCtx) (d : Int) (m : Staff) (st : GenState)
    (h : (Enhanced.nightStep ctx d m st).2 = true) :
    ((Enhanced.nightStep ctx d m st).1.loads m.id).lastShiftDate = some d
    ∧ ((Enhanced.nightStep ctx d m st).1.loads m.id).lastShiftType = orNull ctx.nightShiftId := by
  rcases Enhanced.nightStep_cases ctx d m st with ⟨_, _, _, h4, h5⟩ | ⟨h1, _⟩
  · exact ⟨h4, h5⟩
  · rw [h1] at h; exact absurd h (by simp)

/-- Omnibus case analysis of `FormatDate.dayStep`: either the candidate is assigned (entry
pushed, load stamped with the date and shift type) or the state is unchanged
except for the pushed conflicts. -/
theorem FormatDate.dayStep_cases_fd (ctx : RunCtx) (d : Int) (m : Staff) (st : GenState) :
    ((FormatDate.dayStep ctx d m st).2 = true
      ∧ (FormatDate.dayStep ctx d m st).1.schedules = st.schedules ++ [dayEntry ctx d m]
      ∧ (∀ j, j ≠ m.id → (FormatDate.dayStep ctx d m st).1.loads j = st.loads j)
      ∧ ((FormatDate.dayStep ctx d m st).1.loads m.id).lastShiftDate = some d
      ∧ ((FormatDate.dayStep ctx d m st).1.loads m.id).lastShiftType = orNull ctx.dayShiftId)
    ∨ ((FormatDate.dayStep ctx d m st).2 = false
      ∧ (FormatDate.dayStep ctx d m st).1.schedules = st.schedules
      ∧ (FormatDate.dayStep ctx d m st).1.loads = st.loads) := by
  simp only [FormatDate.dayStep]
  repeat' split
  all_goals
    first
    | exact Or.inr ⟨rfl, rfl, rfl⟩
    | exact Or.inl ⟨rfl, rfl, fun j hj => by simp [updateFn, hj],
        by simp [updateFn], by simp [updateFn]⟩

theorem FormatDate.dayStep_sched_fd (ctx : RunCtx) (d : Int) (m : Staff) (st : GenState) :
    (FormatDate.dayStep ctx d m st).1.schedules
      = st.schedules ++ (if (FormatDate.dayStep ctx d m st).2 then [dayEntry ctx d m] else []) := by
  rcases FormatDate.dayStep_cases_fd ctx d m st with ⟨h1, h2, _⟩ | ⟨h1, h2, _⟩ <;> simp [h1, h2]

theorem FormatDate.dayStep_loads_ne_fd (ctx : RunCtx) (d : Int) (m : Staff) (st : GenState)
    (j : Int) (hj : j ≠ m.id) : (FormatDate.dayStep ctx d m st).1.loads j = st.loads j := by
  rcases FormatDate.dayStep_cases_fd ctx d m st with ⟨_, _, h3, _⟩ | ⟨_, _, h3⟩
  · exact h3 j hj
  · rw [h3]

theorem FormatDate.dayStep_loads_false_fd (ctx : RunCtx) (d : Int) (m : Staff) (st : GenState)
    (h : (FormatDate.dayStep ctx d m st).2 = false) : (FormatDate.dayStep ctx d m st).1.loads = st.loads := by
  rcases FormatDate.dayStep_cases_fd ctx d m st with ⟨h1, _⟩ | ⟨_, _, h3⟩
  · rw [h1] at h; exact absurd h (by simp)
  · exact h3

theorem FormatDate.dayStep_loads_true_fd (ctx : RunCtx) (d : Int) (m : Staff) (st : GenState)
    (h : (FormatDate.dayStep ctx d m st).2 = true) :
    ((FormatDate.dayStep ctx d m st).1.loads m.id).lastShiftDate = some d
    ∧ ((FormatDate.dayStep ctx d m st).1.loads m.id).lastShiftType = orNull ctx.dayShiftId := by
  rcases FormatDate.dayStep_cases_fd ctx d m st with ⟨_, _, _, h4, h5⟩ | ⟨h1, _⟩
  · exact ⟨h4, h5⟩
  · rw [h1] at h; exact absurd h (by simp)

/-- Omnibus case analysis of `FormatDate.eveningStep`: either the candidate is assigned (entry
pushed, load stamped with the date and shift type) or the state is unchanged
except for the pushed conflicts. -/
theorem FormatDate.eveningStep_cases_fd (ctx : RunCtx) (d : Int) (m : Staff) (st : GenState) :
    ((FormatDate.eveningStep ctx d m st).2 = true
      ∧ (FormatDate.eveningStep ctx d m st).1.schedules = st.schedules ++ [eveningEntry ctx d m]
      ∧ (∀ j, j ≠ m.id → (FormatDate.eveningStep ctx d m st).1.loads j = st.loads j)
      ∧ ((FormatDate.eveningStep ctx d m st).1.loads m.id).lastShiftDate = some d
      ∧ ((FormatDate.eveningStep ctx d m st).1.loads m.id).lastShiftType = orNull ctx.eveningShiftId)
    ∨ ((FormatDate.eveningStep ctx d m st).2 = false
      ∧ (FormatDate.eveningStep ctx d m st).1.schedules = st.schedules
      ∧ (FormatDate.eveningStep ctx d m st).1.loads = st.loads) := by
  simp only [FormatDate.eveningStep]
  repeat' split
  all_goals
    first
    | exact Or.inr ⟨rfl, rfl, rfl⟩
    | exact Or.inl ⟨rfl, rfl, fun j hj => by simp [updateFn, hj],
        by simp [updateFn], by simp [updateFn]⟩

theorem FormatDate.eveningStep_sched_fd (ctx : RunCtx) (d : Int) (m : Staff) (st : GenState) :
    (FormatDate.eveningStep ctx d m st).1.schedules
      = st.schedules ++ (if (FormatDate.eveningStep ctx d m st).2 then [eveningEntry ctx d m] else []) := by
  rcases FormatDate.eveningStep_cases_fd ctx d m st with ⟨h1, h2, _⟩ | ⟨h1, h2, _⟩ <;> simp [h1, h2]

theorem FormatDate.eveningStep_loads_ne_fd (ctx : RunCtx) (d : Int) (m : Staff) (st : GenState)
    (j : Int) (hj : j ≠ m.id) : (FormatDate.eveningStep ctx d m st).1.loads j = st.loads j := by
  rcases FormatDate.eveningStep_cases_fd ctx d m st with ⟨_, _, h3, _⟩ | ⟨_, _, h3⟩
  · exact h3 j hj
  · rw [h3]

theorem FormatDate.eveningStep_loads_false_fd (ctx : RunCtx) (d : Int) (m : Staff) (st : GenState)
    (h : (FormatDate.eveningStep ctx d m st).2 = false) : (FormatDate.eveningStep ctx d m st).1.loads = st.loads := by
  rcases FormatDate.eveningStep_cases_fd ctx d m st with ⟨h1, _⟩ | ⟨_, _, h3⟩
  · rw [h1] at h; exact absurd h (by simp)
  · exact h3

theorem FormatDate.eveningStep_loads_true_fd (ctx : RunCtx) (d : Int) (m : Staff) (st : GenState)
    (h : (FormatDate.eveningStep ctx d m st).2 = true) :
    ((FormatDate.eveningStep ctx d m st).1.loads m.id).lastShiftDate = some d
    ∧ ((FormatDate.eveningStep ctx d m st).1.loads m.id).lastShiftType = orNull ctx.eveningShiftId := by
  rcases FormatDate.eveningStep_cases_fd ctx d m st with ⟨_, _, _, h4, h5⟩ | ⟨h1, _⟩
  · exact ⟨h4, h5⟩
  · rw [h1] at h; exact absurd h (by simp)

/-- Omnibus case analysis of `FormatDate.nightStep`: either the candidate is assigned (entry
pushed, load stamped with the date and shift type) or the state is unchanged
except for the pushed conflicts. -/
theorem FormatDate.nightStep_cases_fd (ctx : RunCtx) (d : Int) (m : Staff) (st : GenState) :
    ((FormatDate.nightStep ctx d m st).2 = true
      ∧ (FormatDate.nightStep ctx d m st).1.schedules = st.schedules ++ [nightEntry ctx d m]
      ∧ (∀ j, j ≠ m.id → (FormatDate.nightStep ctx d m st).1.loads j = st.loads j)
      ∧ ((FormatDate.nightStep ctx d m st).1.loads m.id).lastShiftDate = some d
      ∧ ((FormatDate.nightStep ctx d m st).1.loads m.id).lastShiftType = orNull ctx.nightShiftId)
    ∨ ((FormatDate.nightStep ctx d m st).2 = false
      ∧ (FormatDate.nightStep ctx d m st).1.schedules = st.schedules
      ∧ (FormatDate.nightStep ctx d m st).1.loads = st.loads) := by
  simp only [FormatDate.nightStep]
  repeat' split
  all_goals
    first
    | exact Or.inr ⟨rfl, rfl, rfl⟩
    | exact Or.inl ⟨rfl, rfl, fun j hj => by simp [updateFn, hj],
        by simp [updateFn], by simp [updateFn]⟩

/-- The hard day-to-night constraint: a candidate in skip state is never
assigned by `FormatDate.nightStep`. -/
theorem FormatDate.nightStep_skip_fd (ctx : RunCtx) (d : Int) (m : Staff) (st : GenState)
    (h : Enhanced.nightSkip ctx d (st.loads m.id) = true) :
    (FormatDate.nightStep ctx d m st).2 = false := by
  simp only [FormatDate.nightStep]
  rw [if_pos h]

theorem FormatDate.nightStep_sched_fd (ctx : RunCtx) (d : Int) (m : Staff) (st : GenState) :
    (FormatDate.nightStep ctx d m st).1.schedules
      = st.schedules ++ (if (FormatDate.nightStep ctx d m st).2 then [nightEntry ctx d m] else []) := by
  rcases FormatDate.nightStep_cases_fd ctx d m st with ⟨h1, h2, _⟩ | ⟨h1, h2, _⟩ <;> simp [h1, h2]

theorem FormatDate.nightStep_loads_ne_fd (ctx : RunCtx) (d : Int) (m : Staff) (st : GenState)
    (j : Int) (hj : j ≠ m.id) : (FormatDate.nightStep ctx d m st).1.loads j = st.loads j := by
  rcases FormatDate.nightStep_cases_fd ctx d m st with ⟨_, _, h3, _⟩ | ⟨_, _, h3⟩
  · exact h3 j hj
  · rw [h3]

theorem FormatDate.nightStep_loads_false_fd (ctx : RunCtx) (d : Int) (m : Staff) (st : GenState)
    (h : (FormatDate.nightStep ctx d m st).2 = false) : (FormatDate.nightStep ctx d m st).1.loads = st.loads := by
  rcases FormatDate.nightStep_cases_fd ctx d m st with ⟨h1, _⟩ | ⟨_, _, h3⟩
  · rw [h1] at h; exact absurd h (by simp)
  · exact h3

theorem FormatDate.nightStep_loads_true_fd (ctx : RunCtx) (d : Int) (m : Staff) (st : GenState)
    (h : (FormatDate.nightStep ctx d m st).2 = true) :
    ((FormatDate.nightStep ctx d m st).1.loads m.id).lastShiftDate = some d
    ∧ ((FormatDate.nightStep ctx d m st).1.loads m.id).lastShiftType = orNull ctx.nightShiftId := by
  rcases FormatDate.nightStep_cases_fd ctx d m st with ⟨_, _, _, h4, h5⟩ | ⟨h1, _⟩
  · exact ⟨h4, h5⟩
  · rw [h1] at h; exact absurd h (by simp)

/-- Instantiated loop description for `Enhanced.dayLoop`. -/
theorem Enhanced.dayLoop_spec (ctx : RunCtx) (d : Int) (target : Nat)
    (pool : List Staff) (assigned : Nat) (st : GenState) (flag : Int → Bool) :
    ∃ A : List InsertSchedule,
      (Enhanced.dayLoop ctx d target pool assigned st flag).1.schedules = st.schedules ++ A
      ∧ (A.map (fun e => e.staffId)).Sublist (pool.map (fun s => s.id))
      ∧ (∀ e ∈ A, ∃ m ∈ pool, e = dayEntry ctx d m)
      ∧ A.length + assigned ≤ max assigned target
      ∧ (∀ j, (Enhanced.dayLoop ctx d target pool assigned st flag).2 j
          = (flag j || A.any (fun e => e.staffId == j)))
      ∧ (∀ j, (∀ e ∈ A, e.staffId ≠ j) →
          (Enhanced.dayLoop ctx d target pool assigned st flag).1.loads j = st.loads j)
      ∧ (∀ j, (∃ e ∈ A, e.staffId = j) →
          ((Enhanced.dayLoop ctx d target pool assigned st flag).1.loads j).lastShiftDate = some d
          ∧ ((Enhanced.dayLoop ctx d target pool assigned st flag).1.loads j).lastShiftType = orNull ctx.dayShiftId) :=
  assignLoop_spec (Enhanced.dayStep ctx d) target (dayEntry ctx d) d (orNull ctx.dayShiftId)
    (Enhanced.dayStep_sched ctx d) (fun m => rfl) (Enhanced.dayStep_loads_ne ctx d)
    (Enhanced.dayStep_loads_false ctx d) (Enhanced.dayStep_loads_true ctx d) pool assigned st flag

/-- Instantiated loop description for `Enhanced.eveningLoop`. -/
theorem Enhanced.eveningLoop_spec (ctx : RunCtx) (d : Int) (target : Nat)
    (pool : List Staff) (assigned : Nat) (st : GenState) (flag : Int → Bool) :
    ∃ A : List InsertSchedule,
      (Enhanced.eveningLoop ctx d target pool assigned st flag).1.schedules = st.schedules ++ A
      ∧ (A.map (fun e => e.staffId)).Sublist (pool.map (fun s => s.id))
      ∧ (∀ e ∈ A, ∃ m ∈ pool, e = eveningEntry ctx d m)
      ∧ A.length + assigned ≤ max assigned target
      ∧ (∀ j, (Enhanced.eveningLoop ctx d target pool assigned st flag).2 j
          = (flag j || A.any (fun e => e.staffId == j)))
      ∧ (∀ j, (∀ e ∈ A, e.staffId ≠ j) →
          (Enhanced.eveningLoop ctx d target pool assigned st flag).1.loads j = st.loads j)
      ∧ (∀ j, (∃ e ∈ A, e.staffId = j) →
          ((Enhanced.eveningLoop ctx d target pool assigned st flag).1.loads j).lastShiftDate = some d
          ∧ ((Enhanced.eveningLoop ctx d target pool assigned st flag).1.loads j).lastShiftType = orNull ctx.eveningShiftId) :=
  assignLoop_spec (Enhanced.eveningStep ctx d) target (eveningEntry ctx d) d (orNull ctx.eveningShiftId)
    (Enhanced.eveningStep_sched ctx d) (fun m => rfl) (Enhanced.eveningStep_loads_ne ctx d)
    (Enhanced.eveningStep_loads_false ctx d) (Enhanced.eveningStep_loads_true ctx d) pool assigned st flag

/-- Instantiated loop description for `Enhanced.nightLoop`. -/
theorem Enhanced.nightLoop_spec (ctx : RunCtx) (d : Int) (target : Nat)
    (pool : List Staff) (assigned : Nat) (st : GenState) (flag : Int → Bool) :
    ∃ A : List InsertSchedule,
      (Enhanced.nightLoop ctx d target pool assigned st flag).1.schedules = st.schedules ++ A
      ∧ (A.map (fun e => e.staffId)).Sublist (pool.map (fun s => s.id))
      ∧ (∀ e ∈ A, ∃ m ∈ pool, e = nightEntry ctx d m)
      ∧ A.length + assigned ≤ max assigned target
      ∧ (∀ j, (Enhanced.nightLoop ctx d target pool assigned st flag).2 j
          = (flag j || A.any (fun e => e.staffId == j)))
      ∧ (∀ j, (∀ e ∈ A, e.staffId ≠ j) →
          (Enhanced.nightLoop ctx d target pool assigned st flag).1.loads j = st.loads j)
      ∧ (∀ j, (∃ e ∈ A, e.staffId = j) →
          ((Enhanced.nightLoop ctx d target pool assigned st flag).1.loads j).lastShiftDate = some d
          ∧ ((Enhanced.nightLoop ctx d target pool assigned st flag).1.loads j).lastShiftType = orNull ctx.nightShiftId) :=
  assignLoop_spec (Enhanced.nightStep ctx d) target (nightEntry ctx d) d (orNull ctx.nightShiftId)
    (Enhanced.nightStep_sched ctx d) (fun m => rfl) (Enhanced.nightStep_loads_ne ctx d)
    (Enhanced.nightStep_loads_false ctx d) (Enhanced.nightStep_loads_true ctx d) pool assigned st flag

/-- Instantiated loop description for `FormatDate.dayLoop`. -/
theorem FormatDate.dayLoop_spec_fd (ctx : RunCtx) (d : Int) (target : Nat)
    (pool : List Staff) (assigned : Nat) (st : GenState) (flag : Int → Bool) :
    ∃ A : List InsertSchedule,
      (FormatDate.dayLoop ctx d target pool assigned st flag).1.schedules = st.schedules ++ A
      ∧ (A.map (fun e => e.staffId)).Sublist (pool.map (fun s => s.id))
      ∧ (∀ e ∈ A, ∃ m ∈ pool, e = dayEntry ctx d m)
      ∧ A.length + assigned ≤ max assigned target
      ∧ (∀ j, (FormatDate.dayLoop ctx d target pool assigned st flag).2 j
          = (flag j || A.any (fun e => e.staffId == j)))
      ∧ (∀ j, (∀ e ∈ A, e.staffId ≠ j) →
          (FormatDate.dayLoop ctx d target pool assigned st flag).1.loads j = st.loads j)
      ∧ (∀ j, (∃ e ∈ A, e.staffId = j) →
          ((FormatDate.dayLoop ctx d target pool assigned st flag).1.loads j).lastShiftDate = some d
          ∧ ((FormatDate.dayLoop ctx d target pool assigned st flag).1.loads j).lastShiftType = orNull ctx.dayShiftId) :=
  assignLoop_spec (FormatDate.dayStep ctx d) target (dayEntry ctx d) d (orNull ctx.dayShiftId)
    (FormatDate.dayStep_sched_fd ctx d) (fun m => rfl) (FormatDate.dayStep_loads_ne_fd ctx d)
    (FormatDate.dayStep_loads_false_fd ctx d) (FormatDate.dayStep_loads_true_fd ctx d) pool assigned st flag

/-- Instantiated loop description for `FormatDate.eveningLoop`. -/
theorem FormatDate.eveningLoop_spec_fd (ctx : RunCtx) (d : Int) (target : Nat)
    (pool : List Staff) (assigned : Nat) (st : GenState) (flag : Int → Bool) :
    ∃ A : List InsertSchedule,
      (FormatDate.eveningLoop ctx d target pool assigned st flag).1.schedules = st.schedules ++ A
      ∧ (A.map (fun e => e.staffId)).Sublist (pool.map (fun s => s.id))
      ∧ (∀ e ∈ A, ∃ m ∈ pool, e = eveningEntry ctx d m)
      ∧ A.length + assigned ≤ max assigned target
      ∧ (∀ j, (FormatDate.eveningLoop ctx d target pool assigned st flag).2 j
          = (flag j || A.any (fun e => e.staffId == j)))
      ∧ (∀ j, (∀ e ∈ A, e.staffId ≠ j) →
          (FormatDate.eveningLoop ctx d target pool assigned st flag).1.loads j = st.loads j)
      ∧ (∀ j, (∃ e ∈ A, e.staffId = j) →
          ((FormatDate.eveningLoop ctx d target pool assigned st flag).1.loads j).lastShiftDate = some d
          ∧ ((FormatDate.eveningLoop ctx d target pool assigned st flag).1.loads j).lastShiftType = orNull ctx.eveningShiftId) :=
  assignLoop_spec (FormatDate.eveningStep ctx d) target (eveningEntry ctx d) d (orNull ctx.eveningShiftId)
    (FormatDate.eveningStep_sched_fd ctx d) (fun m => rfl) (FormatDate.eveningStep_loads_ne_fd ctx d)
    (FormatDate.eveningStep_loads_false_fd ctx d) (FormatDate.eveningStep_loads_true_fd ctx d) pool assigned st flag

/-- Instantiated loop description for `FormatDate.nightLoop`. -/
theorem FormatDate.nightLoop_spec_fd (ctx : RunCtx) (d : Int) (target : Nat)
    (pool : List Staff) (assigned : Nat) (st : GenState) (flag : Int → Bool) :
    ∃ A : List InsertSchedule,
      (FormatDate.nightLoop ctx d target pool assigned st flag).1.schedules = st.schedules ++ A
      ∧ (A.map (fun e => e.staffId)).Sublist (pool.map (fun s => s.id))
      ∧ (∀ e ∈ A, ∃ m ∈ pool, e = nightEntry ctx d m)
      ∧ A.length + assigned ≤ max assigned target
      ∧ (∀ j, (FormatDate.nightLoop ctx d target pool assigned st flag).2 j
          = (flag j || A.any (fun e => e.staffId == j)))
      ∧ (∀ j, (∀ e ∈ A, e.staffId ≠ j) →
          (FormatDate.nightLoop ctx d target pool assigned st flag).1.loads j = st.loads j)
      ∧ (∀ j, (∃ e ∈ A, e.staffId = j) →
          ((FormatDate.nightLoop ctx d target pool assigned st flag).1.loads j).lastShiftDate = some d
          ∧ ((FormatDate.nightLoop ctx d target pool assigned st flag).1.loads j).lastShiftType = orNull ctx.nightShiftId) :=
  assignLoop_spec (FormatDate.nightStep ctx d) target (nightEntry ctx d) d (orNull ctx.nightShiftId)
    (FormatDate.nightStep_sched_fd ctx d) (fun m => rfl) (FormatDate.nightStep_loads_ne_fd ctx d)
    (FormatDate.nightStep_loads_false_fd ctx d) (FormatDate.nightStep_loads_true_fd ctx d) pool assigned st flag

/-- A staff member in day-to-night skip state at night-loop entry is never
assigned by `Enhanced.nightLoop`, and their load is untouched. -/
theorem Enhanced.nightLoop_skip_spec (ctx : RunCtx) (d : Int) (target : Nat)
    (pool : List Staff) (assigned : Nat) (st : GenState) (flag : Int → Bool)
    (s : Int) (h : Enhanced.nightSkip ctx d (st.loads s) = true) :
    ∃ A : List InsertSchedule,
      (Enhanced.nightLoop ctx d target pool assigned st flag).1.schedules = st.schedules ++ A
      ∧ (∀ e ∈ A, e.staffId ≠ s)
      ∧ (Enhanced.nightLoop ctx d target pool assigned st flag).1.loads s = st.loads s :=
  assignLoop_skip (Enhanced.nightStep ctx d) target (nightEntry ctx d) s
    (fun L => Enhanced.nightSkip ctx d L = true)
    (fun m st1 hm hQ => Enhanced.nightStep_skip ctx d m st1 (by rw [hm]; exact hQ))
    (Enhanced.nightStep_sched ctx d) (fun m => rfl) (Enhanced.nightStep_loads_ne ctx d)
    (Enhanced.nightStep_loads_false ctx d) pool assigned st flag h

/-- A staff member in day-to-night skip state at night-loop entry is never
assigned by `FormatDate.nightLoop`, and their load is untouched. -/
theorem FormatDate.nightLoop_skip_spec_fd (ctx : RunCtx) (d : Int) (target : Nat)
    (pool : List Staff) (assigned : Nat) (st : GenState) (flag : Int → Bool)
    (s : Int) (h : Enhanced.nightSkip ctx d (st.loads s) = true) :
    ∃ A : List InsertSchedule,
      (FormatDate.nightLoop ctx d target pool assigned st flag).1.schedules = st.schedules ++ A
      ∧ (∀ e ∈ A, e.staffId ≠ s)
      ∧ (FormatDate.nightLoop ctx d target pool assigned st flag).1.loads s = st.loads s :=
  assignLoop_skip (FormatDate.nightStep ctx d) target (nightEntry ctx d) s
    (fun L => Enhanced.nightSkip ctx d L = true)
    (fun m st1 hm hQ => FormatDate.nightStep_skip_fd ctx d m st1 (by rw [hm]; exact hQ))
    (FormatDate.nightStep_sched_fd ctx d) (fun m => rfl) (FormatDate.nightStep_loads_ne_fd ctx d)
    (FormatDate.nightStep_loads_false_fd ctx d) pool assigned st flag h

/-! ## Pre and post duty phase facts (enhanced variant) -/

/-- The pre-duty phase appends at most one entry — a day-shift-tagged pre-duty
record for an unconsumed pool member — and stamps only that assignee's load.
It does not mark the assignee in `assignedShifts`. -/
theorem Enhanced.preDutyPhase_spec (ctx : RunCtx) (d : Int) (pool : List Staff)
    (st : GenState) (flag : Flags) :
    ∃ A : List InsertSchedule,
      (Enhanced.preDutyPhase ctx d pool st flag).schedules = st.schedules ++ A
      ∧ (A = [] ∨ ∃ m ∈ pool, flag m.id = false ∧ A = [preEntry ctx d m])
      ∧ (∀ j, (∀ e ∈ A, e.staffId ≠ j) →
          (Enhanced.preDutyPhase ctx d pool st flag).loads j = st.loads j)
      ∧ (∀ j, (∃ e ∈ A, e.staffId = j) →
          ((Enhanced.preDutyPhase ctx d pool st flag).loads j).lastShiftDate = some d
          ∧ ((Enhanced.preDutyPhase ctx d pool st flag).loads j).lastShiftType
              = orNull ctx.dayShiftId) := by
  simp only [Enhanced.preDutyPhase]
  split
  · split
    · exact ⟨[], by simp, Or.inl rfl, fun j _ => rfl, fun j hj => by simp at hj⟩
    · rename_i m rest heq
      have hm : m ∈ pool.filter (fun s => !flag s.id) := by
        have hmem : m ∈ sortByCmp
            (Enhanced.preDutyComparator st.loads st.patterns)
            (pool.filter (fun s => !flag s.id)) := by
          rw [heq]; exact List.mem_cons_self _ _
        exact (sortByCmp_mem _ _ _).mp hmem
      have hmp : m ∈ pool := (List.mem_filter.mp hm).1
      have hmf : flag m.id = false := by simpa using (List.mem_filter.mp hm).2
      simp only [Enhanced.preDutyAssign]
      split
      · exact ⟨[], by simp, Or.inl rfl, fun j _ => rfl, fun j hj => by simp at hj⟩
      · refine ⟨[preEntry ctx d m], by simp [preEntry], Or.inr ⟨m, hmp, hmf, rfl⟩, ?_, ?_⟩
        · intro j hj
          have hjm : j ≠ m.id := by
            have := hj (preEntry ctx d m) (by simp)
            simp only [preEntry] at this
            exact fun h => this h.symm
          simp [updateFn, hjm]
        · intro j hj
          obtain ⟨e, he, hej⟩ := hj
          simp only [List.mem_singleton] at he
          have hjm : j = m.id := by rw [← hej, he]; rfl
          subst hjm
          constructor <;> simp [updateFn]
  · exact ⟨[], by simp, Or.inl rfl, fun j _ => rfl, fun j hj => by simp at hj⟩

/-- The post-duty phase: mirror of the pre-duty phase. -/
theorem Enhanced.postDutyPhase_spec (ctx : RunCtx) (d : Int) (pool : List Staff)
    (st : GenState) (flag : Flags) :
    ∃ A : List InsertSchedule,
      (Enhanced.postDutyPhase ctx d pool st flag).schedules = st.schedules ++ A
      ∧ (A = [] ∨ ∃ m ∈ pool, flag m.id = false ∧ A = [postEntry ctx d m])
      ∧ (∀ j, (∀ e ∈ A, e.staffId ≠ j) →
          (Enhanced.postDutyPhase ctx d pool st flag).loads j = st.loads j)
      ∧ (∀ j, (∃ e ∈ A, e.staffId = j) →
          ((Enhanced.postDutyPhase ctx d pool st flag).loads j).lastShiftDate = some d
          ∧ ((Enhanced.postDutyPhase ctx d pool st flag).loads j).lastShiftType
              = orNull ctx.dayShiftId) := by
  simp only [Enhanced.postDutyPhase]
  split
  · split
    · exact ⟨[], by simp, Or.inl rfl, fun j _ => rfl, fun j hj => by simp at hj⟩
    · rename_i m rest heq
      have hm : m ∈ pool.filter (fun s => !flag s.id) := by
        have hmem : m ∈ sortByCmp
            (Enhanced.postDutyComparator st.loads st.patterns)
            (pool.filter (fun s => !flag s.id)) := by
          rw [heq]; exact List.mem_cons_self _ _
        exact (sortByCmp_mem _ _ _).mp hmem
      have hmp : m ∈ pool := (List.mem_filter.mp hm).1
      have hmf : flag m.id = false := by simpa using (List.mem_filter.mp hm).2
      simp only [Enhanced.postDutyAssign]
      split
      · exact ⟨[], by simp, Or.inl rfl, fun j _ => rfl, fun j hj => by simp at hj⟩
      · refine ⟨[postEntry ctx d m], by simp [postEntry], Or.inr ⟨m, hmp, hmf, rfl⟩, ?_, ?_⟩
        · intro j hj
          have hjm : j ≠ m.id := by
            have := hj (postEntry ctx d m) (by simp)
            simp only [postEntry] at this
            exact fun h => this h.symm
          simp [updateFn, hjm]
        · intro j hj
          obtain ⟨e, he, hej⟩ := hj
          simp only [List.mem_singleton] at he
          have hjm : j = m.id := by rw [← hej, he]; rfl
          subst hjm
          constructor <;> simp [updateFn]
  · exact ⟨[], by simp, Or.inl rfl, fun j _ => rfl, fun j hj => by simp at hj⟩

/-! ## Stage-level facts for the enhanced per-date pipeline -/

/-- Day-shift phase of one date. -/
theorem Enhanced.stage1_spec (ctx : RunCtx) (st : GenState) (d : Int) :
    ∃ A : List InsertSchedule,
      (Enhanced.stage1 ctx st d).1.schedules = st.schedules ++ A
      ∧ (∀ e ∈ A, ∃ m ∈ availablePool ctx st d, e = dayEntry ctx d m)
      ∧ (((availablePool ctx st d).map (fun s => s.id)).Nodup →
          (A.map (fun e => e.staffId)).Nodup)
      ∧ A.length ≤ max 1 (((availablePool ctx st d).length + 2) / 3)
      ∧ (∀ j, (Enhanced.stage1 ctx st d).2 j = A.any (fun e => e.staffId == j))
      ∧ (∀ j, (∀ e ∈ A, e.staffId ≠ j) →
          (Enhanced.stage1 ctx st d).1.loads j = st.loads j)
      ∧ (∀ j, (∃ e ∈ A, e.staffId = j) →
          ((Enhanced.stage1 ctx st d).1.loads j).lastShiftDate = some d
          ∧ ((Enhanced.stage1 ctx st d).1.loads j).lastShiftType = orNull ctx.dayShiftId) := by
  obtain ⟨A, h1, h2, h3, h4, h5, h6, h7⟩ :=
    Enhanced.dayLoop_spec ctx d (max 1 (((availablePool ctx st d).length + 2) / 3))
      (availablePool ctx st d) 0 st (fun _ => false)
  exact ⟨A, h1, h3, fun hnd => List.Nodup.sublist h2 hnd, by simpa using h4,
    fun j => by simpa using h5 j, h6, h7⟩

/-- Evening-shift phase of one date. -/
theorem Enhanced.stage2_spec (ctx : RunCtx) (st : GenState) (d : Int) :
    ∃ A : List InsertSchedule,
      (Enhanced.stage2 ctx st d).1.schedules = (Enhanced.stage1 ctx st d).1.schedules ++ A
      ∧ (∀ e ∈ A, ∃ m ∈ Enhanced.remAfterDay ctx st d, e = eveningEntry ctx d m)
      ∧ (((Enhanced.remAfterDay ctx st d).map (fun s => s.id)).Nodup →
          (A.map (fun e => e.staffId)).Nodup)
      ∧ A.length ≤ max 1 (((Enhanced.remAfterDay ctx st d).length + 1) / 2)
      ∧ (∀ j, (Enhanced.stage2 ctx st d).2 j
          = ((Enhanced.stage1 ctx st d).2 j || A.any (fun e => e.staffId == j)))
      ∧ (∀ j, (∀ e ∈ A, e.staffId ≠ j) →
          (Enhanced.stage2 ctx st d).1.loads j = (Enhanced.stage1 ctx st d).1.loads j)
      ∧ (∀ j, (∃ e ∈ A, e.staffId = j) →
          ((Enhanced.stage2 ctx st d).1.loads j).lastShiftDate = some d
          ∧ ((Enhanced.stage2 ctx st d).1.loads j).lastShiftType = orNull ctx.eveningShiftId) := by
  obtain ⟨A, h1, h2, h3, h4, h5, h6, h7⟩ :=
    Enhanced.eveningLoop_spec ctx d (max 1 (((Enhanced.remAfterDay ctx st d).length + 1) / 2))
      (sortByCmp
        (Enhanced.eveningComparator (Enhanced.stage1 ctx st d).1.loads
          (Enhanced.stage1 ctx st d).1.patterns)
        (Enhanced.remAfterDay ctx st d))
      0 (Enhanced.stage1 ctx st d).1 (Enhanced.stage1 ctx st d).2
  refine ⟨A, h1, ?_, ?_, by simpa using h4, h5, h6, h7⟩
  · intro e he
    obtain ⟨m, hm, he'⟩ := h3 e he
    exact ⟨m, (sortByCmp_mem _ _ _).mp hm, he'⟩
  · intro hnd
    exact List.Nodup.sublist h2 (sortByCmp_map_nodup _ _ _ hnd)

/-- Night-shift phase of one date. -/
theorem Enhanced.stage3_spec (ctx : RunCtx) (st : GenState) (d : Int) :
    ∃ A : List InsertSchedule,
      (Enhanced.stage3 ctx st d).1.schedules = (Enhanced.stage2 ctx st d).1.schedules ++ A
      ∧ (∀ e ∈ A, ∃ m ∈ Enhanced.remAfterEvening ctx st d, e = nightEntry ctx d m)
      ∧ (((Enhanced.remAfterEvening ctx st d).map (fun s => s.id)).Nodup →
          (A.map (fun e => e.staffId)).Nodup)
      ∧ A.length ≤ max 1 (((Enhanced.remAfterEvening ctx st d).length + 2) / 3)
      ∧ (∀ j, (Enhanced.stage3 ctx st d).2 j
          = ((Enhanced.stage2 ctx st d).2 j || A.any (fun e => e.staffId == j)))
      ∧ (∀ j, (∀ e ∈ A, e.staffId ≠ j) →
          (Enhanced.stage3 ctx st d).1.loads j = (Enhanced.stage2 ctx st d).1.loads j)
      ∧ (∀ j, (∃ e ∈ A, e.staffId = j) →
          ((Enhanced.stage3 ctx st d).1.loads j).lastShiftDate = some d
          ∧ ((Enhanced.stage3 ctx st d).1.loads j).lastShiftType = orNull ctx.nightShiftId) := by
  obtain ⟨A, h1, h2, h3, h4, h5, h6, h7⟩ :=
    Enhanced.nightLoop_spec ctx d (max 1 (((Enhanced.remAfterEvening ctx st d).length + 2) / 3))
      (sortByCmp
        (Enhanced.nightComparator (Enhanced.stage2 ctx st d).1.loads
          (Enhanced.stage2 ctx st d).1.patterns)
        (Enhanced.remAfterEvening ctx st d))
      0 (Enhanced.stage2 ctx st d).1 (Enhanced.stage2 ctx st d).2
  refine ⟨A, h1, ?_, ?_, by simpa using h4, h5, h6, h7⟩
  · intro e he
    obtain ⟨m, hm, he'⟩ := h3 e he
    exact ⟨m, (sortByCmp_mem _ _ _).mp hm, he'⟩
  · intro hnd
    exact List.Nodup.sublist h2 (sortByCmp_map_nodup _ _ _ hnd)

/-- The night phase never assigns a staff member who enters it in day-to-night
skip state. -/
theorem Enhanced.stage3_skip_spec (ctx : RunCtx) (st : GenState) (d : Int) (s : Int)
    (h : Enhanced.nightSkip ctx d ((Enhanced.stage2 ctx st d).1.loads s) = true) :
    ∃ A : List InsertSchedule,
      (Enhanced.stage3 ctx st d).1.schedules = (Enhanced.stage2 ctx st d).1.schedules ++ A
      ∧ (∀ e ∈ A, e.staffId ≠ s)
      ∧ (Enhanced.stage3 ctx st d).1.loads s = (Enhanced.stage2 ctx st d).1.loads s :=
  Enhanced.nightLoop_skip_spec ctx d
    (max 1 (((Enhanced.remAfterEvening ctx st d).length + 2) / 3))
    (sortByCmp
      (Enhanced.nightComparator (Enhanced.stage2 ctx st d).1.loads
        (Enhanced.stage2 ctx st d).1.patterns)
      (Enhanced.remAfterEvening ctx st d))
    0 (Enhanced.stage2 ctx st d).1 (Enhanced.stage2 ctx st d).2 s h

/-- Pre-duty phase of one date includes the `d+1`-in-range gating. -/
theorem Enhanced.stage4_spec (ctx : RunCtx) (st : GenState) (d : Int) :
    ∃ A : List InsertSchedule,
      (Enhanced.stage4 ctx st d).schedules = (Enhanced.stage3 ctx st d).1.schedules ++ A
      ∧ (A = [] ∨ ∃ m ∈ availablePool ctx st d,
          (Enhanced.stage3 ctx st d).2 m.id = false ∧ A = [preEntry ctx d m])
      ∧ (∀ j, (∀ e ∈ A, e.staffId ≠ j) →
          (Enhanced.stage4 ctx st d).loads j = (Enhanced.stage3 ctx st d).1.loads j)
      ∧ (∀ j, (∃ e ∈ A, e.staffId = j) →
          ((Enhanced.stage4 ctx st d).loads j).lastShiftDate = some d
          ∧ ((Enhanced.stage4 ctx st d).loads j).lastShiftType = orNull ctx.dayShiftId) :=
  Enhanced.preDutyPhase_spec ctx d (availablePool ctx st d)
    (Enhanced.stage3 ctx st d).1 (Enhanced.stage3 ctx st d).2

/-- Post-duty phase of one date: the final stage of `processDate`. -/
theorem Enhanced.stage5_spec (ctx : RunCtx) (st : GenState) (d : Int) :
    ∃ A : List InsertSchedule,
      (Enhanced.processDate ctx st d).schedules = (Enhanced.stage4 ctx st d).schedules ++ A
      ∧ (A = [] ∨ ∃ m ∈ availablePool ctx st d,
          (Enhanced.stage3 ctx st d).2 m.id = false ∧ A = [postEntry ctx d m])
      ∧ (∀ j, (∀ e ∈ A, e.staffId ≠ j) →
          (Enhanced.processDate ctx st d).loads j = (Enhanced.stage4 ctx st d).loads j)
      ∧ (∀ j, (∃ e ∈ A, e.staffId = j) →
          ((Enhanced.processDate ctx st d).loads j).lastShiftDate = some d
          ∧ ((Enhanced.processDate ctx st d).loads j).lastShiftType = orNull ctx.dayShiftId) :=
  Enhanced.postDutyPhase_spec ctx d (availablePool ctx st d)
    (Enhanced.stage4 ctx st d) (Enhanced.stage3 ctx st d).2

/-! ## Small bridging lemmas about entry lists -/

theorem any_staffId_eq_false {A : List InsertSchedule} {s : Int}
    (h : A.any (fun e => e.staffId == s) = false) : ∀ e ∈ A, e.staffId ≠ s := by
  intro e he
  have := List.any_eq_true.not.mp (by rw [h]; simp)
  push_neg at this
  have := this e he
  simpa using this

theorem any_staffId_eq_true {A : List InsertSchedule} {s : Int}
    (h : ∃ e ∈ A, e.staffId = s) : A.any (fun e => e.staffId == s) = true := by
  obtain ⟨e, he, hs⟩ := h
  exact List.any_eq_true.mpr ⟨e, he, by simp [hs]⟩

theorem filter_staffId_nil {A : List InsertSchedule} {s : Int}
    (h : ∀ e ∈ A, e.staffId ≠ s) : A.filter (fun e => e.staffId == s) = [] := by
  rw [List.filter_eq_nil]
  intro e he
  simpa using h e he

theorem filter_staffId_length_le_one {A : List InsertSchedule} {s : Int}
    (h : (A.map (fun e => e.staffId)).Nodup) :
    (A.filter (fun e => e.staffId == s)).length ≤ 1 := by
  induction A with
  | nil => simp
  | cons e rest ih =>
    simp only [List.map_cons, List.nodup_cons] at h
    by_cases hs : e.staffId = s
    · have hnil : rest.filter (fun e => e.staffId == s) = [] := by
        apply filter_staffId_nil
        intro x hx hxs
        apply h.1
        rw [hs, ← hxs]
        exact List.mem_map_of_mem _ hx
      simp [List.filter_cons, hs, hnil]
    · have : (e.staffId == s) = false := by simpa using hs
      simp only [List.filter_cons, this]
      exact ih h.2

theorem availablePool_ids_nodup (ctx : RunCtx) (st : GenState) (d : Int)
    (h : (ctx.staff.map (fun s => s.id)).Nodup) :
    ((availablePool ctx st d).map (fun s => s.id)).Nodup := by
  apply sortByCmp_map_nodup
  exact List.Nodup.sublist (List.Sublist.map _ (List.filter_sublist _)) h

/-- Master description of one processed date of the enhanced generator: the
appended entries all carry the date and come from the available pool with one
of the three category shift ids (pre/post-duty are day-shift-tagged);
untouched staff keep their loads; an assignee's last-shift tracking records
the date and the truthy shift id of their (final) entry; a staff member in
day-to-night skip state receives no night-shift entry; and with a
duplicate-free roster each staff member receives at most two entries, two
only as a pre-duty/post-duty pair. -/
theorem Enhanced.processDate_spec (ctx : RunCtx) (st : GenState) (d : Int) :
    ∃ A : List InsertSchedule,
      (Enhanced.processDate ctx st d).schedules = st.schedules ++ A
      ∧ (∀ e ∈ A, e.date = d
          ∧ e.staffId ∈ (availablePool ctx st d).map (fun s => s.id)
          ∧ (e.shiftTypeId = ctx.dayShiftId ∨ e.shiftTypeId = ctx.eveningShiftId
              ∨ e.shiftTypeId = ctx.nightShiftId)
          ∧ e.unit = ctx.unit)
      ∧ (∀ s, (∀ e ∈ A, e.staffId ≠ s) →
          (Enhanced.processDate ctx st d).loads s = st.loads s)
      ∧ (∀ s X, X ≠ 0 → (∃ e ∈ A, e.staffId = s ∧ e.shiftTypeId = some X) →
          ((Enhanced.processDate ctx st d).loads s).lastShiftType = some X
          ∧ ((Enhanced.processDate ctx st d).loads s).lastShiftDate = some d)
      ∧ (∀ s nId, ctx.nightShiftId = some nId → ctx.eveningShiftId ≠ some nId →
          (∀ dId, ctx.dayShiftId = some dId → dId ≠ nId) →
          Enhanced.nightSkip ctx d (st.loads s) = true →
          ∀ e ∈ A, ¬(e.staffId = s ∧ e.shiftTypeId = some nId))
      ∧ ((ctx.staff.map (fun s => s.id)).Nodup → ∀ s,
          (A.filter (fun e => e.staffId == s)).length ≤ 2
          ∧ ((A.filter (fun e => e.staffId == s)).length = 2 →
              A.filter (fun e => e.staffId == s) =
                [{ staffId := s, date := d, shiftTypeId := ctx.dayShiftId,
                   dutyTypeId := ctx.preDutyId, unit := ctx.unit },
                 { staffId := s, date := d, shiftTypeId := ctx.dayShiftId,
                   dutyTypeId := ctx.postDutyId, unit := ctx.unit }])) := by
  obtain ⟨A1, s1, m1, nd1, len1, f1, p1, w1⟩ := Enhanced.stage1_spec ctx st d
  obtain ⟨A2, s2, m2, nd2, len2, f2, p2, w2⟩ := Enhanced.stage2_spec ctx st d
  obtain ⟨A3, s3, m3, nd3, len3, f3, p3, w3⟩ := Enhanced.stage3_spec ctx st d
  obtain ⟨A4, s4, m4, p4, w4⟩ := Enhanced.stage4_spec ctx st d
  obtain ⟨A5, s5, m5, p5, w5⟩ := Enhanced.stage5_spec ctx st d
  have hsub2 : ∀ m ∈ Enhanced.remAfterDay ctx st d,
      m ∈ availablePool ctx st d ∧ (Enhanced.stage1 ctx st d).2 m.id = false := by
    intro m hm
    have := List.mem_filter.mp hm
    exact ⟨this.1, by simpa using this.2⟩
  have hsub3 : ∀ m ∈ Enhanced.remAfterEvening ctx st d,
      m ∈ availablePool ctx st d ∧ (Enhanced.stage2 ctx st d).2 m.id = false := by
    intro m hm
    have := List.mem_filter.mp hm
    exact ⟨this.1, by simpa using this.2⟩
  -- If a staff member has an entry in an earlier block, the later blocks have
  -- none for them (the flags are monotone and gate the later pools).
  have hf1 : ∀ s, (∃ e ∈ A1, e.staffId = s) → (Enhanced.stage1 ctx st d).2 s = true := by
    intro s hs
    rw [f1 s]
    exact any_staffId_eq_true hs
  have hf2 : ∀ s, (Enhanced.stage1 ctx st d).2 s = true ∨ (∃ e ∈ A2, e.staffId = s) →
      (Enhanced.stage2 ctx st d).2 s = true := by
    intro s hs
    rw [f2 s]
    rcases hs with h | h
    · rw [h]; rfl
    · rw [any_staffId_eq_true h]; simp
  have hf3 : ∀ s, (Enhanced.stage2 ctx st d).2 s = true ∨ (∃ e ∈ A3, e.staffId = s) →
      (Enhanced.stage3 ctx st d).2 s = true := by
    intro s hs
    rw [f3 s]
    rcases hs with h | h
    · rw [h]; rfl
    · rw [any_staffId_eq_true h]; simp
  have hnoA2 : ∀ s, (Enhanced.stage1 ctx st d).2 s = true → ∀ e ∈ A2, e.staffId ≠ s := by
    intro s h e he hes
    obtain ⟨m, hm, rfl⟩ := m2 e he
    have : m.id = s := hes
    rw [← this] at h
    rw [(hsub2 m hm).2] at h
    exact Bool.false_ne_true h
  have hnoA3 : ∀ s, (Enhanced.stage2 ctx st d).2 s = true → ∀ e ∈ A3, e.staffId ≠ s := by
    intro s h e he hes
    obtain ⟨m, hm, rfl⟩ := m3 e he
    have : m.id = s := hes
    rw [← this] at h
    rw [(hsub3 m hm).2] at h
    exact Bool.false_ne_true h
  have hnoA4 : ∀ s, (Enhanced.stage3 ctx st d).2 s = true → ∀ e ∈ A4, e.staffId ≠ s := by
    intro s h e he hes
    rcases m4 with rfl | ⟨m, _, hflag, rfl⟩
    · simp at he
    · simp only [List.mem_singleton] at he
      subst he
      have : m.id = s := hes
      rw [← this] at h
      rw [hflag] at h
      exact Bool.false_ne_true h
  have hnoA5 : ∀ s, (Enhanced.stage3 ctx st d).2 s = true → ∀ e ∈ A5, e.staffId ≠ s := by
    intro s h e he hes
    rcases m5 with rfl | ⟨m, _, hflag, rfl⟩
    · simp at he
    · simp only [List.mem_singleton] at he
      subst he
      have : m.id = s := hes
      rw [← this] at h
      rw [hflag] at h
      exact Bool.false_ne_true h
  refine ⟨A1 ++ (A2 ++ (A3 ++ (A4 ++ A5))), ?_, ?_, ?_, ?_, ?_, ?_⟩
  · rw [s5, s4, s3, s2, s1]
    simp [List.append_assoc]
  · intro e he
    rcases List.mem_append.mp he with h | h
    · obtain ⟨m, hm, rfl⟩ := m1 e h
      exact ⟨rfl, List.mem_map_of_mem _ hm, Or.inl rfl, rfl⟩
    rcases List.mem_append.mp h with h | h
    · obtain ⟨m, hm, rfl⟩ := m2 e h
      exact ⟨rfl, List.mem_map_of_mem _ (hsub2 m hm).1, Or.inr (Or.inl rfl), rfl⟩
    rcases List.mem_append.mp h with h | h
    · obtain ⟨m, hm, rfl⟩ := m3 e h
      exact ⟨rfl, List.mem_map_of_mem _ (hsub3 m hm).1, Or.inr (Or.inr rfl), rfl⟩
    rcases List.mem_append.mp h with h | h
    · rcases m4 with rfl | ⟨m, hm, _, rfl⟩
      · simp at h
      · simp only [List.mem_singleton] at h
        subst h
        exact ⟨rfl, List.mem_map_of_mem _ hm, Or.inl rfl, rfl⟩
    · rcases m5 with rfl | ⟨m, hm, _, rfl⟩
      · simp at h
      · simp only [List.mem_singleton] at h
        subst h
        exact ⟨rfl, List.mem_map_of_mem _ hm, Or.inl rfl, rfl⟩
  · intro s hs
    have n1 : ∀ e ∈ A1, e.staffId ≠ s := fun e he => hs e (by simp [he])
    have n2 : ∀ e ∈ A2, e.staffId ≠ s := fun e he => hs e (by simp [he])
    have n3 : ∀ e ∈ A3, e.staffId ≠ s := fun e he => hs e (by simp [he])
    have n4 : ∀ e ∈ A4, e.staffId ≠ s := fun e he => hs e (by simp [he])
    have n5 : ∀ e ∈ A5, e.staffId ≠ s := fun e he => hs e (by simp [he])
    calc (Enhanced.processDate ctx st d).loads s
        = (Enhanced.stage4 ctx st d).loads s := p5 s n5
      _ = (Enhanced.stage3 ctx st d).1.loads s := p4 s n4
      _ = (Enhanced.stage2 ctx st d).1.loads s := p3 s n3
      _ = (Enhanced.stage1 ctx st d).1.loads s := p2 s n2
      _ = st.loads s := p1 s n1
  · intro s X hX hex
    by_cases c5 : ∃ e ∈ A5, e.staffId = s
    · have hflag5 : (Enhanced.stage3 ctx st d).2 s = false := by
        obtain ⟨e, he, hes⟩ := c5
        rcases m5 with rfl | ⟨m, _, hflag, rfl⟩
        · simp at he
        · simp only [List.mem_singleton] at he
          subst he
          have : m.id = s := hes
          rwa [this] at hflag
      have hday : ctx.dayShiftId = some X := by
        obtain ⟨e, he, hes, hesh⟩ := hex
        rcases List.mem_append.mp he with h | h
        · exact absurd (hf3 s (Or.inl (hf2 s (Or.inl (hf1 s ⟨e, h, hes⟩)))))
            (by rw [hflag5]; simp)
        rcases List.mem_append.mp h with h | h
        · exact absurd (hf3 s (Or.inl (hf2 s (Or.inr ⟨e, h, hes⟩))))
            (by rw [hflag5]; simp)
        rcases List.mem_append.mp h with h | h
        · exact absurd (hf3 s (Or.inr ⟨e, h, hes⟩)) (by rw [hflag5]; simp)
        rcases List.mem_append.mp h with h | h
        · rcases m4 with rfl | ⟨m, _, _, rfl⟩
          · simp at h
          · simp only [List.mem_singleton] at h
            subst h
            exact hesh ▸ rfl
        · rcases m5 with rfl | ⟨m, _, _, rfl⟩
          · simp at h
          · simp only [List.mem_singleton] at h
            subst h
            exact hesh ▸ rfl
      obtain ⟨hdate, htype⟩ := w5 s c5
      refine ⟨?_, hdate⟩
      rw [htype, hday]
      simp [orNull, hX]
    · have n5 : ∀ e ∈ A5, e.staffId ≠ s := by
        push_neg at c5
        exact c5
      by_cases c4 : ∃ e ∈ A4, e.staffId = s
      · have hflag4 : (Enhanced.stage3 ctx st d).2 s = false := by
          obtain ⟨e, he, hes⟩ := c4
          rcases m4 with rfl | ⟨m, _, hflag, rfl⟩
          · simp at he
          · simp only [List.mem_singleton] at he
            subst he
            have : m.id = s := hes
            rwa [this] at hflag
        have hday : ctx.dayShiftId = some X := by
          obtain ⟨e, he, hes, hesh⟩ := hex
          rcases List.mem_append.mp he with h | h
          · exact absurd (hf3 s (Or.inl (hf2 s (Or.inl (hf1 s ⟨e, h, hes⟩)))))
              (by rw [hflag4]; simp)
          rcases List.mem_append.mp h with h | h
          · exact absurd (hf3 s (Or.inl (hf2 s (Or.inr ⟨e, h, hes⟩))))
              (by rw [hflag4]; simp)
          rcases List.mem_append.mp h with h | h
          · exact absurd (hf3 s (Or.inr ⟨e, h, hes⟩)) (by rw [hflag4]; simp)
          rcases List.mem_append.mp h with h | h
          · rcases m4 with rfl | ⟨m, _, _, rfl⟩
            · simp at h
            · simp only [List.mem_singleton] at h
              subst h
              exact hesh ▸ rfl
          · exact absurd hes (n5 e h)
        have hch : (Enhanced.processDate ctx st d).loads s
            = (Enhanced.stage4 ctx st d).loads s := p5 s n5
        obtain ⟨hdate, htype⟩ := w4 s c4
        refine ⟨?_, by rw [hch]; exact hdate⟩
        rw [hch, htype, hday]
        simp [orNull, hX]
      · have n4 : ∀ e ∈ A4, e.staffId ≠ s := by
          push_neg at c4
          exact c4
        by_cases c3 : ∃ e ∈ A3, e.staffId = s
        · have hflag3 : (Enhanced.stage2 ctx st d).2 s = false := by
            obtain ⟨e, he, hes⟩ := c3
            obtain ⟨m, hm, rfl⟩ := m3 e he
            have : m.id = s := hes
            rw [← this]
            exact (hsub3 m hm).2
          have hnight : ctx.nightShiftId = some X := by
            obtain ⟨e, he, hes, hesh⟩ := hex
            rcases List.mem_append.mp he with h | h
            · exact absurd (hf2 s (Or.inl (hf1 s ⟨e, h, hes⟩))) (by rw [hflag3]; simp)
            rcases List.mem_append.mp h with h | h
            · exact absurd (hf2 s (Or.inr ⟨e, h, hes⟩)) (by rw [hflag3]; simp)
            rcases List.mem_append.mp h with h | h
            · obtain ⟨m, hm, rfl⟩ := m3 e h
              exact hesh ▸ rfl
            rcases List.mem_append.mp h with h | h
            · exact absurd hes (n4 e h)
            · exact absurd hes (n5 e h)
          have hch : (Enhanced.processDate ctx st d).loads s
              = (Enhanced.stage3 ctx st d).1.loads s := by
            rw [p5 s n5, p4 s n4]
          obtain ⟨hdate, htype⟩ := w3 s c3
          refine ⟨?_, by rw [hch]; exact hdate⟩
          rw [hch, htype, hnight]
          simp [orNull, hX]
        · have n3 : ∀ e ∈ A3, e.staffId ≠ s := by
            push_neg at c3
            exact c3
          by_cases c2 : ∃ e ∈ A2, e.staffId = s
          · have hflag2 : (Enhanced.stage1 ctx st d).2 s = false := by
              obtain ⟨e, he, hes⟩ := c2
              obtain ⟨m, hm, rfl⟩ := m2 e he
              have : m.id = s := hes
              rw [← this]
              exact (hsub2 m hm).2
            have heve : ctx.eveningShiftId = some X := by
              obtain ⟨e, he, hes, hesh⟩ := hex
              rcases List.mem_append.mp he with h | h
              · exact absurd (hf1 s ⟨e, h, hes⟩) (by rw [hflag2]; simp)
              rcases List.mem_append.mp h with h | h
              · obtain ⟨m, hm, rfl⟩ := m2 e h
                exact hesh ▸ rfl
              rcases List.mem_append.mp h with h | h
              · exact absurd hes (n3 e h)
              rcases List.mem_append.mp h with h | h
              · exact absurd hes (n4 e h)
              · exact absurd hes (n5 e h)
            have hch : (Enhanced.processDate ctx st d).loads s
                = (Enhanced.stage2 ctx st d).1.loads s := by
              rw [p5 s n5, p4 s n4, p3 s n3]
            obtain ⟨hdate, htype⟩ := w2 s c2
            refine ⟨?_, by rw [hch]; exact hdate⟩
            rw [hch, htype, heve]
            simp [orNull, hX]
          · have n2 : ∀ e ∈ A2, e.staffId ≠ s := by
              push_neg at c2
              exact c2
            have c1 : ∃ e ∈ A1, e.staffId = s := by
              obtain ⟨e, he, hes, hesh⟩ := hex
              rcases List.mem_append.mp he with h | h
              · exact ⟨e, h, hes⟩
              rcases List.mem_append.mp h with h | h
              · exact absurd hes (n2 e h)
              rcases List.mem_append.mp h with h | h
              · exact absurd hes (n3 e h)
              rcases List.mem_append.mp h with h | h
              · exact absurd hes (n4 e h)
              · exact absurd hes (n5 e h)
            have hday : ctx.dayShiftId = some X := by
              obtain ⟨e, he, hes, hesh⟩ := hex
              rcases List.mem_append.mp he with h | h
              · obtain ⟨m, hm, rfl⟩ := m1 e h
                exact hesh ▸ rfl
              rcases List.mem_append.mp h with h | h
              · exact absurd hes (n2 e h)
              rcases List.mem_append.mp h with h | h
              · exact absurd hes (n3 e h)
              rcases List.mem_append.mp h with h | h
              · exact absurd hes (n4 e h)
              · exact absurd hes (n5 e h)
            have hch : (Enhanced.processDate ctx st d).loads s
                = (Enhanced.stage1 ctx st d).1.loads s := by
              rw [p5 s n5, p4 s n4, p3 s n3, p2 s n2]
            obtain ⟨hdate, htype⟩ := w1 s c1
            refine ⟨?_, by rw [hch]; exact hdate⟩
            rw [hch, htype, hday]
            simp [orNull, hX]
  · intro s nId hn he hd hskip e he' hcontra
    obtain ⟨hes, hesh⟩ := hcontra
    rcases List.mem_append.mp he' with h | h
    · obtain ⟨m, hm, rfl⟩ := m1 e h
      have : ctx.dayShiftId = some nId := hesh ▸ rfl
      exact hd nId this rfl
    rcases List.mem_append.mp h with h | h
    · obtain ⟨m, hm, rfl⟩ := m2 e h
      exact he (hesh ▸ rfl)
    rcases List.mem_append.mp h with h | h
    · by_cases h12 : (Enhanced.stage2 ctx st d).2 s = true
      · exact hnoA3 s h12 e h hes
      · have h12f : (Enhanced.stage2 ctx st d).2 s = false := by
          simpa using h12
        have hsplit : (Enhanced.stage1 ctx st d).2 s = false
            ∧ A2.any (fun e => e.staffId == s) = false := by
          have := f2 s
          rw [h12f] at this
          exact ⟨(Bool.or_eq_false_iff.mp this.symm).1, (Bool.or_eq_false_iff.mp this.symm).2⟩
        have n1 : ∀ x ∈ A1, x.staffId ≠ s := by
          apply any_staffId_eq_false
          have := f1 s
          rw [hsplit.1] at this
          exact this.symm
        have n2 : ∀ x ∈ A2, x.staffId ≠ s := any_staffId_eq_false hsplit.2
        have hload2 : (Enhanced.stage2 ctx st d).1.loads s = st.loads s := by
          rw [p2 s n2, p1 s n1]
        obtain ⟨A3', eq3', hno3', _⟩ :=
          Enhanced.stage3_skip_spec ctx st d s (by rw [hload2]; exact hskip)
        have : A3 = A3' := List.append_cancel_left (s3.symm.trans eq3')
        exact hno3' e (this ▸ h) hes
    rcases List.mem_append.mp h with h | h
    · rcases m4 with rfl | ⟨m, _, _, rfl⟩
      · simp at h
      · simp only [List.mem_singleton] at h
        subst h
        exact hd nId (hesh ▸ rfl) rfl
    · rcases m5 with rfl | ⟨m, _, _, rfl⟩
      · simp at h
      · simp only [List.mem_singleton] at h
        subst h
        exact hd nId (hesh ▸ rfl) rfl
  · intro hnd s
    have ndp := availablePool_ids_nodup ctx st d hnd
    have nd_rem1 : ((Enhanced.remAfterDay ctx st d).map (fun s => s.id)).Nodup :=
      List.Nodup.sublist (List.Sublist.map _ (List.filter_sublist _)) ndp
    have nd_rem2 : ((Enhanced.remAfterEvening ctx st d).map (fun s => s.id)).Nodup :=
      List.Nodup.sublist (List.Sublist.map _ (List.filter_sublist _)) ndp
    have l1 := filter_staffId_length_le_one (A := A1) (s := s) (nd1 ndp)
    have l2 := filter_staffId_length_le_one (A := A2) (s := s) (nd2 nd_rem1)
    have l3 := filter_staffId_length_le_one (A := A3) (s := s) (nd3 nd_rem2)
    simp only [List.filter_append]
    by_cases c1 : ∃ e ∈ A1, e.staffId = s
    · have h1t := hf1 s c1
      have h2t := hf2 s (Or.inl h1t)
      have h3t := hf3 s (Or.inl h2t)
      have e2 : A2.filter (fun e => e.staffId == s) = [] := filter_staffId_nil (hnoA2 s h1t)
      have e3 : A3.filter (fun e => e.staffId == s) = [] := filter_staffId_nil (hnoA3 s h2t)
      have e4 : A4.filter (fun e => e.staffId == s) = [] := filter_staffId_nil (hnoA4 s h3t)
      have e5 : A5.filter (fun e => e.staffId == s) = [] := filter_staffId_nil (hnoA5 s h3t)
      rw [e2, e3, e4, e5]
      simp only [List.append_nil]
      exact ⟨by omega, by omega⟩
    · have e1 : A1.filter (fun e => e.staffId == s) = [] := by
        apply filter_staffId_nil
        intro x hx hxs
        exact c1 ⟨x, hx, hxs⟩
      by_cases c2 : ∃ e ∈ A2, e.staffId = s
      · have h2t := hf2 s (Or.inr c2)
        have h3t := hf3 s (Or.inl h2t)
        have e3 : A3.filter (fun e => e.staffId == s) = [] := filter_staffId_nil (hnoA3 s h2t)
        have e4 : A4.filter (fun e => e.staffId == s) = [] := filter_staffId_nil (hnoA4 s h3t)
        have e5 : A5.filter (fun e => e.staffId == s) = [] := filter_staffId_nil (hnoA5 s h3t)
        rw [e1, e3, e4, e5]
        simp only [List.nil_append, List.append_nil]
        exact ⟨by omega, by omega⟩
      · have e2 : A2.filter (fun e => e.staffId == s) = [] := by
          apply filter_staffId_nil
          intro x hx hxs
          exact c2 ⟨x, hx, hxs⟩
        by_cases c3 : ∃ e ∈ A3, e.staffId = s
        · have h3t := hf3 s (Or.inr c3)
          have e4 : A4.filter (fun e => e.staffId == s) = [] := filter_staffId_nil (hnoA4 s h3t)
          have e5 : A5.filter (fun e => e.staffId == s) = [] := filter_staffId_nil (hnoA5 s h3t)
          rw [e1, e2, e4, e5]
          simp only [List.nil_append, List.append_nil]
          exact ⟨by omega, by omega⟩
        · have e3 : A3.filter (fun e => e.staffId == s) = [] := by
            apply filter_staffId_nil
            intro x hx hxs
            exact c3 ⟨x, hx, hxs⟩
          rw [e1, e2, e3]
          simp only [List.nil_append]
          -- only the pre-duty and post-duty singletons remain
          have h4 : (A4.filter (fun e => e.staffId == s)).length ≤ 1
              ∧ ((A4.filter (fun e => e.staffId == s)) ≠ [] →
                  A4.filter (fun e => e.staffId == s)
                    = [{ staffId := s, date := d, shiftTypeId := ctx.dayShiftId,
                         dutyTypeId := ctx.preDutyId, unit := ctx.unit }]) := by
            rcases m4 with rfl | ⟨m, _, _, rfl⟩
            · simp
            · by_cases hms : m.id = s
              · constructor
                · simp [List.filter, preEntry, hms]
                · intro _
                  simp only [preEntry, List.filter]
                  rw [show (m.id == s) = true by simp [hms]]
                  simp [hms]
              · constructor
                · simp only [List.filter, preEntry]
                  rw [show (m.id == s) = false by simp [hms]]
                  simp
                · intro hne
                  exfalso
                  apply hne
                  simp only [preEntry, List.filter]
                  rw [show (m.id == s) = false by simp [hms]]
          have h5 : (A5.filter (fun e => e.staffId == s)).length ≤ 1
              ∧ ((A5.filter (fun e => e.staffId == s)) ≠ [] →
                  A5.filter (fun e => e.staffId == s)
                    = [{ staffId := s, date := d, shiftTypeId := ctx.dayShiftId,
                         dutyTypeId := ctx.postDutyId, unit := ctx.unit }]) := by
            rcases m5 with rfl | ⟨m, _, _, rfl⟩
            · simp
            · by_cases hms : m.id = s
              · constructor
                · simp [List.filter, postEntry, hms]
                · intro _
                  simp only [postEntry, List.filter]
                  rw [show (m.id == s) = true by simp [hms]]
                  simp [hms]
              · constructor
                · simp only [List.filter, postEntry]
                  rw [show (m.id == s) = false by simp [hms]]
                  simp
                · intro hne
                  exfalso
                  apply hne
                  simp only [postEntry, List.filter]
                  rw [show (m.id == s) = false by simp [hms]]
          constructor
          · rw [List.length_append]
            omega
          · intro hlen
            rw [List.length_append] at hlen
            have h4ne : A4.filter (fun e => e.staffId == s) ≠ [] := by
              intro hnil
              rw [hnil] at hlen
              simp at hlen
              omega
            have h5ne : A5.filter (fun e => e.staffId == s) ≠ [] := by
              intro hnil
              rw [hnil] at hlen
              simp at hlen
              omega
            rw [h4.2 h4ne, h5.2 h5ne]
            rfl

/-! ## Run-level lemmas for the enhanced generator -/

theorem seedSchedule_schedules (ctx : RunCtx) (st : GenState) (sch : Schedule) :
    (seedSchedule ctx st sch).schedules = st.schedules := by
  simp only [seedSchedule]
  split <;> rfl

theorem foldl_seed_schedules (ctx : RunCtx) : ∀ (l : List Schedule) (st : GenState),
    (l.foldl (seedSchedule ctx) st).schedules = st.schedules := by
  intro l
  induction l with
  | nil => intro st; rfl
  | cons x xs ih => intro st; rw [List.foldl_cons, ih, seedSchedule_schedules]

theorem initState_schedules (ctx : RunCtx) : (initState ctx).schedules = [] := by
  simp only [initState]
  rw [foldl_seed_schedules]

theorem availablePool_not_unavailable (ctx : RunCtx) (st : GenState) (d : Int) :
    ∀ i ∈ (availablePool ctx st d).map (fun s => s.id),
      i ∉ unavailableStaffIds ctx.availabilities d := by
  intro i hi
  obtain ⟨m, hm, rfl⟩ := List.mem_map.mp hi
  have hm' := (sortByCmp_mem _ _ _).mp hm
  have hc := (List.mem_filter.mp hm').2
  intro hmem
  simp only [Bool.not_eq_true'] at hc
  simp at hc
  exact hc hmem

theorem Enhanced.foldl_avail_clean (ctx : RunCtx) : ∀ (ds : List Int) (st : GenState),
    (∀ e ∈ st.schedules, ∀ a ∈ ctx.availabilities, a.isAvailable = false →
      ¬(e.staffId = a.staffId ∧ e.date = a.date)) →
    ∀ e ∈ (ds.foldl (Enhanced.processDate ctx) st).schedules, ∀ a ∈ ctx.availabilities,
      a.isAvailable = false → ¬(e.staffId = a.staffId ∧ e.date = a.date) := by
  intro ds
  induction ds with
  | nil => exact fun st h => h
  | cons dd rest ih =>
    intro st hbase
    rw [List.foldl_cons]
    apply ih
    intro e he a ha hfa hcon
    obtain ⟨hsid, hdt⟩ := hcon
    obtain ⟨A, hA, hfacts, _⟩ := Enhanced.processDate_spec ctx st dd
    rw [hA] at he
    rcases List.mem_append.mp he with h | h
    · exact hbase e h a ha hfa ⟨hsid, hdt⟩
    · obtain ⟨hdate, hmem, _, _⟩ := hfacts e h
      apply availablePool_not_unavailable ctx st dd e.staffId hmem
      rw [hsid]
      apply List.mem_map_of_mem
      apply List.mem_filter.mpr
      refine ⟨ha, ?_⟩
      have had : a.date = dd := by rw [← hdt, hdate]
      simp [had, hfa]

/-- Invariant-propagation over a consecutive date range for the
day-to-night exclusion: entry dates stay below the next date to process,
a day-shift entry on the immediately preceding date is reflected in the
staff member's last-shift tracking, and no staff member ever holds a
day-shift entry on one date and a night-shift entry on the next. -/
theorem Enhanced.foldl_no_day_night (ctx : RunCtx) (dId nId : Int)
    (hday : ctx.dayShiftId = some dId) (hd0 : dId ≠ 0)
    (hnight : ctx.nightShiftId = some nId)
    (hdn : dId ≠ nId) (heve : ctx.eveningShiftId ≠ some nId) :
    ∀ (n : Nat) (d0 : Int) (st : GenState),
      (∀ e ∈ st.schedules, e.date < d0) →
      (∀ s, (∃ e ∈ st.schedules, e.staffId = s ∧ e.date = d0 - 1 ∧ e.shiftTypeId = some dId) →
        (st.loads s).lastShiftType = some dId ∧ (st.loads s).lastShiftDate = some (d0 - 1)) →
      (∀ s dd, ¬((∃ e ∈ st.schedules, e.staffId = s ∧ e.date = dd ∧ e.shiftTypeId = some dId)
          ∧ (∃ e ∈ st.schedules, e.staffId = s ∧ e.date = dd + 1 ∧ e.shiftTypeId = some nId))) →
      (∀ e ∈ ((dateRangeAux d0 n).foldl (Enhanced.processDate ctx) st).schedules,
          e.date < d0 + n)
      ∧ (∀ s, (∃ e ∈ ((dateRangeAux d0 n).foldl (Enhanced.processDate ctx) st).schedules,
            e.staffId = s ∧ e.date = d0 + n - 1 ∧ e.shiftTypeId = some dId) →
          ((((dateRangeAux d0 n).foldl (Enhanced.processDate ctx) st).loads s).lastShiftType
              = some dId)
          ∧ ((((dateRangeAux d0 n).foldl (Enhanced.processDate ctx) st).loads s).lastShiftDate
              = some (d0 + n - 1)))
      ∧ (∀ s dd, ¬((∃ e ∈ ((dateRangeAux d0 n).foldl (Enhanced.processDate ctx) st).schedules,
            e.staffId = s ∧ e.date = dd ∧ e.shiftTypeId = some dId)
          ∧ (∃ e ∈ ((dateRangeAux d0 n).foldl (Enhanced.processDate ctx) st).schedules,
            e.staffId = s ∧ e.date = dd + 1 ∧ e.shiftTypeId = some nId))) := by
  intro n
  induction n with
  | zero =>
    intro d0 st h1 h2 h3
    simp only [dateRangeAux, List.foldl_nil]
    refine ⟨?_, ?_, h3⟩
    · intro e he
      have := h1 e he
      omega
    · intro s hs
      have := h2 s (by simpa using hs)
      simpa using this
  | succ n ihn =>
    intro d0 st h1 h2 h3
    simp only [dateRangeAux, List.foldl_cons]
    obtain ⟨A, hA, hfacts, hpres, hlast, hguard, _⟩ := Enhanced.processDate_spec ctx st d0
    -- invariant (1) for the stepped state
    have h1' : ∀ e ∈ (Enhanced.processDate ctx st d0).schedules, e.date < d0 + 1 := by
      intro e he
      rw [hA] at he
      rcases List.mem_append.mp he with h | h
      · have := h1 e h; omega
      · have := (hfacts e h).1; omega
    -- invariant (2) for the stepped state
    have h2' : ∀ s, (∃ e ∈ (Enhanced.processDate ctx st d0).schedules,
          e.staffId = s ∧ e.date = (d0 + 1) - 1 ∧ e.shiftTypeId = some dId) →
        ((Enhanced.processDate ctx st d0).loads s).lastShiftType = some dId
        ∧ ((Enhanced.processDate ctx st d0).loads s).lastShiftDate = some ((d0 + 1) - 1) := by
      intro s hs
      obtain ⟨e, he, hsid, hdt, hsh⟩ := hs
      rw [hA] at he
      rcases List.mem_append.mp he with h | h
      · have := h1 e h
        omega
      · have hres := hlast s dId hd0 ⟨e, h, hsid, hsh⟩
        have heq : d0 + 1 - 1 = d0 := by omega
        rw [heq]
        exact hres
    -- invariant (3) for the stepped state
    have h3' : ∀ s dd, ¬((∃ e ∈ (Enhanced.processDate ctx st d0).schedules,
          e.staffId = s ∧ e.date = dd ∧ e.shiftTypeId = some dId)
        ∧ (∃ e ∈ (Enhanced.processDate ctx st d0).schedules,
          e.staffId = s ∧ e.date = dd + 1 ∧ e.shiftTypeId = some nId)) := by
      intro s dd hcon
      obtain ⟨⟨e1, he1, hs1, hd1, hsh1⟩, ⟨e2, he2, hs2, hd2, hsh2⟩⟩ := hcon
      rw [hA] at he1 he2
      rcases List.mem_append.mp he1 with ho1 | hn1
      · rcases List.mem_append.mp he2 with ho2 | hn2
        · exact h3 s dd ⟨⟨e1, ho1, hs1, hd1, hsh1⟩, ⟨e2, ho2, hs2, hd2, hsh2⟩⟩
        · -- old day entry at dd, new night entry at dd + 1 = d0
          have hd2' : e2.date = d0 := (hfacts e2 hn2).1
          have hddval : dd = d0 - 1 := by omega
          have hload := h2 s ⟨e1, ho1, hs1, by omega, hsh1⟩
          have hskip : Enhanced.nightSkip ctx d0 (st.loads s) = true := by
            simp only [Enhanced.nightSkip, hload.1, hload.2, hday, getPreviousDay]
            simp [truthyOpt, hd0]
          have := hguard s nId hnight heve
            (fun dId' hdId' => by
              rw [hday] at hdId'
              have : dId = dId' := by injection hdId'
              omega)
            hskip e2 hn2
          exact this ⟨hs2, hsh2⟩
      · rcases List.mem_append.mp he2 with ho2 | hn2
        · -- new day entry at dd = d0, old night entry at dd + 1 < d0
          have hd1' : e1.date = d0 := (hfacts e1 hn1).1
          have := h1 e2 ho2
          omega
        · -- both new: dates both equal d0
          have hd1' : e1.date = d0 := (hfacts e1 hn1).1
          have hd2' : e2.date = d0 := (hfacts e2 hn2).1
          omega
    have ihr := ihn (d0 + 1) (Enhanced.processDate ctx st d0) h1' h2' h3'
    have harith1 : d0 + 1 + (n : Int) = d0 + ((n : Nat) + 1 : Nat) := by push_cast; omega
    refine ⟨?_, ?_, ihr.2.2⟩
    · intro e he
      have := ihr.1 e he
      omega
    · intro s hs
      have := ihr.2.1 s (by
        obtain ⟨e, he, h⟩ := hs
        exact ⟨e, he, h.1, by omega, h.2.2⟩)
      refine ⟨this.1, ?_⟩
      rw [this.2]
      congr 1
      omega

/-- Invariant-propagation over a consecutive date range for per-(staff, date)
entry counting: a pair occurs at most twice, and twice only as the pre-duty
plus post-duty pair of that date. -/
theorem Enhanced.foldl_count (ctx : RunCtx)
    (hnd : (ctx.staff.map (fun s => s.id)).Nodup) :
    ∀ (n : Nat) (d0 : Int) (st : GenState),
      (∀ e ∈ st.schedules, e.date < d0) →
      (∀ s dd,
        ((st.schedules.filter (fun e => e.staffId == s && e.date == dd)).length ≤ 2
        ∧ ((st.schedules.filter (fun e => e.staffId == s && e.date == dd)).length = 2 →
            st.schedules.filter (fun e => e.staffId == s && e.date == dd) =
              [{ staffId := s, date := dd, shiftTypeId := ctx.dayShiftId,
                 dutyTypeId := ctx.preDutyId, unit := ctx.unit },
               { staffId := s, date := dd, shiftTypeId := ctx.dayShiftId,
                 dutyTypeId := ctx.postDutyId, unit := ctx.unit }]))) →
      (∀ e ∈ ((dateRangeAux d0 n).foldl (Enhanced.processDate ctx) st).schedules,
          e.date < d0 + n)
      ∧ (∀ s dd,
        ((((dateRangeAux d0 n).foldl (Enhanced.processDate ctx) st).schedules.filter
            (fun e => e.staffId == s && e.date == dd)).length ≤ 2
        ∧ ((((dateRangeAux d0 n).foldl (Enhanced.processDate ctx) st).schedules.filter
              (fun e => e.staffId == s && e.date == dd)).length = 2 →
            ((dateRangeAux d0 n).foldl (Enhanced.processDate ctx) st).schedules.filter
                (fun e => e.staffId == s && e.date == dd) =
              [{ staffId := s, date := dd, shiftTypeId := ctx.dayShiftId,
                 dutyTypeId := ctx.preDutyId, unit := ctx.unit },
               { staffId := s, date := dd, shiftTypeId := ctx.dayShiftId,
                 dutyTypeId := ctx.postDutyId, unit := ctx.unit }]))) := by
  intro n
  induction n with
  | zero =>
    intro d0 st h1 h2
    simp only [dateRangeAux, List.foldl_nil]
    refine ⟨?_, h2⟩
    intro e he
    have := h1 e he
    omega
  | succ n ihn =>
    intro d0 st h1 h2
    simp only [dateRangeAux, List.foldl_cons]
    obtain ⟨A, hA, hfacts, _, _, _, hcount⟩ := Enhanced.processDate_spec ctx st d0
    have h1' : ∀ e ∈ (Enhanced.processDate ctx st d0).schedules, e.date < d0 + 1 := by
      intro e he
      rw [hA] at he
      rcases List.mem_append.mp he with h | h
      · have := h1 e h; omega
      · have := (hfacts e h).1; omega
    have h2' : ∀ s dd,
        (((Enhanced.processDate ctx st d0).schedules.filter
            (fun e => e.staffId == s && e.date == dd)).length ≤ 2
        ∧ (((Enhanced.processDate ctx st d0).schedules.filter
              (fun e => e.staffId == s && e.date == dd)).length = 2 →
            (Enhanced.processDate ctx st d0).schedules.filter
                (fun e => e.staffId == s && e.date == dd) =
              [{ staffId := s, date := dd, shiftTypeId := ctx.dayShiftId,
                 dutyTypeId := ctx.preDutyId, unit := ctx.unit },
               { staffId := s, date := dd, shiftTypeId := ctx.dayShiftId,
                 dutyTypeId := ctx.postDutyId, unit := ctx.unit }])) := by
      intro s dd
      rw [hA, List.filter_append]
      by_cases hdd : dd = d0
      · subst hdd
        have hold : st.schedules.filter (fun e => e.staffId == s && e.date == dd) = [] := by
          rw [List.filter_eq_nil_iff]
          intro e he
          have := h1 e he
          simp only [Bool.and_eq_true, beq_iff_eq, not_and]
          intro _
          omega
        have hAfe : A.filter (fun e => e.staffId == s && e.date == dd)
            = A.filter (fun e => e.staffId == s) := by
          apply List.filter_congr
          intro e he
          have := (hfacts e he).1
          simp [this]
        rw [hold, hAfe, List.nil_append]
        exact hcount hnd s
      · have hAnil : A.filter (fun e => e.staffId == s && e.date == dd) = [] := by
          rw [List.filter_eq_nil_iff]
          intro e he
          have := (hfacts e he).1
          simp only [Bool.and_eq_true, beq_iff_eq, not_and]
          intro _
          omega
        rw [hAnil, List.append_nil]
        exact h2 s dd
    have ihr := ihn (d0 + 1) (Enhanced.processDate ctx st d0) h1' h2'
    refine ⟨?_, ihr.2⟩
    intro e he
    have := ihr.1 e he
    omega

/-! ## Claim C1 -/

/-- **C1**: for every generation run of the enhanced generator, if an
availability record marks staff `a.staffId` unavailable on `a.date`, then the
returned schedules contain no entry for that staff and date — every phase
(day, evening, night, pre-duty, post-duty) draws only from the filtered
available pool. -/
theorem C1_exclusion_invariant (input : ScheduleInput) :
    ∀ e ∈ (Enhanced.generateSchedule input).schedules,
      ∀ a ∈ input.availabilities, a.isAvailable = false →
        ¬(e.staffId = a.staffId ∧ e.date = a.date) := by
  intro e he a ha hfa
  refine Enhanced.foldl_avail_clean (Enhanced.mkRunCtx input) (Enhanced.mkRunCtx input).dates
    (initState (Enhanced.mkRunCtx input)) ?_ e he a ha hfa
  rw [initState_schedules]
  intro e' he'
  simp at he'

/-- Witness for C1 at a concrete run: staff 2 is unavailable on date 0 of
`exInput2`, the generated entry is for staff 1, and C1 excludes the pair. -/
theorem C1_exclusion_invariant_witness :
    ¬(({ staffId := 1, date := 0, shiftTypeId := some 1, dutyTypeId := 2,
         unit := "" } : InsertSchedule).staffId
        = ({ staffId := 2, date := 0, isAvailable := false } : Availability).staffId
      ∧ ({ staffId := 1, date := 0, shiftTypeId := some 1, dutyTypeId := 2,
           unit := "" } : InsertSchedule).date
        = ({ staffId := 2, date := 0, isAvailable := false } : Availability).date) :=
  C1_exclusion_invariant exInput2
    { staffId := 1, date := 0, shiftTypeId := some 1, dutyTypeId := 2, unit := "" }
    (by decide)
    { staffId := 2, date := 0, isAvailable := false }
    (by decide) rfl

/-! ## Claim C2 -/

/-- **C2**: the enhanced generator never assigns the same staff member the
day shift on one date and the night shift on the following date (given a
catalog that resolves a truthy day-shift id, a night-shift id distinct from
it, and an evening id distinct from the night id): a night candidate whose
previous day's assigned shift was the day shift is skipped unconditionally. -/
theorem C2_no_day_to_night_transition (input : ScheduleInput) (dId nId : Int)
    (hday : Enhanced.dayShiftIdOf input = some dId) (hd0 : dId ≠ 0)
    (hnight : Enhanced.nightShiftIdOf input = some nId)
    (hdn : dId ≠ nId) (heve : Enhanced.eveningShiftIdOf input ≠ some nId)
    (s dd : Int) :
    ¬((∃ e ∈ (Enhanced.generateSchedule input).schedules,
        e.staffId = s ∧ e.date = dd ∧ e.shiftTypeId = some dId)
      ∧ (∃ e ∈ (Enhanced.generateSchedule input).schedules,
        e.staffId = s ∧ e.date = dd + 1 ∧ e.shiftTypeId = some nId)) := by
  have hbase1 : ∀ e ∈ (initState (Enhanced.mkRunCtx input)).schedules,
      e.date < input.startDate := by
    rw [initState_schedules]; intro e he; simp at he
  have hbase2 : ∀ s', (∃ e ∈ (initState (Enhanced.mkRunCtx input)).schedules,
      e.staffId = s' ∧ e.date = input.startDate - 1 ∧ e.shiftTypeId = some dId) →
      ((initState (Enhanced.mkRunCtx input)).loads s').lastShiftType = some dId
      ∧ ((initState (Enhanced.mkRunCtx input)).loads s').lastShiftDate
          = some (input.startDate - 1) := by
    intro s' hs'
    obtain ⟨e, he, _⟩ := hs'
    rw [initState_schedules] at he
    simp at he
  have hbase3 : ∀ s' dd', ¬((∃ e ∈ (initState (Enhanced.mkRunCtx input)).schedules,
        e.staffId = s' ∧ e.date = dd' ∧ e.shiftTypeId = some dId)
      ∧ (∃ e ∈ (initState (Enhanced.mkRunCtx input)).schedules,
        e.staffId = s' ∧ e.date = dd' + 1 ∧ e.shiftTypeId = some nId)) := by
    intro s' dd' hcon
    obtain ⟨⟨e, he, _⟩, _⟩ := hcon
    rw [initState_schedules] at he
    simp at he
  by_cases hse : input.startDate ≤ input.endDate
  · have key := Enhanced.foldl_no_day_night (Enhanced.mkRunCtx input) dId nId hday hd0
      hnight hdn heve ((input.endDate - input.startDate).toNat + 1) input.startDate
      (initState (Enhanced.mkRunCtx input)) hbase1 hbase2 hbase3
    have heq : Enhanced.generateSchedule input
        = (dateRangeAux input.startDate ((input.endDate - input.startDate).toNat + 1)).foldl
            (Enhanced.processDate (Enhanced.mkRunCtx input))
            (initState (Enhanced.mkRunCtx input)) := by
      show (Enhanced.mkRunCtx input).dates.foldl _ _ = _
      have : (Enhanced.mkRunCtx input).dates
          = dateRangeAux input.startDate ((input.endDate - input.startDate).toNat + 1) := by
        simp [Enhanced.mkRunCtx, dateRange, hse]
      rw [this]
    rw [heq]
    exact key.2.2 s dd
  · have heq : Enhanced.generateSchedule input = initState (Enhanced.mkRunCtx input) := by
      show (Enhanced.mkRunCtx input).dates.foldl _ _ = _
      have : (Enhanced.mkRunCtx input).dates = [] := by
        simp [Enhanced.mkRunCtx, dateRange, hse]
      rw [this]
      rfl
    rw [heq]
    intro hcon
    obtain ⟨⟨e, he, _⟩, _⟩ := hcon
    rw [initState_schedules] at he
    simp at he

/-- Witness for C2 at the concrete six-staff three-date run. -/
theorem C2_no_day_to_night_transition_witness :
    ¬((∃ e ∈ (Enhanced.generateSchedule exInput6).schedules,
        e.staffId = 6 ∧ e.date = 0 ∧ e.shiftTypeId = some 1)
      ∧ (∃ e ∈ (Enhanced.generateSchedule exInput6).schedules,
        e.staffId = 6 ∧ e.date = 0 + 1 ∧ e.shiftTypeId = some 3)) :=
  C2_no_day_to_night_transition exInput6 1 3 (by decide) (by decide) (by decide)
    (by decide) (by decide) 6 0

/-! ## Claim C3 -/

/-- Counterexample to C3 as frozen: in the six-staff three-date run, staff 6
receives two generated entries for date 1 (its pre-duty and post-duty
entries), so the output does contain two entries with the same
(staffId, date) pair. -/
theorem C3_counterexample :
    ((Enhanced.generateSchedule exInput6).schedules.filter
      (fun e => e.staffId == 6 && e.date == 1)).length = 2 := by
  decide

/-- **C3 (amended)**: with a duplicate-free roster, each (staffId, date) pair
receives at most two generated entries, and exactly two only when the pair
consists of that date's pre-duty entry followed by its post-duty entry (the
enhanced pre/post duty phases do not mark their assignees as consumed, so
uniqueness is not strictly enforced across those two phases). -/
theorem C3_at_most_two_entries (input : ScheduleInput)
    (hnd : (input.staff.map (fun s => s.id)).Nodup) (s dd : Int) :
    (((Enhanced.generateSchedule input).schedules.filter
        (fun e => e.staffId == s && e.date == dd)).length ≤ 2)
    ∧ ((((Enhanced.generateSchedule input).schedules.filter
          (fun e => e.staffId == s && e.date == dd)).length = 2) →
        (Enhanced.generateSchedule input).schedules.filter
            (fun e => e.staffId == s && e.date == dd) =
          [{ staffId := s, date := dd, shiftTypeId := Enhanced.dayShiftIdOf input,
             dutyTypeId := Enhanced.preDutyIdOf input, unit := input.unit },
           { staffId := s, date := dd, shiftTypeId := Enhanced.dayShiftIdOf input,
             dutyTypeId := Enhanced.postDutyIdOf input, unit := input.unit }]) := by
  have hbase1 : ∀ e ∈ (initState (Enhanced.mkRunCtx input)).schedules,
      e.date < input.startDate := by
    rw [initState_schedules]; intro e he; simp at he
  have hbase2 : ∀ s' dd',
      (((initState (Enhanced.mkRunCtx input)).schedules.filter
          (fun e => e.staffId == s' && e.date == dd')).length ≤ 2
      ∧ (((initState (Enhanced.mkRunCtx input)).schedules.filter
            (fun e => e.staffId == s' && e.date == dd')).length = 2 →
          (initState (Enhanced.mkRunCtx input)).schedules.filter
              (fun e => e.staffId == s' && e.date == dd') =
            [{ staffId := s', date := dd',
               shiftTypeId := (Enhanced.mkRunCtx input).dayShiftId,
               dutyTypeId := (Enhanced.mkRunCtx input).preDutyId,
               unit := (Enhanced.mkRunCtx input).unit },
             { staffId := s', date := dd',
               shiftTypeId := (Enhanced.mkRunCtx input).dayShiftId,
               dutyTypeId := (Enhanced.mkRunCtx input).postDutyId,
               unit := (Enhanced.mkRunCtx input).unit }])) := by
    intro s' dd'
    rw [initState_schedules]
    simp
  by_cases hse : input.startDate ≤ input.endDate
  · have key := Enhanced.foldl_count (Enhanced.mkRunCtx input) hnd
      ((input.endDate - input.startDate).toNat + 1) input.startDate
      (initState (Enhanced.mkRunCtx input)) hbase1 hbase2
    have heq : Enhanced.generateSchedule input
        = (dateRangeAux input.startDate ((input.endDate - input.startDate).toNat + 1)).foldl
            (Enhanced.processDate (Enhanced.mkRunCtx input))
            (initState (Enhanced.mkRunCtx input)) := by
      show (Enhanced.mkRunCtx input).dates.foldl _ _ = _
      have : (Enhanced.mkRunCtx input).dates
          = dateRangeAux input.startDate ((input.endDate - input.startDate).toNat + 1) := by
        simp [Enhanced.mkRunCtx, dateRange, hse]
      rw [this]
    rw [heq]
    exact key.2 s dd
  · have heq : Enhanced.generateSchedule input = initState (Enhanced.mkRunCtx input) := by
      show (Enhanced.mkRunCtx input).dates.foldl _ _ = _
      have : (Enhanced.mkRunCtx input).dates = [] := by
        simp [Enhanced.mkRunCtx, dateRange, hse]
      rw [this]
      rfl
    rw [heq, initState_schedules]
    simp

/-- Witness for the amended C3 at the concrete six-staff run and the
duplicated pair (staff 6, date 1). -/
theorem C3_at_most_two_entries_witness :
    (((Enhanced.generateSchedule exInput6).schedules.filter
        (fun e => e.staffId == 6 && e.date == 1)).length ≤ 2)
    ∧ ((((Enhanced.generateSchedule exInput6).schedules.filter
          (fun e => e.staffId == 6 && e.date == 1)).length = 2) →
        (Enhanced.generateSchedule exInput6).schedules.filter
            (fun e => e.staffId == 6 && e.date == 1) =
          [{ staffId := 6, date := 1, shiftTypeId := Enhanced.dayShiftIdOf exInput6,
             dutyTypeId := Enhanced.preDutyIdOf exInput6, unit := exInput6.unit },
           { staffId := 6, date := 1, shiftTypeId := Enhanced.dayShiftIdOf exInput6,
             dutyTypeId := Enhanced.postDutyIdOf exInput6, unit := exInput6.unit }]) :=
  C3_at_most_two_entries exInput6 (by decide) 6 1


/-! ## Claim C4 -/

/-- Under no previously recorded conflict for this candidate and date, the
day step assigns exactly when there is no existing same-day assignment
(warnings alone never block). -/
theorem Enhanced.dayStep_assigned_iff (ctx : RunCtx) (d : Int) (m : Staff) (st : GenState)
    (h0 : st.conflicts.find? (fun c => c.staffId == m.id && c.date == d) = none) :
    (Enhanced.dayStep ctx d m st).2
      = !(ctx.existingSchedules.any (fun s => s.staffId == m.id && s.date == d)) := by
  by_cases herr : ctx.existingSchedules.any (fun s => s.staffId == m.id && s.date == d) = true <;>
    by_cases hc2 : MAX_CONSECUTIVE_SHIFTS ≤ (st.loads m.id).consecutiveShifts <;>
      by_cases hc3 : MAX_SHIFTS_PER_WEEK ≤ st.weekly (getWeekKey d) m.id <;>
        simp only [Enhanced.dayStep, herr, hc2, hc3, if_true, if_false, if_pos, if_neg,
          not_false_iff, Bool.not_true, Bool.not_false] <;>
        simp [List.append_assoc, List.find?_append, h0, List.find?_cons, herr]

/-- The conflicts the day step records, in push order. -/
theorem Enhanced.dayStep_conflicts (ctx : RunCtx) (d : Int) (m : Staff) (st : GenState) :
    (Enhanced.dayStep ctx d m st).1.conflicts
      = st.conflicts
        ++ (if ctx.existingSchedules.any (fun s => s.staffId == m.id && s.date == d) then
              [{ ctype := ConflictType.existing_assignment, staffId := m.id, date := d,
                 message := "Staff already has an assignment on " ++ toString d,
                 severity := Severity.error, staffName := some (staffName m) }]
            else [])
        ++ (if MAX_CONSECUTIVE_SHIFTS ≤ (st.loads m.id).consecutiveShifts then
              [{ ctype := ConflictType.consecutive_shifts, staffId := m.id, date := d,
                 message := "Exceeds maximum consecutive shifts (5)",
                 severity := Severity.warning, staffName := some (staffName m) }]
            else [])
        ++ (if MAX_SHIFTS_PER_WEEK ≤ st.weekly (getWeekKey d) m.id then
              [{ ctype := ConflictType.exceeds_weekly_hours, staffId := m.id, date := d,
                 message := "Exceeds maximum weekly shifts (5)",
                 severity := Severity.warning, staffName := some (staffName m) }]
            else []) := by
  simp only [Enhanced.dayStep]
  repeat' split
  all_goals rfl

/-- **C4**: during day-shift assignment (with no earlier conflict recorded for
this candidate and date), a candidate with an existing same-day assignment in
`existingSchedules` gets an error-severity `existing_assignment` conflict
record, is not assigned, and does not count toward the day-shift target (the
loop advances with the same counter); a candidate whose checks raise only
warning-severity conflicts (streak ≥ 5 or weekly count ≥ 5) is still
assigned, and every conflict the step adds is a warning. -/
theorem C4_day_shift_conflict_gating (ctx : RunCtx) (d : Int) (m : Staff) (st : GenState)
    (h0 : st.conflicts.find? (fun c => c.staffId == m.id && c.date == d) = none) :
    (ctx.existingSchedules.any (fun s => s.staffId == m.id && s.date == d) = true →
      (Enhanced.dayStep ctx d m st).2 = false
      ∧ (Enhanced.dayStep ctx d m st).1.schedules = st.schedules
      ∧ ({ ctype := ConflictType.existing_assignment, staffId := m.id, date := d,
           message := "Staff already has an assignment on " ++ toString d,
           severity := Severity.error, staffName := some (staffName m) } : ScheduleConflict)
          ∈ (Enhanced.dayStep ctx d m st).1.conflicts
      ∧ ∀ (target : Nat) (rest : List Staff) (assigned : Nat) (flag : Int → Bool),
          assigned < target →
          Enhanced.dayLoop ctx d target (m :: rest) assigned st flag
            = Enhanced.dayLoop ctx d target rest assigned (Enhanced.dayStep ctx d m st).1 flag)
    ∧ (ctx.existingSchedules.any (fun s => s.staffId == m.id && s.date == d) = false →
       (MAX_CONSECUTIVE_SHIFTS ≤ (st.loads m.id).consecutiveShifts
         ∨ MAX_SHIFTS_PER_WEEK ≤ st.weekly (getWeekKey d) m.id) →
       (Enhanced.dayStep ctx d m st).2 = true
       ∧ (Enhanced.dayStep ctx d m st).1.schedules = st.schedules ++ [dayEntry ctx d m]
       ∧ (∀ c ∈ (Enhanced.dayStep ctx d m st).1.conflicts,
            c ∉ st.conflicts → c.severity = Severity.warning)) := by
  constructor
  · intro herr
    have h2f : (Enhanced.dayStep ctx d m st).2 = false := by
      rw [Enhanced.dayStep_assigned_iff ctx d m st h0, herr]
      rfl
    have hsch : (Enhanced.dayStep ctx d m st).1.schedules = st.schedules := by
      have := Enhanced.dayStep_sched ctx d m st
      rw [h2f] at this
      simpa using this
    refine ⟨h2f, hsch, ?_, ?_⟩
    · rw [Enhanced.dayStep_conflicts, herr]
      simp
    · intro target rest assigned flag hat
      exact assignLoop_cons_not_assigned (Enhanced.dayStep ctx d) target m rest
        assigned st flag hat h2f
  · intro herr hwarn
    have h2t : (Enhanced.dayStep ctx d m st).2 = true := by
      rw [Enhanced.dayStep_assigned_iff ctx d m st h0, herr]
      rfl
    have hsch : (Enhanced.dayStep ctx d m st).1.schedules = st.schedules ++ [dayEntry ctx d m] := by
      have := Enhanced.dayStep_sched ctx d m st
      rw [h2t] at this
      simpa using this
    refine ⟨h2t, hsch, ?_⟩
    intro c hc hnc
    rw [Enhanced.dayStep_conflicts, herr] at hc
    simp only [if_false, Bool.false_eq_true, List.append_nil] at hc
    rcases List.mem_append.mp hc with h | h
    · rcases List.mem_append.mp h with h | h
      · exact absurd h hnc
      · revert h
        split
        · intro h
          simp only [List.mem_singleton] at h
          rw [h]
        · intro h
          simp at h
    · revert h
      split
      · intro h
        simp only [List.mem_singleton] at h
        rw [h]
      · intro h
        simp at h

/-- Witness for C4: in `exCtx4`, staff 1 already has an entry on date 0, so
the day step refuses the candidate, records the error, and pushes no entry. -/
theorem C4_day_shift_conflict_gating_witness :
    (Enhanced.dayStep exCtx4 0
        { id := 1, firstName := "A", lastName := "L", specialization := none } exState0).2 = false
    ∧ (Enhanced.dayStep exCtx4 0
        { id := 1, firstName := "A", lastName := "L", specialization := none } exState0).1.schedules
        = exState0.schedules
    ∧ ({ ctype := ConflictType.existing_assignment, staffId := 1, date := 0,
         message := "Staff already has an assignment on " ++ toString (0 : Int),
         severity := Severity.error,
         staffName := some (staffName
           { id := 1, firstName := "A", lastName := "L", specialization := none }) } :
         ScheduleConflict)
        ∈ (Enhanced.dayStep exCtx4 0
            { id := 1, firstName := "A", lastName := "L", specialization := none }
            exState0).1.conflicts := by
  have h := (C4_day_shift_conflict_gating exCtx4 0
    { id := 1, firstName := "A", lastName := "L", specialization := none } exState0
    (by decide)).1 (by decide)
  exact ⟨h.1, h.2.1, h.2.2.1⟩

/-! ## Claim C5 -/

/-- **C5**: per date, the day phase fills at most `max 1 ⌈pool/3⌉` slots
(`(n+2)/3` is `⌈n/3⌉` in ℕ), the evening phase at most
`max 1 ⌈remainingAfterDay/2⌉` and the night phase at most
`max 1 ⌈remainingAfterEvening/3⌉`, where each remaining pool is exactly the
staff left unconsumed by the previous category, and the per-date processing is
exactly this pipeline (each loop stops at its target). -/
theorem C5_category_targets (ctx : RunCtx) (st : GenState) (d : Int) :
    (Enhanced.stage1 ctx st d).1.schedules.length
      ≤ st.schedules.length + max 1 (((availablePool ctx st d).length + 2) / 3)
    ∧ (Enhanced.stage2 ctx st d).1.schedules.length
      ≤ (Enhanced.stage1 ctx st d).1.schedules.length
        + max 1 (((Enhanced.remAfterDay ctx st d).length + 1) / 2)
    ∧ (Enhanced.stage3 ctx st d).1.schedules.length
      ≤ (Enhanced.stage2 ctx st d).1.schedules.length
        + max 1 (((Enhanced.remAfterEvening ctx st d).length + 2) / 3)
    ∧ Enhanced.remAfterDay ctx st d
      = (availablePool ctx st d).filter (fun s => !(Enhanced.stage1 ctx st d).2 s.id)
    ∧ Enhanced.remAfterEvening ctx st d
      = (availablePool ctx st d).filter (fun s => !(Enhanced.stage2 ctx st d).2 s.id)
    ∧ Enhanced.processDate ctx st d
      = Enhanced.postDutyPhase ctx d (availablePool ctx st d) (Enhanced.stage4 ctx st d)
          (Enhanced.stage3 ctx st d).2 := by
  obtain ⟨A1, s1, _, _, len1, _⟩ := Enhanced.stage1_spec ctx st d
  obtain ⟨A2, s2, _, _, len2, _⟩ := Enhanced.stage2_spec ctx st d
  obtain ⟨A3, s3, _, _, len3, _⟩ := Enhanced.stage3_spec ctx st d
  refine ⟨?_, ?_, ?_, rfl, rfl, rfl⟩
  · rw [s1, List.length_append]
    omega
  · rw [s2, List.length_append]
    omega
  · rw [s3, List.length_append]
    omega

/-! ## Claim C8 -/

/-- **C8**: when all prior ranking keys of the fairness comparator tie (same
load record, same duty pattern, same weekly count, both available), the staff
member with the lower id compares first in both argument orders, and sorting
a two-element pool places the lower id first — the ranking is deterministic. -/
theorem C8_fairness_id_tiebreak (loads : Int → StaffLoad) (patterns : Int → DutyPattern)
    (weeklyAt : Int → Nat) (unavailIds : List Int) (unit : String) (a b : Staff)
    (hl : loads a.id = loads b.id) (hp : patterns a.id = patterns b.id)
    (hw : weeklyAt a.id = weeklyAt b.id)
    (hua : unavailIds.contains a.id = false) (hub : unavailIds.contains b.id = false)
    (hid : a.id < b.id) :
    staffComparator loads patterns weeklyAt unavailIds unit a b < 0
    ∧ 0 < staffComparator loads patterns weeklyAt unavailIds unit b a
    ∧ sortByCmp (staffComparator loads patterns weeklyAt unavailIds unit) [b, a] = [a, b] := by
  have hua' : a.id ∉ unavailIds := by simpa using hua
  have hub' : b.id ∉ unavailIds := by simpa using hub
  have hab : staffComparator loads patterns weeklyAt unavailIds unit a b = a.id - b.id := by
    simp [staffComparator, hl, hp, hw, hua', hub']
  have hba : staffComparator loads patterns weeklyAt unavailIds unit b a = b.id - a.id := by
    simp [staffComparator, hl, hp, hw, hua', hub']
  have hcond : staffComparator loads patterns weeklyAt unavailIds unit a b < 0 := by
    rw [hab]; omega
  refine ⟨hcond, by rw [hba]; omega, ?_⟩
  simp only [sortByCmp, insertCmp]
  rw [if_pos hcond]

/-- Witness for C8 at a concrete tied pair (ids 1 and 2, default state). -/
theorem C8_fairness_id_tiebreak_witness :
    staffComparator (fun _ => defaultLoad) (fun _ => zeroPattern) (fun _ => 0) [] ""
      {id := 1, firstName := "A", lastName := "L", specialization := none}
      {id := 2, firstName := "B", lastName := "M", specialization := none} < 0
    ∧ 0 < staffComparator (fun _ => defaultLoad) (fun _ => zeroPattern) (fun _ => 0) [] ""
      {id := 2, firstName := "B", lastName := "M", specialization := none}
      {id := 1, firstName := "A", lastName := "L", specialization := none}
    ∧ sortByCmp (staffComparator (fun _ => defaultLoad) (fun _ => zeroPattern) (fun _ => 0) [] "")
      [{id := 2, firstName := "B", lastName := "M", specialization := none},
       {id := 1, firstName := "A", lastName := "L", specialization := none}]
      = [{id := 1, firstName := "A", lastName := "L", specialization := none},
         {id := 2, firstName := "B", lastName := "M", specialization := none}] :=
  C8_fairness_id_tiebreak (fun _ => defaultLoad) (fun _ => zeroPattern) (fun _ => 0) [] ""
    {id := 1, firstName := "A", lastName := "L", specialization := none}
    {id := 2, firstName := "B", lastName := "M", specialization := none}
    rfl rfl rfl (by decide) (by decide) (by decide)

/-! ## Claim C9 -/

/-- **C9**: the conflict detector is a pure function of its five inputs — it
is modelled by a total Lean function, so two calls on the same arguments
return element-for-element identical conflict lists, and no call can alter the
candidate entry, the schedule list, the roster, the availability records or
the shift-type catalog (the source only reads its arguments and appends to a
local array). -/
theorem C9_detect_deterministic (schedule : InsertSchedule)
    (allSchedules : List InsertSchedule) (staff : List Staff)
    (availabilities : List Availability) (shiftTypes : List ShiftType) :
    List.Forall₂ (fun c c' : ScheduleConflict => c = c')
      (FormatDate.detectScheduleConflicts schedule allSchedules staff availabilities shiftTypes)
      (FormatDate.detectScheduleConflicts schedule allSchedules staff availabilities shiftTypes) :=
  List.forall₂_same.mpr (fun _ _ => rfl)

/-! ## Claim C10 -/

/-- **C10**: the alternative-staff suggester never returns a staff member who
has an `isAvailable=false` availability record for the requested date: the
candidate filter rejects anyone whose id is in `unavailableStaffIds`. -/
theorem C10_suggest_excludes_unavailable (staffId date : Int) (shiftTypeId : Option Int)
    (staff : List Staff) (schedules : List InsertSchedule)
    (availabilities : List Availability) (unit : Option String)
    (av : Availability) (hav : av ∈ availabilities) (hd : av.date = date)
    (hna : av.isAvailable = false) (m : Staff)
    (hm : m ∈ FormatDate.suggestAlternativeStaff staffId date shiftTypeId staff
            schedules availabilities unit) :
    m.id ≠ av.staffId := by
  intro heq
  simp only [FormatDate.suggestAlternativeStaff] at hm
  rw [sortByCmp_mem] at hm
  have hmf := (List.mem_filter.mp hm).2
  have hcontains : (unavailableStaffIds availabilities date).contains m.id = true := by
    have hmem : av.staffId ∈ unavailableStaffIds availabilities date := by
      simp only [unavailableStaffIds]
      exact List.mem_map.mpr ⟨av, List.mem_filter.mpr ⟨hav, by simp [hd, hna]⟩, rfl⟩
    rw [heq]
    simpa using hmem
  simp [FormatDate.suggestFilter] at hmf
  exact hmf.1 (by simpa using hcontains)

/-- Witness for C10: replacing staff 1 on date 0 with staff 2 marked
unavailable that day, the suggester (which returns exactly staff 3) never
proposes staff 2. -/
theorem C10_suggest_excludes_unavailable_witness :
    ({ id := 3, firstName := "C", lastName := "L", specialization := none } : Staff).id
      ≠ ({ staffId := 2, date := 0, isAvailable := false } : Availability).staffId :=
  C10_suggest_excludes_unavailable 1 0 none (exStaff6.take 3) []
    [{ staffId := 2, date := 0, isAvailable := false }] none
    { staffId := 2, date := 0, isAvailable := false } (by decide) rfl rfl
    { id := 3, firstName := "C", lastName := "L", specialization := none } (by decide)

/-! ## Claim C7 -/

/-- **C7 counterexample**: an availability record marking the candidate's
(staffId, date) unavailable does not suffice for an `unavailable_staff`
conflict — with a roster that does not contain the candidate's staff member,
the detector returns no conflicts at all (its early `return []` when the
staff lookup fails precedes every check). -/
theorem C7_counterexample :
    ({ staffId := 1, date := 0, isAvailable := false } : Availability).staffId
        = exCandidate.staffId
    ∧ ({ staffId := 1, date := 0, isAvailable := false } : Availability).date
        = exCandidate.date
    ∧ ({ staffId := 1, date := 0, isAvailable := false } : Availability).isAvailable = false
    ∧ FormatDate.detectScheduleConflicts exCandidate [] []
        [{ staffId := 1, date := 0, isAvailable := false }] exShiftTypes = [] :=
  ⟨rfl, rfl, rfl, rfl⟩

/-- **C7 (amended)**: if the roster contains the candidate's staff member and
the availability records mark (candidate.staffId, candidate.date) unavailable,
the detector's conflict list contains an error-severity `unavailable_staff`
conflict for that staff and date. -/
theorem C7_detect_unavailable (schedule : InsertSchedule)
    (allSchedules : List InsertSchedule) (staff : List Staff)
    (availabilities : List Availability) (shiftTypes : List ShiftType)
    (sm : Staff) (hsm : sm ∈ staff) (hid : sm.id = schedule.staffId)
    (av : Availability) (hav : av ∈ availabilities)
    (hs : av.staffId = schedule.staffId) (hd : av.date = schedule.date)
    (hna : av.isAvailable = false) :
    ∃ c ∈ FormatDate.detectScheduleConflicts schedule allSchedules staff
        availabilities shiftTypes,
      c.ctype = ConflictType.unavailable_staff ∧ c.severity = Severity.error
      ∧ c.staffId = schedule.staffId ∧ c.date = schedule.date := by
  have hfind : (staff.find? (fun s => s.id == schedule.staffId)).isSome := by
    rw [List.find?_isSome]
    exact ⟨sm, hsm, by simp [hid]⟩
  obtain ⟨sm', hsm'⟩ := Option.isSome_iff_exists.mp hfind
  have hany : availabilities.any
      (fun a => a.staffId == schedule.staffId && a.date == schedule.date
        && !a.isAvailable) = true :=
    List.any_eq_true.mpr ⟨av, hav, by simp [hs, hd, hna]⟩
  simp only [FormatDate.detectScheduleConflicts, hsm', hany, if_true]
  refine ⟨{ ctype := ConflictType.unavailable_staff, staffId := schedule.staffId,
            date := schedule.date, message := "Staff marked as unavailable on this date",
            severity := Severity.error, staffName := some (staffName sm') }, ?_, rfl, rfl, rfl, rfl⟩
  simp

/-- Witness for the amended C7 at a concrete roster and record. -/
theorem C7_detect_unavailable_witness :
    ∃ c ∈ FormatDate.detectScheduleConflicts exCandidate []
        (exStaff6.take 1) [{ staffId := 1, date := 0, isAvailable := false }] exShiftTypes,
      c.ctype = ConflictType.unavailable_staff ∧ c.severity = Severity.error
      ∧ c.staffId = exCandidate.staffId ∧ c.date = exCandidate.date :=
  C7_detect_unavailable exCandidate [] (exStaff6.take 1)
    [{ staffId := 1, date := 0, isAvailable := false }] exShiftTypes
    { id := 1, firstName := "A", lastName := "L", specialization := none } (by decide) rfl
    { staffId := 1, date := 0, isAvailable := false } (by decide) rfl rfl rfl

/-! ## Pre and post duty fold facts (format-date variant) -/

/-- Folding `prePush` over a list appends one entry per member, marks every
member's flag, and touches no other staff member's load. -/
theorem FormatDate.prePush_fold (ctx : RunCtx) (d : Int) (L : List Staff)
    (acc : GenState × Flags) :
    ∃ A : List InsertSchedule,
      (L.foldl (FormatDate.prePush ctx d) acc).1.schedules = acc.1.schedules ++ A
      ∧ (∀ e ∈ A, ∃ s ∈ L, e.staffId = s.id)
      ∧ (∀ j, (L.foldl (FormatDate.prePush ctx d) acc).2 j
          = (acc.2 j || L.any (fun s => s.id == j)))
      ∧ (∀ j, (∀ s ∈ L, s.id ≠ j) →
          (L.foldl (FormatDate.prePush ctx d) acc).1.loads j = acc.1.loads j) := by
  induction L generalizing acc with
  | nil => exact ⟨[], by simp, by simp, by simp, fun j _ => rfl⟩
  | cons s rest ih =>
    obtain ⟨A, hA, hmem, hflag, hloads⟩ := ih (FormatDate.prePush ctx d acc s)
    refine ⟨{ staffId := s.id, date := d, shiftTypeId := none,
              dutyTypeId := ctx.preDutyId, unit := ctx.unit } :: A, ?_, ?_, ?_, ?_⟩
    · simp only [List.foldl_cons] at *
      rw [hA]
      simp [FormatDate.prePush]
    · intro e he
      rcases List.mem_cons.mp he with h | h
      · exact ⟨s, List.mem_cons_self _ _, by rw [h]⟩
      · obtain ⟨t, ht, hts⟩ := hmem e h
        exact ⟨t, List.mem_cons_of_mem _ ht, hts⟩
    · intro j
      simp only [List.foldl_cons, List.any_cons] at *
      rw [hflag j]
      by_cases hj : s.id = j
      · simp [FormatDate.prePush, updateFn, hj]
      · have hbeq : (s.id == j) = false := by simpa using hj
        simp [FormatDate.prePush, updateFn, Ne.symm hj, hbeq]
    · intro j hj
      simp only [List.foldl_cons]
      rw [hloads j (fun t ht => hj t (List.mem_cons_of_mem _ ht))]
      have hsj : s.id ≠ j := hj s (List.mem_cons_self _ _)
      simp [FormatDate.prePush, updateFn, Ne.symm hsj]

/-- Folding `postPush` over a list appends one entry per member, marks every
member's flag, and touches no other staff member's load. -/
theorem FormatDate.postPush_fold (ctx : RunCtx) (d : Int) (L : List Staff)
    (acc : GenState × Flags) :
    ∃ A : List InsertSchedule,
      (L.foldl (FormatDate.postPush ctx d) acc).1.schedules = acc.1.schedules ++ A
      ∧ (∀ e ∈ A, ∃ s ∈ L, e.staffId = s.id)
      ∧ (∀ j, (L.foldl (FormatDate.postPush ctx d) acc).2 j
          = (acc.2 j || L.any (fun s => s.id == j)))
      ∧ (∀ j, (∀ s ∈ L, s.id ≠ j) →
          (L.foldl (FormatDate.postPush ctx d) acc).1.loads j = acc.1.loads j) := by
  induction L generalizing acc with
  | nil => exact ⟨[], by simp, by simp, by simp, fun j _ => rfl⟩
  | cons s rest ih =>
    obtain ⟨A, hA, hmem, hflag, hloads⟩ := ih (FormatDate.postPush ctx d acc s)
    refine ⟨{ staffId := s.id, date := d, shiftTypeId := none,
              dutyTypeId := ctx.postDutyId, unit := ctx.unit } :: A, ?_, ?_, ?_, ?_⟩
    · simp only [List.foldl_cons] at *
      rw [hA]
      simp [FormatDate.postPush]
    · intro e he
      rcases List.mem_cons.mp he with h | h
      · exact ⟨s, List.mem_cons_self _ _, by rw [h]⟩
      · obtain ⟨t, ht, hts⟩ := hmem e h
        exact ⟨t, List.mem_cons_of_mem _ ht, hts⟩
    · intro j
      simp only [List.foldl_cons, List.any_cons] at *
      rw [hflag j]
      by_cases hj : s.id = j
      · simp [FormatDate.postPush, updateFn, hj]
      · have hbeq : (s.id == j) = false := by simpa using hj
        simp [FormatDate.postPush, updateFn, Ne.symm hj, hbeq]
    · intro j hj
      simp only [List.foldl_cons]
      rw [hloads j (fun t ht => hj t (List.mem_cons_of_mem _ ht))]
      have hsj : s.id ≠ j := hj s (List.mem_cons_self _ _)
      simp [FormatDate.postPush, updateFn, Ne.symm hsj]

/-- A staff member whose flag is still false after the pre/post-duty phase was
already unflagged before it, received no entry from it, and kept their load. -/
theorem FormatDate.prePostPhase_spec (ctx : RunCtx) (d : Int) (pool : List Staff)
    (st : GenState) (flag : Flags) :
    ∃ A : List InsertSchedule,
      (FormatDate.prePostPhase ctx d pool st flag).1.schedules = st.schedules ++ A
      ∧ ∀ j, (FormatDate.prePostPhase ctx d pool st flag).2 j = false →
          flag j = false ∧ (∀ e ∈ A, e.staffId ≠ j)
          ∧ (FormatDate.prePostPhase ctx d pool st flag).1.loads j = st.loads j := by
  simp only [FormatDate.prePostPhase]
  set sortedU := sortByCmp
    (fun a b => ((st.patterns a.id).preDuty : Int) - ((st.patterns b.id).preDuty : Int))
    (pool.filter (fun s => !flag s.id)) with hsorted
  obtain ⟨A1, hA1, hmem1, hflag1, hloads1⟩ :=
    FormatDate.prePush_fold ctx d (sortedU.take (sortedU.length / 2)) (st, flag)
  set r1 := (sortedU.take (sortedU.length / 2)).foldl (FormatDate.prePush ctx d) (st, flag)
    with hr1
  obtain ⟨A2, hA2, hmem2, hflag2, hloads2⟩ :=
    FormatDate.postPush_fold ctx d (sortedU.filter (fun s => !r1.2 s.id)) r1
  refine ⟨A1 ++ A2, ?_, ?_⟩
  · rw [hA2, hA1, List.append_assoc]
  · intro j hj
    rw [hflag2 j] at hj
    rcases Bool.or_eq_false_iff.mp hj with ⟨hj1, hj2⟩
    rw [hflag1 j] at hj1
    rcases Bool.or_eq_false_iff.mp hj1 with ⟨hj0, hjany1⟩
    have hne1 : ∀ s ∈ sortedU.take (sortedU.length / 2), s.id ≠ j := by
      intro s hs hsj
      have htr : (sortedU.take (sortedU.length / 2)).any (fun s => s.id == j) = true :=
        List.any_eq_true.mpr ⟨s, hs, by simp [hsj]⟩
      rw [hjany1] at htr
      exact Bool.false_ne_true htr
    have hne2 : ∀ s ∈ sortedU.filter (fun s => !r1.2 s.id), s.id ≠ j := by
      intro s hs hsj
      have htr : (sortedU.filter (fun s => !r1.2 s.id)).any (fun s => s.id == j) = true :=
        List.any_eq_true.mpr ⟨s, hs, by simp [hsj]⟩
      rw [hj2] at htr
      exact Bool.false_ne_true htr
    refine ⟨hj0, ?_, ?_⟩
    · intro e he
      rcases List.mem_append.mp he with h | h
      · obtain ⟨s, hs, hse⟩ := hmem1 e h
        rw [hse]; exact hne1 s hs
      · obtain ⟨s, hs, hse⟩ := hmem2 e h
        rw [hse]; exact hne2 s hs
    · rw [hloads2 j hne2, hloads1 j hne1]

/-! ## The per-date pipeline of the format-date variant -/

/-- A staff member whose `assignedShifts` flag is false at the end of steps
3-7 of a date received no appended entry and kept their load through those
steps. -/
theorem FormatDate.datePhases_spec (ctx : RunCtx) (st : GenState) (d : Int) :
    ∃ A : List InsertSchedule,
      (FormatDate.datePhases ctx st d).1.schedules = st.schedules ++ A
      ∧ ∀ j, (FormatDate.datePhases ctx st d).2 j = false →
          (∀ e ∈ A, e.staffId ≠ j)
          ∧ (FormatDate.datePhases ctx st d).1.loads j = st.loads j := by
  obtain ⟨A1, hA1, _, hmem1, _, hflag1, hloads1, _⟩ := FormatDate.dayLoop_spec_fd ctx d
    (max 1 (((availablePool ctx st d).length + 2) / 3)) (availablePool ctx st d) 0 st
    (fun _ => false)
  obtain ⟨A2, hA2, _, hmem2, _, hflag2, hloads2, _⟩ := FormatDate.eveningLoop_spec_fd ctx d
    (max 1 (((FormatDate.remAfterDay ctx st d).length + 1) / 2))
    (FormatDate.remAfterDay ctx st d) 0 (FormatDate.stage1 ctx st d).1
    (FormatDate.stage1 ctx st d).2
  obtain ⟨A3, hA3, _, hmem3, _, hflag3, hloads3, _⟩ := FormatDate.nightLoop_spec_fd ctx d
    (max 1 (((FormatDate.remAfterEvening ctx st d).length + 2) / 3))
    (sortByCmp (FormatDate.nightComparator (FormatDate.stage2 ctx st d).1.loads)
      (FormatDate.remAfterEvening ctx st d)) 0
    (FormatDate.stage2 ctx st d).1 (FormatDate.stage2 ctx st d).2
  obtain ⟨A4, hA4, hrest⟩ := FormatDate.prePostPhase_spec ctx d (availablePool ctx st d)
    (FormatDate.stage3 ctx st d).1 (FormatDate.stage3 ctx st d).2
  have hs1 : FormatDate.stage1 ctx st d = FormatDate.dayLoop ctx d
      (max 1 (((availablePool ctx st d).length + 2) / 3)) (availablePool ctx st d) 0 st
      (fun _ => false) := rfl
  have hs2 : FormatDate.stage2 ctx st d = FormatDate.eveningLoop ctx d
      (max 1 (((FormatDate.remAfterDay ctx st d).length + 1) / 2))
      (FormatDate.remAfterDay ctx st d) 0 (FormatDate.stage1 ctx st d).1
      (FormatDate.stage1 ctx st d).2 := rfl
  have hs3 : FormatDate.stage3 ctx st d = FormatDate.nightLoop ctx d
      (max 1 (((FormatDate.remAfterEvening ctx st d).length + 2) / 3))
      (sortByCmp (FormatDate.nightComparator (FormatDate.stage2 ctx st d).1.loads)
        (FormatDate.remAfterEvening ctx st d)) 0
      (FormatDate.stage2 ctx st d).1 (FormatDate.stage2 ctx st d).2 := rfl
  have hdp : FormatDate.datePhases ctx st d = FormatDate.prePostPhase ctx d
      (availablePool ctx st d) (FormatDate.stage3 ctx st d).1
      (FormatDate.stage3 ctx st d).2 := rfl
  refine ⟨A1 ++ A2 ++ A3 ++ A4, ?_, ?_⟩
  · rw [hdp, hA4, hs3, hA3, hs2, hA2, hs1, hA1]
    simp [List.append_assoc]
  · intro j hj
    rw [hdp] at hj
    obtain ⟨hflagS3, hA4ne, hloadsPP⟩ := hrest j hj
    rw [hs3, hflag3 j] at hflagS3
    rcases Bool.or_eq_false_iff.mp hflagS3 with ⟨hflagS2, hany3⟩
    rw [hs2, hflag2 j] at hflagS2
    rcases Bool.or_eq_false_iff.mp hflagS2 with ⟨hflagS1, hany2⟩
    rw [hs1, hflag1 j] at hflagS1
    rcases Bool.or_eq_false_iff.mp hflagS1 with ⟨_, hany1⟩
    have hne1 : ∀ e ∈ A1, e.staffId ≠ j := by
      intro e he hej
      have htr : A1.any (fun e => e.staffId == j) = true :=
        List.any_eq_true.mpr ⟨e, he, by simp [hej]⟩
      rw [hany1] at htr
      exact Bool.false_ne_true htr
    have hne2 : ∀ e ∈ A2, e.staffId ≠ j := by
      intro e he hej
      have htr : A2.any (fun e => e.staffId == j) = true :=
        List.any_eq_true.mpr ⟨e, he, by simp [hej]⟩
      rw [hany2] at htr
      exact Bool.false_ne_true htr
    have hne3 : ∀ e ∈ A3, e.staffId ≠ j := by
      intro e he hej
      have htr : A3.any (fun e => e.staffId == j) = true :=
        List.any_eq_true.mpr ⟨e, he, by simp [hej]⟩
      rw [hany3] at htr
      exact Bool.false_ne_true htr
    refine ⟨?_, ?_⟩
    · intro e he
      rcases List.mem_append.mp he with h | h
      · rcases List.mem_append.mp h with h' | h'
        · rcases List.mem_append.mp h' with h'' | h''
          · exact hne1 e h''
          · exact hne2 e h''
        · exact hne3 e h'
      · exact hA4ne e h
    · rw [hdp, hloadsPP, hs3, hloads3 j hne3, hs2, hloads2 j hne2, hs1, hloads1 j hne1]

/-- The final rest update leaves untouched every staff id not in the list. -/
theorem FormatDate.restFold_ne (flag : Flags) (L : List Staff) (f : Int → StaffLoad)
    (j : Int) (h : ∀ t ∈ L, t.id ≠ j) :
    (L.foldl (fun f s =>
      if !flag s.id then
        updateFn f s.id
          { f s.id with consecutiveShifts := 0, restDays := (f s.id).restDays + 1 }
      else f) f) j = f j := by
  induction L generalizing f with
  | nil => rfl
  | cons t rest ih =>
    simp only [List.foldl_cons]
    rw [ih _ (fun u hu => h u (List.mem_cons_of_mem _ hu))]
    have htj : t.id ≠ j := h t (List.mem_cons_self _ _)
    split
    · exact updateFn_ne _ _ _ _ (Ne.symm htj)
    · rfl

/-- The final rest update resets the streak and increments the rest-day
counter of an unflagged list member (under distinct ids). -/
theorem FormatDate.restFold_mem (flag : Flags) (L : List Staff) (s : Staff) :
    ∀ f : Int → StaffLoad, s ∈ L → (L.map (fun t => t.id)).Nodup → flag s.id = false →
    (L.foldl (fun f s =>
      if !flag s.id then
        updateFn f s.id
          { f s.id with consecutiveShifts := 0, restDays := (f s.id).restDays + 1 }
      else f) f) s.id
      = { f s.id with consecutiveShifts := 0, restDays := (f s.id).restDays + 1 } := by
  induction L with
  | nil => intro f hs _ _; cases hs
  | cons t rest ih =>
    intro f hs hnd hf
    simp only [List.foldl_cons]
    rcases List.mem_cons.mp hs with rfl | h
    · have hrest : ∀ u ∈ rest, u.id ≠ s.id := by
        intro u hu he
        have hmm : s.id ∈ rest.map (fun t => t.id) := by
          rw [← he]; exact List.mem_map_of_mem _ hu
        exact (List.nodup_cons.mp hnd).1 hmm
      rw [FormatDate.restFold_ne flag rest _ s.id hrest]
      simp [hf, updateFn]
    · have hts : t.id ≠ s.id := by
        intro he
        have hmm : t.id ∈ rest.map (fun t => t.id) := by
          rw [he]; exact List.mem_map_of_mem _ h
        exact (List.nodup_cons.mp hnd).1 hmm
      have hpres : ((if !flag t.id then
          updateFn f t.id
            { f t.id with consecutiveShifts := 0, restDays := (f t.id).restDays + 1 }
        else f)) s.id = f s.id := by
        split
        · exact updateFn_ne _ _ _ _ (Ne.symm hts)
        · rfl
      rw [ih _ h (List.nodup_cons.mp hnd).2 hf, hpres]

/-- Pointwise description of `finalRest` at an unflagged member. -/
theorem FormatDate.finalRest_loads (staff : List Staff) (flag : Flags) (st : GenState)
    (s : Staff) (hs : s ∈ staff) (hnd : (staff.map (fun t => t.id)).Nodup)
    (hf : flag s.id = false) :
    (FormatDate.finalRest staff flag st).loads s.id
      = { st.loads s.id with consecutiveShifts := 0,
                             restDays := (st.loads s.id).restDays + 1 } := by
  simpa only [FormatDate.finalRest] using
    FormatDate.restFold_mem flag staff s st.loads hs hnd hf

/-! ## Claim C6 -/

/-- **C6**: in the format-date variant (the one whose final unassigned-staff
loop the claim cites), any staff member whose `assignedShifts` flag is still
false after steps 3-7 of a date — no day, evening, night, pre-duty or
post-duty assignment — ends the date with their consecutive-shift streak reset
to 0 and their rest-day counter incremented by 1, and the date appends no
ScheduleEntry for them. -/
theorem C6_unassigned_rest_update (ctx : RunCtx) (st : GenState) (d : Int)
    (s : Staff) (hs : s ∈ ctx.staff)
    (hnd : (ctx.staff.map (fun t => t.id)).Nodup)
    (hflag : (FormatDate.datePhases ctx st d).2 s.id = false) :
    (FormatDate.processDate ctx st d).loads s.id
      = { st.loads s.id with consecutiveShifts := 0,
                             restDays := (st.loads s.id).restDays + 1 }
    ∧ ∃ A : List InsertSchedule,
        (FormatDate.processDate ctx st d).schedules = st.schedules ++ A
        ∧ ∀ e ∈ A, e.staffId ≠ s.id := by
  obtain ⟨A, hA, hprop⟩ := FormatDate.datePhases_spec ctx st d
  obtain ⟨hAne, hloadsEq⟩ := hprop s.id hflag
  have hpd : FormatDate.processDate ctx st d
      = FormatDate.finalRest ctx.staff (FormatDate.datePhases ctx st d).2
          (FormatDate.datePhases ctx st d).1 := rfl
  constructor
  · rw [hpd, FormatDate.finalRest_loads ctx.staff _ _ s hs hnd hflag, hloadsEq]
  · exact ⟨A, by rw [hpd]; exact hA, hAne⟩

/-- Witness for C6: a one-person roster unavailable on the sole date — the
member is skipped by every phase, their streak is reset, their rest-day
counter becomes 1, and the date emits no entry. -/
theorem C6_unassigned_rest_update_witness :
    (FormatDate.processDate (FormatDate.mkRunCtx exInput1)
        (initState (FormatDate.mkRunCtx exInput1)) 0).loads 1
      = { (initState (FormatDate.mkRunCtx exInput1)).loads 1 with
          consecutiveShifts := 0,
          restDays := ((initState (FormatDate.mkRunCtx exInput1)).loads 1).restDays + 1 }
    ∧ ∃ A : List InsertSchedule,
        (FormatDate.processDate (FormatDate.mkRunCtx exInput1)
            (initState (FormatDate.mkRunCtx exInput1)) 0).schedules
          = (initState (FormatDate.mkRunCtx exInput1)).schedules ++ A
        ∧ ∀ e ∈ A, e.staffId ≠ 1 :=
  C6_unassigned_rest_update (FormatDate.mkRunCtx exInput1)
    (initState (FormatDate.mkRunCtx exInput1)) 0
    { id := 1, firstName := "A", lastName := "L", specialization := none }
    (by decide) (by decide) (by decide)
